import Mathlib

/-!
Verification of the VM configuration validator and the device dependency
tree of the `vmm` crate (files `vmm/src/config.rs` and
`vmm/src/device_tree.rs`), as a shallow embedding in Lean 4.

Conventions.
* Rust `HashMap<String, V>` is modelled as an association list
  `List (String × V)` in an arbitrary but fixed iteration order; where the
  code relies on key uniqueness this appears as an explicit hypothesis.
* Rust `u8`/`u16`/`u32`/`u64`/`usize` values are modelled as `Nat`; wrapping
  is written out explicitly (`% 2 ^ 64`) at the points where user-supplied
  values can overflow (memory-size additions).  Rust `i32` is `Int`.
* `PathBuf` and `String` are both modelled as `String`.
* A fallible Rust function returns `Except`; a function that can panic
  returns an `Option` (with `none` for the panic).
-/

set_option maxRecDepth 8000

namespace CHV

/-- `DeviceNode` from `device_tree.rs` (serializable fields; the transient
`migratable`/`pci_device_handle` handles and the resource list are opaque to
everything modelled here and are omitted).  `pci_bdf` is kept abstract as a
`Nat` encoding of the PCI Bus/Device/Function address. -/
structure DeviceNode where
  id : String
  parent : Option String
  children : List String
  pci_bdf : Option Nat
deriving Repr, DecidableEq

/-- `DeviceTree` wraps `HashMap<String, DeviceNode>`, modelled as an
association list from key to node. -/
abbrev DeviceTree := List (String × DeviceNode)

/-- `hash_map.get(k)`: the entry with key `k` (the node together with its
key, so that positions in the traversal can be tracked). -/
def lookupNode (m : DeviceTree) (k : String) : Option (String × DeviceNode) :=
  m.find? (fun e => e.1 == k)

/-- The body of the inner `for child_node_id in nodes[i].children` loop of
`BftIter::new`: look every child id up and keep the hits. -/
def childEntries (m : DeviceTree) (n : DeviceNode) : List (String × DeviceNode) :=
  n.children.filterMap (fun c => lookupNode m c)

/-- The initial frontier of `BftIter::new`: entries whose node has no
parent, in map-iteration order. -/
def bftRoots (m : DeviceTree) : List (String × DeviceNode) :=
  m.filter (fun e => e.2.parent.isNone)

/-- The `while i < nodes.len()` loop of `BftIter::new`.  The Rust loop has
no fuel; it terminates exactly when the visited vector stops growing ahead
of `i`.  The fuel argument makes the recursion structural; the development
proves (`bftLoop_completes`) that under the hypotheses of the claims the
fuel `m.length` used by `bftEntries` is never exhausted, so on those inputs
this is the exact loop of the source.  Returns the final vector together
with the final value of `i`. -/
def bftLoop (m : DeviceTree) :
    Nat → List (String × DeviceNode) → Nat → List (String × DeviceNode) × Nat
  | 0, nodes, i => (nodes, i)
  | fuel+1, nodes, i =>
    if h : i < nodes.length then
      bftLoop m fuel (nodes ++ childEntries m (nodes.get ⟨i, h⟩).2) (i + 1)
    else
      (nodes, i)

/-- The fully computed vector of `BftIter::new`, with keys attached. -/
def bftEntries (m : DeviceTree) : List (String × DeviceNode) :=
  (bftLoop m m.length (bftRoots m) 0).1

/-- `DeviceTree::breadth_first_traversal` — the node sequence the iterator
yields when consumed forward (`Iterator::next` removes from the front, so
forward consumption yields exactly the precomputed vector in order). -/
def breadth_first_traversal (m : DeviceTree) : List DeviceNode :=
  (bftEntries m).map Prod.snd

/-- Consuming a `BftIter` backwards: `DoubleEndedIterator::next_back` pops
the last element of the vector; `collectBack` is the sequence of nodes an
exclusively-backward consumer observes. -/
def collectBack (l : List DeviceNode) : List DeviceNode :=
  if hne : l = [] then []
  else l.getLast hne :: collectBack l.dropLast
termination_by l.length
decreasing_by
  simp only [List.length_dropLast]
  have : l.length ≠ 0 := fun h0 => hne (List.length_eq_zero.mp h0)
  omega

/-- Keys of the map are pairwise distinct (the `HashMap` invariant). -/
def keysNodup (m : DeviceTree) : Prop := (m.map Prod.fst).Nodup

/-- The parent/child links of the tree are consistent: each node's
`children` list names exactly the keys of the entries whose `parent` field
names it, without repetitions. -/
def consistentTree (m : DeviceTree) : Prop :=
  ∀ e ∈ m,
    e.2.children.Nodup ∧
    (∀ c ∈ e.2.children, ∃ e' ∈ m, e'.1 = c ∧ e'.2.parent = some e.1) ∧
    (∀ e' ∈ m, e'.2.parent = some e.1 → e'.1 ∈ e.2.children)

/-- An entry hangs off a parentless root through finitely many parent
links. -/
inductive ReachesRoot (m : DeviceTree) : (String × DeviceNode) → Prop
  | root (e) (he : e ∈ m) (hp : e.2.parent = none) : ReachesRoot m e
  | child (e p) (he : e ∈ m) (hp : e.2.parent = some p.1)
      (hr : ReachesRoot m p) : ReachesRoot m e

/-- The batch appended while visiting position `k` of the final vector:
the child entries of the node at that position (empty past the end). -/
def nbatch (m : DeviceTree) (l : List (String × DeviceNode)) (k : Nat) :
    List (String × DeviceNode) :=
  match l.get? k with
  | some e => childEntries m e.2
  | none => []

lemma lookupNode_key {m : DeviceTree} {c : String} {e : String × DeviceNode}
    (h : lookupNode m c = some e) : e.1 = c := by
  have := List.find?_some h
  simpa using this

lemma lookupNode_mem {m : DeviceTree} {c : String} {e : String × DeviceNode}
    (h : lookupNode m c = some e) : e ∈ m :=
  List.mem_of_find?_eq_some h

lemma key_inj {m : DeviceTree} (hk : keysNodup m) :
    ∀ {a b : String × DeviceNode}, a ∈ m → b ∈ m → a.1 = b.1 → a = b := by
  induction m with
  | nil => intro a b ha; simp at ha
  | cons x t ih =>
    intro a b ha hb hab
    have hk' : (t.map Prod.fst).Nodup := (List.nodup_cons.mp hk).2
    have hx : x.1 ∉ t.map Prod.fst := (List.nodup_cons.mp hk).1
    rcases List.mem_cons.mp ha with rfl | hat
    · rcases List.mem_cons.mp hb with rfl | hbt
      · rfl
      · exact absurd (hab ▸ List.mem_map_of_mem Prod.fst hbt) hx
    · rcases List.mem_cons.mp hb with rfl | hbt
      · exact absurd (hab ▸ List.mem_map_of_mem Prod.fst hat) hx
      · exact ih hk' hat hbt hab

lemma lookupNode_self {m : DeviceTree} (hk : keysNodup m)
    {e : String × DeviceNode} (he : e ∈ m) : lookupNode m e.1 = some e := by
  induction m with
  | nil => simp at he
  | cons x t ih =>
    have hx : x.1 ∉ t.map Prod.fst := (List.nodup_cons.mp hk).1
    have hk' : (t.map Prod.fst).Nodup := (List.nodup_cons.mp hk).2
    rcases List.mem_cons.mp he with rfl | het
    · simp [lookupNode, List.find?]
    · have hne : (x.1 == e.1) = false := by
        refine beq_eq_false_iff_ne.mpr ?_
        intro hxe
        exact hx (hxe ▸ List.mem_map_of_mem Prod.fst het)
      simpa [lookupNode, List.find?, hne] using ih hk' het

lemma mem_childEntries {m : DeviceTree} (hk : keysNodup m) {n : DeviceNode}
    {e : String × DeviceNode} :
    e ∈ childEntries m n ↔ e ∈ m ∧ e.1 ∈ n.children := by
  constructor
  · intro h
    rcases List.mem_filterMap.mp h with ⟨c, hc, hl⟩
    exact ⟨lookupNode_mem hl, (lookupNode_key hl) ▸ hc⟩
  · rintro ⟨hm, hc⟩
    exact List.mem_filterMap.mpr ⟨e.1, hc, lookupNode_self hk hm⟩

lemma mem_childEntries_consistent {m : DeviceTree} (hk : keysNodup m)
    (hc : consistentTree m) {f e : String × DeviceNode} (hf : f ∈ m) :
    e ∈ childEntries m f.2 ↔ e ∈ m ∧ e.2.parent = some f.1 := by
  constructor
  · intro h
    rcases (mem_childEntries hk).mp h with ⟨hm, hch⟩
    rcases (hc f hf).2.1 e.1 hch with ⟨e', he'm, he'k, he'p⟩
    have : e' = e := key_inj hk he'm hm he'k
    exact ⟨hm, this ▸ he'p⟩
  · rintro ⟨hm, hp⟩
    exact (mem_childEntries hk).mpr ⟨hm, (hc f hf).2.2 e hm hp⟩

lemma bftLoop_prefix (m : DeviceTree) :
    ∀ (fuel : Nat) (nodes : List (String × DeviceNode)) (i : Nat),
      ∃ t, (bftLoop m fuel nodes i).1 = nodes ++ t := by
  intro fuel
  induction fuel with
  | zero => intro nodes i; exact ⟨[], by simp [bftLoop]⟩
  | succ fuel ih =>
    intro nodes i
    by_cases h : i < nodes.length
    · obtain ⟨t, ht⟩ := ih (nodes ++ childEntries m (nodes.get ⟨i, h⟩).2) (i + 1)
      exact ⟨childEntries m (nodes.get ⟨i, h⟩).2 ++ t, by
        simp only [bftLoop, h, dif_pos]
        rw [← List.append_assoc]
        exact ht⟩
    · exact ⟨[], by simp [bftLoop, h]⟩

lemma bftLoop_i_le (m : DeviceTree) :
    ∀ (fuel : Nat) (nodes : List (String × DeviceNode)) (i : Nat),
      i ≤ (bftLoop m fuel nodes i).2 := by
  intro fuel
  induction fuel with
  | zero => intro nodes i; simp [bftLoop]
  | succ fuel ih =>
    intro nodes i
    by_cases h : i < nodes.length
    · simp only [bftLoop, h, dif_pos]
      exact le_trans (Nat.le_succ i) (ih _ _)
    · simp [bftLoop, h]

lemma bftLoop_K_le_len (m : DeviceTree) :
    ∀ (fuel : Nat) (nodes : List (String × DeviceNode)) (i : Nat),
      i ≤ nodes.length → (bftLoop m fuel nodes i).2 ≤ (bftLoop m fuel nodes i).1.length := by
  intro fuel
  induction fuel with
  | zero => intro nodes i hi; simpa [bftLoop] using hi
  | succ fuel ih =>
    intro nodes i hi
    by_cases h : i < nodes.length
    · simp only [bftLoop, h, dif_pos]
      refine ih _ _ ?_
      simp only [List.length_append]
      omega
    · simpa [bftLoop, h] using hi

lemma bftLoop_completes (m : DeviceTree) :
    ∀ (fuel : Nat) (nodes : List (String × DeviceNode)) (i : Nat),
      i ≤ nodes.length →
      (bftLoop m fuel nodes i).1.length ≤ i + fuel →
      (bftLoop m fuel nodes i).2 = (bftLoop m fuel nodes i).1.length := by
  intro fuel
  induction fuel with
  | zero =>
    intro nodes i hi hlen
    simp only [bftLoop] at hlen ⊢
    omega
  | succ fuel ih =>
    intro nodes i hi hlen
    by_cases h : i < nodes.length
    · simp only [bftLoop, h, dif_pos] at hlen ⊢
      refine ih _ _ ?_ ?_
      · simp only [List.length_append]; omega
      · omega
    · simp only [bftLoop, h, dif_neg, not_false_iff] at hlen ⊢
      omega

lemma bftLoop_subset (m : DeviceTree) :
    ∀ (fuel : Nat) (nodes : List (String × DeviceNode)) (i : Nat),
      (∀ e ∈ nodes, e ∈ m) → ∀ e ∈ (bftLoop m fuel nodes i).1, e ∈ m := by
  intro fuel
  induction fuel with
  | zero => intro nodes i hn; simpa [bftLoop] using hn
  | succ fuel ih =>
    intro nodes i hn
    by_cases h : i < nodes.length
    · simp only [bftLoop, h, dif_pos]
      refine ih _ _ ?_
      intro e he
      rcases List.mem_append.mp he with he | he
      · exact hn e he
      · rcases List.mem_filterMap.mp he with ⟨c, _, hl⟩
        exact lookupNode_mem hl
    · simpa [bftLoop, h] using hn

lemma bftLoop_batches (m : DeviceTree) :
    ∀ (fuel : Nat) (nodes : List (String × DeviceNode)) (i : Nat),
      (bftLoop m fuel nodes i).1 =
        nodes ++ (List.range ((bftLoop m fuel nodes i).2 - i)).flatMap
          (fun d => nbatch m (bftLoop m fuel nodes i).1 (i + d)) := by
  intro fuel
  induction fuel with
  | zero => intro nodes i; simp [bftLoop]
  | succ fuel ih =>
    intro nodes i
    by_cases h : i < nodes.length
    · have hstep : bftLoop m (fuel + 1) nodes i
          = bftLoop m fuel (nodes ++ childEntries m (nodes.get ⟨i, h⟩).2) (i + 1) := by
        simp [bftLoop, h]
      rw [hstep]
      have hle : i + 1 ≤ (bftLoop m fuel (nodes ++ childEntries m (nodes.get ⟨i, h⟩).2) (i + 1)).2 :=
        bftLoop_i_le m fuel _ (i + 1)
      obtain ⟨t, ht⟩ := bftLoop_prefix m fuel (nodes ++ childEntries m (nodes.get ⟨i, h⟩).2) (i + 1)
      have hnb : nbatch m (bftLoop m fuel (nodes ++ childEntries m (nodes.get ⟨i, h⟩).2) (i + 1)).1 i
          = childEntries m (nodes.get ⟨i, h⟩).2 := by
        unfold nbatch
        rw [ht, List.get?_append (by simp only [List.length_append]; omega),
          List.get?_append h, List.get?_eq_get h]
      have hKi : (bftLoop m fuel (nodes ++ childEntries m (nodes.get ⟨i, h⟩).2) (i + 1)).2 - i
          = ((bftLoop m fuel (nodes ++ childEntries m (nodes.get ⟨i, h⟩).2) (i + 1)).2 - (i + 1)) + 1 := by
        omega
      rw [hKi, List.range_succ_eq_map, List.flatMap_cons]
      simp only [Nat.add_zero]
      rw [hnb, List.bind_map]
      have ih' := ih (nodes ++ childEntries m (nodes.get ⟨i, h⟩).2) (i + 1)
      have hfun :
          (fun d => nbatch m (bftLoop m fuel (nodes ++ childEntries m (nodes.get ⟨i, h⟩).2) (i + 1)).1
              (i + 1 + d))
          = (fun a => nbatch m (bftLoop m fuel (nodes ++ childEntries m (nodes.get ⟨i, h⟩).2) (i + 1)).1
              (i + Nat.succ a)) := by
        funext d
        congr 1
        omega
      rw [hfun] at ih'
      rw [← List.append_assoc]
      exact ih'
    · simp [bftLoop, h]

/-- Invariant of the breadth-first loop: every element at a position past
the initial frontier was pushed as a child of an element at a strictly
earlier, already-visited position. -/
def bftInv (m : DeviceTree) (B : Nat) (l : List (String × DeviceNode)) (i : Nat) : Prop :=
  ∀ j e, l.get? j = some e → B ≤ j →
    ∃ k f, l.get? k = some f ∧ k < j ∧ k < i ∧ e ∈ childEntries m f.2

lemma bftLoop_inv (m : DeviceTree) (B : Nat) :
    ∀ (fuel : Nat) (nodes : List (String × DeviceNode)) (i : Nat),
      bftInv m B nodes i →
      bftInv m B (bftLoop m fuel nodes i).1 (bftLoop m fuel nodes i).2 := by
  intro fuel
  induction fuel with
  | zero => intro nodes i hinv; simpa [bftLoop] using hinv
  | succ fuel ih =>
    intro nodes i hinv
    by_cases h : i < nodes.length
    · have hstep : bftLoop m (fuel + 1) nodes i
          = bftLoop m fuel (nodes ++ childEntries m (nodes.get ⟨i, h⟩).2) (i + 1) := by
        simp [bftLoop, h]
      rw [hstep]
      refine ih _ _ ?_
      intro j e hj hBj
      by_cases hjlen : j < nodes.length
      · have hje : nodes.get? j = some e := by
          rw [List.get?_append hjlen] at hj; exact hj
        obtain ⟨k, f, hkf, hkj, hki, hmem⟩ := hinv j e hje hBj
        have hklen : k < nodes.length := lt_trans hkj hjlen
        exact ⟨k, f, by rw [List.get?_append hklen]; exact hkf,
          hkj, Nat.lt_succ_of_lt hki, hmem⟩
      · have hlen : nodes.length ≤ j := le_of_not_lt hjlen
        have hce : (childEntries m (nodes.get ⟨i, h⟩).2).get? (j - nodes.length) = some e := by
          rw [List.get?_append_right hlen] at hj; exact hj
        refine ⟨i, nodes.get ⟨i, h⟩, ?_, lt_of_lt_of_le h hlen, Nat.lt_succ_self i,
          List.get?_mem hce⟩
        rw [List.get?_append h]
        exact List.get?_eq_get h
    · simpa [bftLoop, h] using hinv

lemma bftEntries_inv (m : DeviceTree) :
    bftInv m (bftRoots m).length (bftEntries m) (bftLoop m m.length (bftRoots m) 0).2 := by
  refine bftLoop_inv m (bftRoots m).length m.length (bftRoots m) 0 ?_
  intro j e hj hBj
  have : (bftRoots m).get? j = none := List.get?_eq_none.mpr hBj
  rw [this] at hj
  exact absurd hj (by simp)

lemma bftRoots_subset (m : DeviceTree) : ∀ e ∈ bftRoots m, e ∈ m := by
  intro e he
  exact (List.mem_filter.mp he).1

lemma bftEntries_subset (m : DeviceTree) : ∀ e ∈ bftEntries m, e ∈ m :=
  bftLoop_subset m m.length (bftRoots m) 0 (bftRoots_subset m)

lemma bftEntries_batches (m : DeviceTree) :
    bftEntries m = bftRoots m ++
      (List.range ((bftLoop m m.length (bftRoots m) 0).2)).flatMap
        (fun d => nbatch m (bftEntries m) d) := by
  have h := bftLoop_batches m m.length (bftRoots m) 0
  rw [Nat.sub_zero] at h
  have hfun : (fun d => nbatch m (bftLoop m m.length (bftRoots m) 0).1 (0 + d))
      = (fun d => nbatch m (bftEntries m) d) := by
    funext d
    rw [Nat.zero_add]
    rfl
  rw [hfun] at h
  exact h

lemma count_filterMap_lookup (m : DeviceTree) (e : String × DeviceNode) :
    ∀ cs : List String, (cs.filterMap (lookupNode m)).count e ≤ cs.count e.1 := by
  intro cs
  induction cs with
  | nil => simp
  | cons c t ih =>
    simp only [List.filterMap_cons]
    cases hl : lookupNode m c with
    | none =>
      refine le_trans ih ?_
      simp only [List.count_cons]
      split <;> omega
    | some x =>
      have hkey : x.1 = c := lookupNode_key hl
      by_cases hxe : x = e
      · subst hxe
        subst hkey
        rw [List.count_cons_self, List.count_cons_self]
        omega
      · have hL : (x :: List.filterMap (lookupNode m) t).count e
            = (List.filterMap (lookupNode m) t).count e := by
          rw [List.count_cons]
          simp [beq_eq_false_iff_ne.mpr hxe]
        rw [hL]
        refine le_trans ih ?_
        rw [List.count_cons]
        split <;> omega

lemma sum_indicator_le_count {α : Type} [DecidableEq α] [BEq α] [LawfulBEq α] (x : α) :
    ∀ (l : List α) (K : Nat),
      ((List.range K).map (fun k => if l.get? k = some x then 1 else 0)).sum ≤ l.count x := by
  intro l
  induction l with
  | nil =>
    intro K
    have hz : ((List.range K).map
        (fun k => if ([] : List α).get? k = some x then 1 else 0)).sum = 0 := by
      apply List.sum_eq_zero
      intro y hy
      rcases List.mem_map.mp hy with ⟨k, _, hk⟩
      simpa using hk.symm
    rw [hz]
    exact Nat.zero_le _
  | cons a t ih =>
    intro K
    cases K with
    | zero => simp
    | succ K =>
      rw [List.range_succ_eq_map, List.map_cons, List.sum_cons, List.map_map]
      have hcomp : ((fun k => if (a :: t).get? k = some x then 1 else 0) ∘ Nat.succ)
          = (fun k => if t.get? k = some x then 1 else 0) := by
        funext k
        simp [List.get?_cons_succ]
      rw [hcomp]
      have h0 : (a :: t).get? 0 = some a := rfl
      rw [h0]
      have hind : (if (some a = some x) then 1 else 0) = if (a == x) = true then 1 else 0 := by
        by_cases hax : a = x
        · simp [hax]
        · simp [hax, beq_eq_false_iff_ne.mpr hax]
      rw [hind, List.count_cons]
      have := ih K
      omega

lemma nodup_iff_count_le_one' {α : Type} [BEq α] [LawfulBEq α] :
    ∀ {l : List α}, l.Nodup ↔ ∀ a, l.count a ≤ 1 := by
  intro l
  induction l with
  | nil => simp
  | cons b t ih =>
    rw [List.nodup_cons]
    constructor
    · rintro ⟨hb, ht⟩ a
      rw [List.count_cons]
      split
      · rename_i hcond
        have hba : b = a := by simpa using hcond
        subst hba
        have : t.count b = 0 := List.count_eq_zero.mpr hb
        omega
      · have := ih.mp ht a
        omega
    · intro h
      constructor
      · intro hmem
        have h1 : t.count b ≠ 0 := fun h0 => (List.count_eq_zero.mp h0) hmem
        have h2 := h b
        rw [List.count_cons_self] at h2
        omega
      · refine ih.mpr ?_
        intro a
        have h2 := h a
        rw [List.count_cons] at h2
        split at h2 <;> omega

lemma mem_of_reaches {m : DeviceTree} {e : String × DeviceNode}
    (h : ReachesRoot m e) : e ∈ m := by
  cases h with
  | root e he _ => exact he
  | child e p he _ _ => exact he

lemma bft_count_le_one {m : DeviceTree} (hk : keysNodup m) (hc : consistentTree m) :
    ∀ e, ReachesRoot m e → (bftEntries m).count e ≤ 1 := by
  intro e hr
  induction hr with
  | root e he hp =>
    rw [bftEntries_batches m, List.count_append, List.count_flatMap]
    have hroots : (bftRoots m).count e ≤ 1 := by
      have hnd : (bftRoots m).Nodup :=
        List.Nodup.filter _ (List.Nodup.of_map Prod.fst hk)
      exact nodup_iff_count_le_one'.mp hnd e
    have hzero : ((List.range ((bftLoop m m.length (bftRoots m) 0).2)).map
        (List.count e ∘ fun d => nbatch m (bftEntries m) d)).sum = 0 := by
      apply List.sum_eq_zero
      intro y hy
      rcases List.mem_map.mp hy with ⟨d, _, hd⟩
      rw [← hd]
      simp only [Function.comp_apply]
      rw [List.count_eq_zero]
      intro hmem
      unfold nbatch at hmem
      cases hget : (bftEntries m).get? d with
      | none => rw [hget] at hmem; simp at hmem
      | some f =>
        rw [hget] at hmem
        simp only at hmem
        have hf : f ∈ m := bftEntries_subset m f (List.get?_mem hget)
        have := ((mem_childEntries_consistent hk hc hf).mp hmem).2
        rw [hp] at this
        exact Option.noConfusion this
    omega
  | child e p he hp hrp ih =>
    have hpm : p ∈ m := mem_of_reaches hrp
    rw [bftEntries_batches m, List.count_append, List.count_flatMap]
    have hroots : (bftRoots m).count e = 0 := by
      rw [List.count_eq_zero]
      intro hmem
      have := (List.mem_filter.mp hmem).2
      rw [hp] at this
      simp at this
    have hterm : ∀ d ∈ List.range ((bftLoop m m.length (bftRoots m) 0).2),
        (List.count e ∘ fun d => nbatch m (bftEntries m) d) d ≤
          (fun k => if (bftEntries m).get? k = some p then 1 else 0) d := by
      intro d _
      simp only [Function.comp_apply]
      cases hget : (bftEntries m).get? d with
      | none =>
        unfold nbatch
        rw [hget]
        simp
      | some f =>
        unfold nbatch
        rw [hget]
        show (childEntries m f.2).count e ≤ if some f = some p then 1 else 0
        by_cases hfp : f = p
        · subst hfp
          rw [if_pos rfl]
          have h1 : (childEntries m f.2).count e ≤ f.2.children.count e.1 :=
            count_filterMap_lookup m e f.2.children
          have h2 : f.2.children.count e.1 ≤ 1 :=
            nodup_iff_count_le_one'.mp (hc f hpm).1 e.1
          omega
        · have hz : (childEntries m f.2).count e = 0 := by
            rw [List.count_eq_zero]
            intro hmem
            have hf : f ∈ m := bftEntries_subset m f (List.get?_mem hget)
            have hpe := ((mem_childEntries_consistent hk hc hf).mp hmem).2
            rw [hp] at hpe
            have : p.1 = f.1 := by injection hpe
            exact hfp (key_inj hk hf hpm this.symm)
          rw [hz]
          exact Nat.zero_le _
    have hsum : ((List.range ((bftLoop m m.length (bftRoots m) 0).2)).map
          (List.count e ∘ fun d => nbatch m (bftEntries m) d)).sum ≤
        ((List.range ((bftLoop m m.length (bftRoots m) 0).2)).map
          (fun k => if (bftEntries m).get? k = some p then 1 else 0)).sum :=
      List.sum_le_sum hterm
    have hcnt : ((List.range ((bftLoop m m.length (bftRoots m) 0).2)).map
        (fun k => if (bftEntries m).get? k = some p then 1 else 0)).sum ≤
          (bftEntries m).count p :=
      sum_indicator_le_count p (bftEntries m) _
    omega

lemma bftEntries_nodup {m : DeviceTree} (hk : keysNodup m) (hc : consistentTree m)
    (hr : ∀ e ∈ m, ReachesRoot m e) : (bftEntries m).Nodup := by
  rw [nodup_iff_count_le_one']
  intro e
  by_cases he : e ∈ bftEntries m
  · exact bft_count_le_one hk hc e (hr e (bftEntries_subset m e he))
  · rw [List.count_eq_zero.mpr he]
    omega

lemma bftEntries_len_le {m : DeviceTree} (hk : keysNodup m) (hc : consistentTree m)
    (hr : ∀ e ∈ m, ReachesRoot m e) : (bftEntries m).length ≤ m.length :=
  List.Subperm.length_le
    (List.subperm_of_subset (bftEntries_nodup hk hc hr) (bftEntries_subset m))

/-- Under the hypotheses of the claims the fuel given to the loop is never
exhausted: the loop runs to its natural exit, with the final index equal to
the final vector length, exactly as in the source. -/
lemma bftLoop_fuel_ok {m : DeviceTree} (hk : keysNodup m) (hc : consistentTree m)
    (hr : ∀ e ∈ m, ReachesRoot m e) :
    (bftLoop m m.length (bftRoots m) 0).2 = (bftEntries m).length := by
  exact bftLoop_completes m m.length (bftRoots m) 0 (Nat.zero_le _)
    (by simpa using bftEntries_len_le hk hc hr)

lemma bft_complete {m : DeviceTree} (hk : keysNodup m) (hc : consistentTree m)
    (hra : ∀ e ∈ m, ReachesRoot m e) :
    ∀ e, ReachesRoot m e → e ∈ bftEntries m := by
  have hK := bftLoop_fuel_ok hk hc hra
  intro e hr
  induction hr with
  | root e he hp =>
    obtain ⟨t, ht⟩ := bftLoop_prefix m m.length (bftRoots m) 0
    have hroot : e ∈ bftRoots m := List.mem_filter.mpr ⟨he, by simp [hp]⟩
    show e ∈ bftEntries m
    rw [show bftEntries m = bftRoots m ++ t from ht]
    exact List.mem_append.mpr (Or.inl hroot)
  | child e p he hp hrp ih =>
    obtain ⟨k, hkp⟩ := List.get?_of_mem ih
    have hklt : k < (bftEntries m).length := by
      rcases List.get?_eq_some.mp hkp with ⟨h, _⟩
      exact h
    have hkK : k < (bftLoop m m.length (bftRoots m) 0).2 := by
      rw [hK]; exact hklt
    have hbatch : e ∈ nbatch m (bftEntries m) k := by
      unfold nbatch
      rw [hkp]
      exact (mem_childEntries_consistent hk hc (mem_of_reaches hrp)).mpr ⟨he, hp⟩
    rw [bftEntries_batches m]
    refine List.mem_append.mpr (Or.inr ?_)
    exact List.mem_flatMap.mpr ⟨k, List.mem_range.mpr hkK, hbatch⟩

lemma bft_ordering {m : DeviceTree} (hk : keysNodup m) (hc : consistentTree m)
    (hra : ∀ e ∈ m, ReachesRoot m e) :
    ∀ e ∈ m, ∀ q, e.2.parent = some q →
      ∃ jp je, jp < je ∧
        (∃ pe, (bftEntries m).get? jp = some pe ∧ pe ∈ m ∧ pe.1 = q) ∧
        (bftEntries m).get? je = some e := by
  intro e he q hq
  have heL : e ∈ bftEntries m := bft_complete hk hc hra e (hra e he)
  obtain ⟨je, hje⟩ := List.get?_of_mem heL
  by_cases hjB : je < (bftRoots m).length
  · exfalso
    obtain ⟨t, ht⟩ := bftLoop_prefix m m.length (bftRoots m) 0
    have hre : (bftRoots m).get? je = some e := by
      have h' := hje
      rw [show bftEntries m = bftRoots m ++ t from ht, List.get?_append hjB] at h'
      exact h'
    have hmem := List.get?_mem hre
    have := (List.mem_filter.mp hmem).2
    rw [hq] at this
    simp at this
  · have hBje : (bftRoots m).length ≤ je := le_of_not_lt hjB
    obtain ⟨k, f, hkf, hkje, _, hmem⟩ := bftEntries_inv m je e hje hBje
    have hfm : f ∈ m := bftEntries_subset m f (List.get?_mem hkf)
    have hpe := ((mem_childEntries_consistent hk hc hfm).mp hmem).2
    rw [hq] at hpe
    have hq' : f.1 = q := by
      injection hpe with h'
      exact h'.symm
    exact ⟨k, je, hkje, ⟨f, hkf, hfm, hq'⟩, hje⟩

lemma collectBack_eq_reverse : ∀ l : List DeviceNode, collectBack l = l.reverse := by
  intro l
  induction l using List.reverseRecOn with
  | nil => simp [collectBack]
  | append_singleton xs x ih =>
    have hne : xs ++ [x] ≠ [] := by simp
    rw [collectBack, dif_neg hne]
    have h1 : (xs ++ [x]).getLast? = some x := List.getLast?_concat xs
    have h2 : (xs ++ [x]).getLast? = some ((xs ++ [x]).getLast hne) :=
      List.getLast?_eq_getLast _ hne
    have hlast : (xs ++ [x]).getLast hne = x := by
      rw [h2] at h1
      exact Option.some.inj h1
    rw [hlast, List.dropLast_concat, ih]
    simp

/-- A two-entry cycle: links are consistent (each child list names exactly
the entries pointing back at it) but neither entry descends from a
parentless root. -/
def cycleTree : DeviceTree :=
  [("a", ⟨"a", some "b", ["b"], none⟩), ("b", ⟨"b", some "a", ["a"], none⟩)]

/-- C6 counterexample: on `cycleTree` the parent/child links are consistent
in the claim's sense, entry `"a"` has a parent, yet the breadth-first
traversal is empty — it does not yield every node that has a parent. -/
theorem c6_counterexample :
    keysNodup cycleTree ∧ consistentTree cycleTree ∧
    (∃ e ∈ cycleTree, e.2.parent ≠ none) ∧
    breadth_first_traversal cycleTree = [] := by
  refine ⟨by unfold keysNodup; decide, by unfold consistentTree; decide, ?_, by decide⟩
  exact ⟨("a", ⟨"a", some "b", ["b"], none⟩), by decide, by decide⟩

/-- C6 (amended: the traversal reaches exactly the nodes hanging off a
parentless root, so the claim additionally needs every node to be reachable
from a root — `cycleTree` shows consistency alone does not give this):
for every device tree with distinct keys, consistent parent/child links and
all entries reachable from a parentless root, (1) every entry with a parent
is yielded by the breadth-first traversal strictly after an entry carrying
its parent's key, (2) backward consumption via `next_back` yields the exact
reverse of the forward traversal, and (3) in the backward consumption every
node with a parent appears strictly before its parent. -/
theorem c6_bft_parent_order (m : DeviceTree)
    (hk : keysNodup m) (hc : consistentTree m)
    (hra : ∀ e ∈ m, ReachesRoot m e) :
    (∀ e ∈ m, ∀ q, e.2.parent = some q →
      ∃ jp je, jp < je ∧
        (∃ pe, (bftEntries m).get? jp = some pe ∧ pe ∈ m ∧ pe.1 = q) ∧
        (bftEntries m).get? je = some e) ∧
    collectBack (breadth_first_traversal m) = (breadth_first_traversal m).reverse ∧
    (∀ e ∈ m, ∀ q, e.2.parent = some q →
      ∃ je jp, je < jp ∧
        (collectBack (breadth_first_traversal m)).get? je = some e.2 ∧
        (∃ pe, pe ∈ m ∧ pe.1 = q ∧
          (collectBack (breadth_first_traversal m)).get? jp = some pe.2)) := by
  refine ⟨bft_ordering hk hc hra, collectBack_eq_reverse _, ?_⟩
  intro e he q hq
  obtain ⟨jp, je, hlt, ⟨pe, hjp, hpem, hpek⟩, hje⟩ := bft_ordering hk hc hra e he q hq
  have hjeT : (breadth_first_traversal m).get? je = some e.2 := by
    unfold breadth_first_traversal
    rw [List.get?_map, hje]
    rfl
  have hjpT : (breadth_first_traversal m).get? jp = some pe.2 := by
    unfold breadth_first_traversal
    rw [List.get?_map, hjp]
    rfl
  have hlen : je < (breadth_first_traversal m).length := by
    rcases List.get?_eq_some.mp hjeT with ⟨h, _⟩
    exact h
  have hlenp : jp < (breadth_first_traversal m).length := lt_trans hlt hlen
  have hN : 1 ≤ (breadth_first_traversal m).length := by omega
  refine ⟨(breadth_first_traversal m).length - 1 - je,
    (breadth_first_traversal m).length - 1 - jp, by omega, ?_, pe, hpem, hpek, ?_⟩
  · rw [collectBack_eq_reverse, List.get?_reverse (by omega)]
    have : (breadth_first_traversal m).length - 1 -
        ((breadth_first_traversal m).length - 1 - je) = je := by omega
    rw [this]
    exact hjeT
  · rw [collectBack_eq_reverse, List.get?_reverse (by omega)]
    have : (breadth_first_traversal m).length - 1 -
        ((breadth_first_traversal m).length - 1 - jp) = jp := by omega
    rw [this]
    exact hjpT

/-- A two-entry root/child tree with every node reachable from the root. -/
def pairTree : DeviceTree :=
  [("r", ⟨"r", none, ["c"], none⟩), ("c", ⟨"c", some "r", [], none⟩)]

theorem c6_bft_parent_order_witness :
    (keysNodup pairTree ∧ consistentTree pairTree ∧
      (∀ e ∈ pairTree, ReachesRoot pairTree e)) ∧
    ((∀ e ∈ pairTree, ∀ q, e.2.parent = some q →
      ∃ jp je, jp < je ∧
        (∃ pe, (bftEntries pairTree).get? jp = some pe ∧ pe ∈ pairTree ∧ pe.1 = q) ∧
        (bftEntries pairTree).get? je = some e) ∧
    collectBack (breadth_first_traversal pairTree)
      = (breadth_first_traversal pairTree).reverse ∧
    (∀ e ∈ pairTree, ∀ q, e.2.parent = some q →
      ∃ je jp, je < jp ∧
        (collectBack (breadth_first_traversal pairTree)).get? je = some e.2 ∧
        (∃ pe, pe ∈ pairTree ∧ pe.1 = q ∧
          (collectBack (breadth_first_traversal pairTree)).get? jp = some pe.2))) := by
  have h1 : keysNodup pairTree := by unfold keysNodup; decide
  have h2 : consistentTree pairTree := by unfold consistentTree; decide
  have h3 : ∀ e ∈ pairTree, ReachesRoot pairTree e := by
    intro e he
    rcases List.mem_cons.mp he with rfl | he2
    · exact ReachesRoot.root _ (by decide) rfl
    · rcases List.mem_cons.mp he2 with rfl | he3
      · exact ReachesRoot.child _ ("r", ⟨"r", none, ["c"], none⟩) (by decide) rfl
          (ReachesRoot.root _ (by decide) rfl)
      · exact absurd he3 (List.not_mem_nil e)
  exact ⟨⟨h1, h2, h3⟩, c6_bft_parent_order pairTree h1 h2 h3⟩

/-! ## The configuration model (`vmm/src/config.rs` and the `vm_config`
module it re-exports)

The struct definitions live in `vm_config.rs`, which is not among the
extracted sources; the fields below are reconstructed from their uses in
`config.rs` (parsers and validators), with §3 of the design document as a
cross-check.  Only fields that `config.rs` touches are modelled. -/

/-- `virtio_devices::block::MINIMUM_BLOCK_QUEUE_SIZE` (a companion crate of
this repository, not under the extracted sources).  The claims use it only
abstractly, as "the minimum block queue size". -/
def MINIMUM_BLOCK_QUEUE_SIZE : Nat := 2

/-- `virtio_bindings::virtio_blk::VIRTIO_BLK_ID_BYTES` (external binding). -/
def VIRTIO_BLK_ID_BYTES : Nat := 20

/-- `virtio_devices::net::MIN_MTU` (companion crate). -/
def MIN_MTU : Nat := 1280

def MAX_NUM_PCI_SEGMENTS : Nat := 96

def MAX_IOMMU_ADDRESS_WIDTH_BITS : Nat := 64

/-- Wrap of `u64` addition (`+=` on sizes wraps in release builds). -/
def u64Mod : Nat := 2 ^ 64

inductive ConsoleOutputMode
  | Off
  | Pty
  | Tty
  | File
  | Null
  | Socket
deriving Repr, DecidableEq

structure ConsoleConfig where
  file : Option String
  mode : ConsoleOutputMode
  iommu : Bool
  socket : Option String
deriving Repr, DecidableEq

structure CpuTopology where
  threads_per_core : Nat
  cores_per_die : Nat
  dies_per_package : Nat
  packages : Nat
deriving Repr, DecidableEq

structure CpuAffinity where
  vcpu : Nat
  host_cpus : List Nat
deriving Repr, DecidableEq

structure CpuFeatures where
  amx : Bool
deriving Repr, DecidableEq

structure CpusConfig where
  boot_vcpus : Nat
  max_vcpus : Nat
  topology : Option CpuTopology
  kvm_hyperv : Bool
  max_phys_bits : Nat
  affinity : Option (List CpuAffinity)
  features : CpuFeatures
deriving Repr, DecidableEq

inductive HotplugMethod
  | Acpi
  | VirtioMem
deriving Repr, DecidableEq

structure MemoryZoneConfig where
  id : String
  size : Nat
  file : Option String
  shared : Bool
  hugepages : Bool
  hugepage_size : Option Nat
  host_numa_node : Option Nat
  hotplug_size : Option Nat
  hotplugged_size : Option Nat
  prefault : Bool
deriving Repr, DecidableEq

structure MemoryConfig where
  size : Nat
  mergeable : Bool
  hotplug_method : HotplugMethod
  hotplug_size : Option Nat
  hotplugged_size : Option Nat
  shared : Bool
  hugepages : Bool
  hugepage_size : Option Nat
  prefault : Bool
  zones : Option (List MemoryZoneConfig)
  thp : Bool
deriving Repr, DecidableEq

structure TokenBucketConfig where
  size : Nat
  one_time_burst : Option Nat
  refill_time : Nat
deriving Repr, DecidableEq

structure RateLimiterConfig where
  bandwidth : Option TokenBucketConfig
  ops : Option TokenBucketConfig
deriving Repr, DecidableEq

structure RateLimiterGroupConfig where
  id : String
  rate_limiter_config : RateLimiterConfig
deriving Repr, DecidableEq

structure VirtQueueAffinity where
  queue_index : Nat
  host_cpus : List Nat
deriving Repr, DecidableEq

structure DiskConfig where
  path : Option String
  readonly : Bool
  direct : Bool
  iommu : Bool
  num_queues : Nat
  queue_size : Nat
  vhost_user : Bool
  vhost_socket : Option String
  rate_limit_group : Option String
  rate_limiter_config : Option RateLimiterConfig
  id : Option String
  disable_io_uring : Bool
  disable_aio : Bool
  pci_segment : Nat
  serial : Option String
  queue_affinity : Option (List VirtQueueAffinity)
deriving Repr, DecidableEq

inductive VhostMode
  | Client
  | Server
deriving Repr, DecidableEq

structure NetConfig where
  tap : Option String
  ip : String
  mask : String
  mac : String
  host_mac : Option String
  mtu : Option Nat
  iommu : Bool
  num_queues : Nat
  queue_size : Nat
  vhost_user : Bool
  vhost_socket : Option String
  vhost_mode : VhostMode
  id : Option String
  fds : Option (List Int)
  rate_limiter_config : Option RateLimiterConfig
  pci_segment : Nat
  offload_tso : Bool
  offload_ufo : Bool
  offload_csum : Bool
deriving Repr, DecidableEq

structure RngConfig where
  src : String
  iommu : Bool
deriving Repr, DecidableEq

structure BalloonConfig where
  size : Nat
  deflate_on_oom : Bool
  free_page_reporting : Bool
deriving Repr, DecidableEq

structure FsConfig where
  tag : String
  socket : String
  num_queues : Nat
  queue_size : Nat
  id : Option String
  pci_segment : Nat
deriving Repr, DecidableEq

structure PmemConfig where
  file : String
  size : Option Nat
  iommu : Bool
  discard_writes : Bool
  id : Option String
  pci_segment : Nat
deriving Repr, DecidableEq

structure DeviceConfig where
  path : String
  iommu : Bool
  id : Option String
  pci_segment : Nat
  x_nv_gpudirect_clique : Option Nat
deriving Repr, DecidableEq

structure UserDeviceConfig where
  socket : String
  id : Option String
  pci_segment : Nat
deriving Repr, DecidableEq

structure VdpaConfig where
  path : String
  num_queues : Nat
  iommu : Bool
  id : Option String
  pci_segment : Nat
deriving Repr, DecidableEq

structure VsockConfig where
  cid : Nat
  socket : String
  iommu : Bool
  id : Option String
  pci_segment : Nat
deriving Repr, DecidableEq

structure SgxEpcConfig where
  id : String
  size : Nat
  prefault : Bool
deriving Repr, DecidableEq

structure NumaDistance where
  destination : Nat
  distance : Nat
deriving Repr, DecidableEq

structure NumaConfig where
  guest_numa_id : Nat
  cpus : Option (List Nat)
  distances : Option (List NumaDistance)
  memory_zones : Option (List String)
  sgx_epc_sections : Option (List String)
  pci_segments : Option (List Nat)
deriving Repr, DecidableEq

structure PayloadConfig where
  firmware : Option String
  kernel : Option String
  cmdline : Option String
  initramfs : Option String
deriving Repr, DecidableEq

structure PciSegmentConfig where
  pci_segment : Nat
  mmio32_aperture_weight : Nat
  mmio64_aperture_weight : Nat
deriving Repr, DecidableEq

structure PlatformConfig where
  num_pci_segments : Nat
  iommu_segments : Option (List Nat)
  iommu_address_width_bits : Nat
  serial_number : Option String
  uuid : Option String
  oem_strings : Option (List String)
deriving Repr, DecidableEq

structure TpmConfig where
  socket : String
deriving Repr, DecidableEq

structure LandlockConfig where
  path : String
  access : String
deriving Repr, DecidableEq

structure RestoredNetConfig where
  id : String
  num_fds : Nat
  fds : Option (List Int)
deriving Repr, DecidableEq

structure RestoreConfig where
  source_url : String
  prefault : Bool
  net_fds : Option (List RestoredNetConfig)
deriving Repr, DecidableEq

/-- `VmConfig` on `x86_64` with default cargo features (no `tdx`,
`sev_snp`, `igvm`, `guest_debug`, `pvmemcontrol`). -/
structure VmConfig where
  cpus : CpusConfig
  memory : MemoryConfig
  payload : Option PayloadConfig
  rate_limit_groups : Option (List RateLimiterGroupConfig)
  disks : Option (List DiskConfig)
  net : Option (List NetConfig)
  rng : RngConfig
  balloon : Option BalloonConfig
  fs : Option (List FsConfig)
  pmem : Option (List PmemConfig)
  serial : ConsoleConfig
  console : ConsoleConfig
  debug_console : ConsoleConfig
  devices : Option (List DeviceConfig)
  user_devices : Option (List UserDeviceConfig)
  vdpa : Option (List VdpaConfig)
  vsock : Option VsockConfig
  pvpanic : Bool
  iommu : Bool
  sgx_epc : Option (List SgxEpcConfig)
  numa : Option (List NumaConfig)
  watchdog : Bool
  pci_segments : Option (List PciSegmentConfig)
  platform : Option PlatformConfig
  tpm : Option TpmConfig
  preserved_fds : Option (List Int)
  landlock_enable : Bool
  landlock_rules : Option (List LandlockConfig)
deriving Repr, DecidableEq

/-- `ValidationError` (variants for `x86_64`, default features). -/
inductive ValidationError
  | KernelMissing
  | ConsoleFileMissing
  | ConsoleSocketPathMissing
  | CpusMaxLowerThanBoot
  | DebugconFileMissing
  | DiskSocketAndPath
  | VhostUserRequiresSharedMemory
  | VhostUserMissingSocket
  | IommuUnsupported
  | VfioUnsupported
  | CpuTopologyCount
  | CpuTopologyZeroPart
  | VnetQueueLowerThan2
  | VnetQueueFdMismatch
  | VnetReservedFd
  | NoHardwareChecksumOffload
  | HugePageSizeWithoutHugePages
  | InvalidHugePageSize (size : Nat)
  | TooManyQueues
  | InvalidQueueSize (size : Nat)
  | UserDevicesRequireSharedMemory
  | VsockSpecialCid (cid : Nat)
  | MemoryZoneReused (zone : String) (first : Nat) (second : Nat)
  | InvalidNumPciSegments (n : Nat)
  | InvalidPciSegment (segment : Nat)
  | InvalidPciSegmentApertureWeight (weight : Nat)
  | InvalidIommuAddressWidthBits (bits : Nat)
  | BalloonLargerThanRam (balloon : Nat) (ram : Nat)
  | OnIommuSegment (segment : Nat)
  | IommuNotSupportedOnSegment (segment : Nat)
  | IdentifierNotUnique (id : String)
  | InvalidIdentifier (id : String)
  | IommuNotSupported
  | DuplicateDevicePath (path : String)
  | InvalidMtu (mtu : Nat)
  | PciSegmentReused (segment : Nat) (first : Nat) (second : Nat)
  | DefaultPciSegmentInvalidNode (node : Nat)
  | InvalidRateLimiterGroup
  | InvalidIoPortHex (s : String)
  | RestoreMissingRequiredNetId (id : String)
  | RestoreNetFdCountMismatch (id : String) (actual : Nat) (expected : Nat)
  | LandlockPathDoesNotExist (path : String)
  | InvalidLandlockAccess (msg : String)
  | InvalidSerialLength (actual : Nat) (max : Nat)
deriving Repr, DecidableEq

abbrev ValidationResult (α : Type) := Except ValidationError α

/-- `MemoryConfig::total_size`: base size plus hotplugged size plus every
zone's size and hotplugged size (`u64` wrapping addition made explicit). -/
def MemoryConfig.total_size (m : MemoryConfig) : Nat :=
  let size := m.size
  let size := match m.hotplugged_size with
    | some hotplugged_size => (size + hotplugged_size) % u64Mod
    | none => size
  match m.zones with
  | some zones =>
    zones.foldl (fun size zone =>
      let size := (size + zone.size) % u64Mod
      match zone.hotplugged_size with
      | some hotplugged_size => (size + hotplugged_size) % u64Mod
      | none => size) size
  | none => size

/-- `RateLimiterGroupConfig::validate`. -/
def RateLimiterGroupConfig.validate (g : RateLimiterGroupConfig)
    (_cfg : VmConfig) : ValidationResult Unit :=
  if g.rate_limiter_config.bandwidth.isNone ∧ g.rate_limiter_config.ops.isNone then
    .error .InvalidRateLimiterGroup
  else if g.id.isEmpty then
    .error .InvalidRateLimiterGroup
  else
    .ok ()

/-- The PCI-segment bound / IOMMU-segment placement block that appears
verbatim in the `validate` methods of `DiskConfig`, `NetConfig`,
`PmemConfig`, `DeviceConfig`, `VdpaConfig` and `VsockConfig`: the segment
must be in range, and a device on an IOMMU segment must itself have
`iommu` set. -/
def pciSegmentIommuCheck (platform : Option PlatformConfig)
    (pci_segment : Nat) (iommu : Bool) : Option ValidationError :=
  match platform with
  | some platform_config =>
    if pci_segment ≥ platform_config.num_pci_segments then
      some (.InvalidPciSegment pci_segment)
    else
      match platform_config.iommu_segments with
      | some iommu_segments =>
        if pci_segment ∈ iommu_segments ∧ ¬ iommu then
          some (.OnIommuSegment pci_segment)
        else none
      | none => none
  | none => none

/-- The variant of the block in `FsConfig::validate` and
`UserDeviceConfig::validate`: an IOMMU segment is always an error, with no
per-device opt-in. -/
def pciSegmentNoIommuCheck (platform : Option PlatformConfig)
    (pci_segment : Nat) : Option ValidationError :=
  match platform with
  | some platform_config =>
    if pci_segment ≥ platform_config.num_pci_segments then
      some (.InvalidPciSegment pci_segment)
    else
      match platform_config.iommu_segments with
      | some iommu_segments =>
        if pci_segment ∈ iommu_segments then
          some (.IommuNotSupportedOnSegment pci_segment)
        else none
      | none => none
  | none => none

/-- `DiskConfig::validate`. -/
def DiskConfig.validate (d : DiskConfig) (cfg : VmConfig) : ValidationResult Unit :=
  if d.num_queues > cfg.cpus.boot_vcpus then
    .error .TooManyQueues
  else if d.queue_size ≤ MINIMUM_BLOCK_QUEUE_SIZE then
    .error (.InvalidQueueSize d.queue_size)
  else if d.vhost_user ∧ d.iommu then
    .error .IommuNotSupported
  else
    match pciSegmentIommuCheck cfg.platform d.pci_segment d.iommu with
    | some e => .error e
    | none =>
      if d.rate_limiter_config.isSome ∧ d.rate_limit_group.isSome then
        .error .InvalidRateLimiterGroup
      else
        match d.serial with
        | some serial =>
          if serial.length > VIRTIO_BLK_ID_BYTES then
            .error (.InvalidSerialLength serial.length VIRTIO_BLK_ID_BYTES)
          else .ok ()
        | none => .ok ()

/-- The reserved-fd scan of `NetConfig::validate`: the `for fd in fds`
loop returns the error as soon as some supplied fd is `<= 2`. -/
def netHasReservedFd (fds : Option (List Int)) : Bool :=
  match fds with
  | some fds => fds.any (fun fd => fd ≤ 2)
  | none => false

/-- `NetConfig::validate`. -/
def NetConfig.validate (n : NetConfig) (cfg : VmConfig) : ValidationResult Unit :=
  if n.num_queues < 2 then
    .error .VnetQueueLowerThan2
  else if n.fds.isSome ∧ (n.fds.getD []).length * 2 ≠ n.num_queues then
    .error .VnetQueueFdMismatch
  else if netHasReservedFd n.fds then
    .error .VnetReservedFd
  else if n.num_queues / 2 > cfg.cpus.boot_vcpus then
    .error .TooManyQueues
  else if n.vhost_user ∧ n.iommu then
    .error .IommuNotSupported
  else
    match pciSegmentIommuCheck cfg.platform n.pci_segment n.iommu with
    | some e => .error e
    | none =>
      let offloadCheck : ValidationResult Unit :=
        if ¬ n.offload_csum ∧ (n.offload_tso ∨ n.offload_ufo) then
          .error .NoHardwareChecksumOffload
        else .ok ()
      match n.mtu with
      | some mtu =>
        if mtu < MIN_MTU then .error (.InvalidMtu mtu) else offloadCheck
      | none => offloadCheck

/-- `FsConfig::validate`. -/
def FsConfig.validate (f : FsConfig) (cfg : VmConfig) : ValidationResult Unit :=
  if f.num_queues > cfg.cpus.boot_vcpus then
    .error .TooManyQueues
  else
    match pciSegmentNoIommuCheck cfg.platform f.pci_segment with
    | some e => .error e
    | none => .ok ()

/-- `PmemConfig::validate`. -/
def PmemConfig.validate (p : PmemConfig) (cfg : VmConfig) : ValidationResult Unit :=
  match pciSegmentIommuCheck cfg.platform p.pci_segment p.iommu with
  | some e => .error e
  | none => .ok ()

/-- `DeviceConfig::validate`. -/
def DeviceConfig.validate (d : DeviceConfig) (cfg : VmConfig) : ValidationResult Unit :=
  match pciSegmentIommuCheck cfg.platform d.pci_segment d.iommu with
  | some e => .error e
  | none => .ok ()

/-- `UserDeviceConfig::validate`. -/
def UserDeviceConfig.validate (u : UserDeviceConfig) (cfg : VmConfig) : ValidationResult Unit :=
  match pciSegmentNoIommuCheck cfg.platform u.pci_segment with
  | some e => .error e
  | none => .ok ()

/-- `VdpaConfig::validate`. -/
def VdpaConfig.validate (v : VdpaConfig) (cfg : VmConfig) : ValidationResult Unit :=
  match pciSegmentIommuCheck cfg.platform v.pci_segment v.iommu with
  | some e => .error e
  | none => .ok ()

/-- `VsockConfig::validate`. -/
def VsockConfig.validate (v : VsockConfig) (cfg : VmConfig) : ValidationResult Unit :=
  match pciSegmentIommuCheck cfg.platform v.pci_segment v.iommu with
  | some e => .error e
  | none => .ok ()

/-- `PciSegmentConfig::validate`. -/
def PciSegmentConfig.validate (s : PciSegmentConfig) (cfg : VmConfig) : ValidationResult Unit :=
  let num_pci_segments := match cfg.platform with
    | some platform_config => platform_config.num_pci_segments
    | none => 1
  if s.pci_segment ≥ num_pci_segments then
    .error (.InvalidPciSegment s.pci_segment)
  else if s.mmio32_aperture_weight = 0 then
    .error (.InvalidPciSegmentApertureWeight s.mmio32_aperture_weight)
  else if s.mmio64_aperture_weight = 0 then
    .error (.InvalidPciSegmentApertureWeight s.mmio64_aperture_weight)
  else
    .ok ()

/-- `PlatformConfig::validate`. -/
def PlatformConfig.validate (p : PlatformConfig) : ValidationResult Unit :=
  if p.num_pci_segments = 0 ∨ p.num_pci_segments > MAX_NUM_PCI_SEGMENTS then
    .error (.InvalidNumPciSegments p.num_pci_segments)
  else
    let widthCheck : ValidationResult Unit :=
      if p.iommu_address_width_bits > MAX_IOMMU_ADDRESS_WIDTH_BITS then
        .error (.InvalidIommuAddressWidthBits p.iommu_address_width_bits)
      else .ok ()
    match p.iommu_segments with
    | some iommu_segments =>
      match iommu_segments.find? (fun segment => decide (segment ≥ p.num_pci_segments)) with
      | some segment => .error (.InvalidPciSegment segment)
      | none => widthCheck
    | none => widthCheck

/-- `u64::is_power_of_two` (true exactly for the positive powers of 2;
`x & (x - 1) == 0` with a zero test). -/
def u64_is_power_of_two (n : Nat) : Bool :=
  decide (n ≠ 0) && (Nat.land n (n - 1) == 0)

/-- The environment `LandlockConfig::validate` consults: filesystem path
existence, and acceptance of the access string by
`LandlockAccess::try_from` (both outside the extracted sources). -/
structure ExtEnv where
  path_exists : String → Bool
  landlock_access_ok : String → Bool

/-- `LandlockConfig::validate` (the error for a bad access string carries
the stringified parse error in the source; the access string itself stands
in for it here). -/
def LandlockConfig.validate (l : LandlockConfig) (env : ExtEnv) : ValidationResult Unit :=
  if ¬ env.path_exists l.path then
    .error (.LandlockPathDoesNotExist l.path)
  else if ¬ env.landlock_access_ok l.access then
    .error (.InvalidLandlockAccess l.access)
  else
    .ok ()

/-- Rust `str::starts_with`, on the character data (Lean's own
`String.startsWith` is compiled code the kernel cannot evaluate). -/
def strStartsWith (s p : String) : Bool := p.data.isPrefixOf s.data

/-- `VmConfig::validate_identifier`.  The `BTreeSet` is modelled as the
list of inserted identifiers in insertion order; `insert` returning `false`
is the membership test. -/
def VmConfig.validate_identifier (id_list : List String) (id : Option String) :
    ValidationResult (List String) :=
  match id with
  | some id =>
    if strStartsWith id "__" then .error (.InvalidIdentifier id)
    else if id ∈ id_list then .error (.IdentifierNotUnique id)
    else .ok (id_list ++ [id])
  | none => .ok id_list

/-- `VmConfig::backed_by_shared_memory`; `none` is the `unwrap` panic on a
config with `size == 0` and no zone list. -/
def VmConfig.backed_by_shared_memory (cfg : VmConfig) : Option Bool :=
  if cfg.memory.shared ∨ cfg.memory.hugepages then
    some true
  else if cfg.memory.size = 0 then
    match cfg.memory.zones with
    | none => none
    | some zones => some (zones.all (fun zone => zone.shared || zone.hugepages))
  else
    some false

/-- `RestoreConfig::validate`, first phase: build the id-keyed map of
restore entries (duplicates rejected), asserting `num_fds` matches the
attached fd list (`none` = the `assert_eq!` panic). -/
def restoreBuildMap (entries : List RestoredNetConfig)
    (acc : List (String × RestoredNetConfig)) :
    Option (ValidationResult (List (String × RestoredNetConfig))) :=
  match entries with
  | [] => some (.ok acc)
  | n :: rest =>
    if n.num_fds ≠ (match n.fds with | some f => f.length | none => 0) then
      none
    else if (acc.find? (fun e => e.1 == n.id)).isSome then
      some (.error (.IdentifierNotUnique n.id))
    else
      restoreBuildMap rest (acc ++ [(n.id, n)])

/-- Remove the entry with the given key from the map (`HashMap::remove`). -/
def removeKey (acc : List (String × RestoredNetConfig)) (k : String) :
    List (String × RestoredNetConfig) :=
  acc.filter (fun e => e.1 != k)

/-- `RestoreConfig::validate`, second phase: walk the live net list; every
fd-backed NIC consumes its map entry, which must exist and carry exactly
the expected fd count.  `none` = the `expect` panic on a missing id. -/
def restoreMatchNets (m : List (String × RestoredNetConfig)) :
    List NetConfig → Option (ValidationResult Unit)
  | [] => some (.ok ())
  | net :: rest =>
    match net.fds with
    | some expected_fds =>
      match net.id with
      | none => none
      | some expected_id =>
        match m.find? (fun e => e.1 == expected_id) with
        | some (_, r) =>
          if r.num_fds ≠ expected_fds.length then
            some (.error (.RestoreNetFdCountMismatch expected_id r.num_fds expected_fds.length))
          else
            restoreMatchNets (removeKey m expected_id) rest
        | none => some (.error (.RestoreMissingRequiredNetId expected_id))
    | none => restoreMatchNets m rest

/-- `RestoreConfig::validate`.  Restore entries left unconsumed after the
walk only produce a warning, never an error. -/
def RestoreConfig.validate (r : RestoreConfig) (vm_config : VmConfig) :
    Option (ValidationResult Unit) :=
  match restoreBuildMap (r.net_fds.getD []) [] with
  | none => none
  | some (.error e) => some (.error e)
  | some (.ok m) => restoreMatchNets m (vm_config.net.getD [])

/-! ## `VmConfig::validate`

The single-pass validator, split into its successive rule blocks (the
Rust function body in order, `x86_64`, default features).  A result of
`.error .panicked` marks an `unwrap` panic inside the pass; `self.iommu`
is mutated in place in the source, OR-accumulating each device's bit —
here the accumulator is threaded through and the final value is returned
on success (a failing call leaves a partial aggregate behind in the
source, which nothing modelled here observes). -/

inductive VFailure
  | verr (e : ValidationError)
  | panicked
deriving Repr, DecidableEq

abbrev VRes (α : Type) := Except VFailure α

/-- Lift a per-device validation result into the pass. -/
def liftV {α : Type} : ValidationResult α → VRes α
  | .error e => .error (.verr e)
  | .ok a => .ok a

/-- `self.payload.as_ref().ok_or(ValidationError::KernelMissing)?`. -/
def stagePayload (cfg : VmConfig) : VRes Unit :=
  match cfg.payload with
  | none => .error (.verr .KernelMissing)
  | some _ => .ok ()

/-- The console checks.  More than one TTY-mode console only warns; the
file-mode consoles must carry a file. -/
def stageConsoles (cfg : VmConfig) : VRes Unit :=
  if cfg.console.mode = ConsoleOutputMode.File ∧ cfg.console.file.isNone then
    .error (.verr .ConsoleFileMissing)
  else if cfg.serial.mode = ConsoleOutputMode.File ∧ cfg.serial.file.isNone then
    .error (.verr .ConsoleFileMissing)
  else
    .ok ()

def stageCpusOrder (cfg : VmConfig) : VRes Unit :=
  if cfg.cpus.max_vcpus < cfg.cpus.boot_vcpus then
    .error (.verr .CpusMaxLowerThanBoot)
  else
    .ok ()

def rlgLoop (cfg : VmConfig) : List RateLimiterGroupConfig → List String → VRes (List String)
  | [], ids => .ok ids
  | g :: rest, ids =>
    match RateLimiterGroupConfig.validate g cfg with
    | .error e => .error (.verr e)
    | .ok _ =>
      match VmConfig.validate_identifier ids (some g.id) with
      | .error e => .error (.verr e)
      | .ok ids' => rlgLoop cfg rest ids'

def stageRlgs (cfg : VmConfig) (ids : List String) : VRes (List String) :=
  match cfg.rate_limit_groups with
  | some rate_limit_groups => rlgLoop cfg rate_limit_groups ids
  | none => .ok ids

/-- The per-disk steps after the rate-limit-group resolution:
`disk.validate(self)?` and the identifier insertion. -/
def diskAfterGroup (cfg : VmConfig) (disk : DiskConfig) (ids : List String) : VRes (List String) :=
  match DiskConfig.validate disk cfg with
  | .error e => .error (.verr e)
  | .ok _ =>
    match VmConfig.validate_identifier ids disk.id with
    | .error e => .error (.verr e)
    | .ok ids' => .ok ids'

/-- The per-disk checks after the shared-memory test. -/
def diskTail (cfg : VmConfig) (disk : DiskConfig) (ids : List String) : VRes (List String) :=
  if disk.vhost_user ∧ disk.vhost_socket.isNone then
    .error (.verr .VhostUserMissingSocket)
  else
    match disk.rate_limit_group with
    | some rate_limit_group =>
      match cfg.rate_limit_groups with
      | some rate_limit_groups =>
        if rate_limit_groups.any (fun g => g.id == rate_limit_group) then
          diskAfterGroup cfg disk ids
        else
          .error (.verr .InvalidRateLimiterGroup)
      | none => .error (.verr .InvalidRateLimiterGroup)
    | none => diskAfterGroup cfg disk ids

/-- The body of the `for disk in disks` loop, up to and including the
identifier insertion (the shared-memory test is only evaluated — and can
only panic — behind the `vhost_user` short-circuit). -/
def diskStep (cfg : VmConfig) (disk : DiskConfig) (ids : List String) : VRes (List String) :=
  if disk.vhost_socket.isSome ∧ disk.path.isSome then
    .error (.verr .DiskSocketAndPath)
  else if disk.vhost_user then
    match cfg.backed_by_shared_memory with
    | none => .error .panicked
    | some b =>
      if ¬ b then .error (.verr .VhostUserRequiresSharedMemory)
      else diskTail cfg disk ids
  else diskTail cfg disk ids

def diskLoop (cfg : VmConfig) : List DiskConfig → List String → Bool → VRes (List String × Bool)
  | [], ids, iommu => .ok (ids, iommu)
  | disk :: rest, ids, iommu =>
    match diskStep cfg disk ids with
    | .error e => .error e
    | .ok ids' => diskLoop cfg rest ids' (iommu || disk.iommu)

def stageDisks (cfg : VmConfig) (ids : List String) (iommu : Bool) : VRes (List String × Bool) :=
  match cfg.disks with
  | some disks => diskLoop cfg disks ids iommu
  | none => .ok (ids, iommu)

def netTail (cfg : VmConfig) (net : NetConfig) (ids : List String) : VRes (List String) :=
  match NetConfig.validate net cfg with
  | .error e => .error (.verr e)
  | .ok _ =>
    match VmConfig.validate_identifier ids net.id with
    | .error e => .error (.verr e)
    | .ok ids' => .ok ids'

def netStep (cfg : VmConfig) (net : NetConfig) (ids : List String) : VRes (List String) :=
  if net.vhost_user then
    match cfg.backed_by_shared_memory with
    | none => .error .panicked
    | some b =>
      if ¬ b then .error (.verr .VhostUserRequiresSharedMemory)
      else netTail cfg net ids
  else netTail cfg net ids

def netLoop (cfg : VmConfig) : List NetConfig → List String → Bool → VRes (List String × Bool)
  | [], ids, iommu => .ok (ids, iommu)
  | net :: rest, ids, iommu =>
    match netStep cfg net ids with
    | .error e => .error e
    | .ok ids' => netLoop cfg rest ids' (iommu || net.iommu)

def stageNets (cfg : VmConfig) (ids : List String) (iommu : Bool) : VRes (List String × Bool) :=
  match cfg.net with
  | some nets => netLoop cfg nets ids iommu
  | none => .ok (ids, iommu)

def fsLoop (cfg : VmConfig) : List FsConfig → List String → VRes (List String)
  | [], ids => .ok ids
  | fs :: rest, ids =>
    match FsConfig.validate fs cfg with
    | .error e => .error (.verr e)
    | .ok _ =>
      match VmConfig.validate_identifier ids fs.id with
      | .error e => .error (.verr e)
      | .ok ids' => fsLoop cfg rest ids'

def stageFs (cfg : VmConfig) (ids : List String) : VRes (List String) :=
  match cfg.fs with
  | some fses =>
    if ¬ fses.isEmpty then
      match cfg.backed_by_shared_memory with
      | none => .error .panicked
      | some b =>
        if ¬ b then .error (.verr .VhostUserRequiresSharedMemory)
        else fsLoop cfg fses ids
    else fsLoop cfg fses ids
  | none => .ok ids

def pmemLoop (cfg : VmConfig) : List PmemConfig → List String → Bool → VRes (List String × Bool)
  | [], ids, iommu => .ok (ids, iommu)
  | pmem :: rest, ids, iommu =>
    match PmemConfig.validate pmem cfg with
    | .error e => .error (.verr e)
    | .ok _ =>
      match VmConfig.validate_identifier ids pmem.id with
      | .error e => .error (.verr e)
      | .ok ids' => pmemLoop cfg rest ids' (iommu || pmem.iommu)

def stagePmem (cfg : VmConfig) (ids : List String) (iommu : Bool) : VRes (List String × Bool) :=
  match cfg.pmem with
  | some pmems => pmemLoop cfg pmems ids iommu
  | none => .ok (ids, iommu)

def stageTopology (cfg : VmConfig) : VRes Unit :=
  match cfg.cpus.topology with
  | some t =>
    if t.threads_per_core = 0 ∨ t.cores_per_die = 0 ∨ t.dies_per_package = 0 ∨ t.packages = 0 then
      .error (.verr .CpuTopologyZeroPart)
    else
      -- the fields are `u8`; multiplication wraps in release builds
      let total := ((t.threads_per_core * t.cores_per_die % 256) * t.dies_per_package % 256)
        * t.packages % 256
      if total ≠ cfg.cpus.max_vcpus then .error (.verr .CpuTopologyCount) else .ok ()
  | none => .ok ()

def stageHugepages (cfg : VmConfig) : VRes Unit :=
  match cfg.memory.hugepage_size with
  | some hugepage_size =>
    if ¬ cfg.memory.hugepages then
      .error (.verr .HugePageSizeWithoutHugePages)
    else if ¬ u64_is_power_of_two hugepage_size then
      .error (.verr (.InvalidHugePageSize hugepage_size))
    else
      .ok ()
  | none => .ok ()

def userLoop (cfg : VmConfig) : List UserDeviceConfig → List String → VRes (List String)
  | [], ids => .ok ids
  | user_device :: rest, ids =>
    match UserDeviceConfig.validate user_device cfg with
    | .error e => .error (.verr e)
    | .ok _ =>
      match VmConfig.validate_identifier ids user_device.id with
      | .error e => .error (.verr e)
      | .ok ids' => userLoop cfg rest ids'

def stageUsers (cfg : VmConfig) (ids : List String) : VRes (List String) :=
  match cfg.user_devices with
  | some user_devices =>
    if ¬ user_devices.isEmpty then
      match cfg.backed_by_shared_memory with
      | none => .error .panicked
      | some b =>
        if ¬ b then .error (.verr .UserDevicesRequireSharedMemory)
        else userLoop cfg user_devices ids
    else userLoop cfg user_devices ids
  | none => .ok ids

def vdpaLoop (cfg : VmConfig) : List VdpaConfig → List String → Bool → VRes (List String × Bool)
  | [], ids, iommu => .ok (ids, iommu)
  | vdpa_device :: rest, ids, iommu =>
    match VdpaConfig.validate vdpa_device cfg with
    | .error e => .error (.verr e)
    | .ok _ =>
      match VmConfig.validate_identifier ids vdpa_device.id with
      | .error e => .error (.verr e)
      | .ok ids' => vdpaLoop cfg rest ids' (iommu || vdpa_device.iommu)

def stageVdpa (cfg : VmConfig) (ids : List String) (iommu : Bool) : VRes (List String × Bool) :=
  match cfg.vdpa with
  | some vdpa_devices => vdpaLoop cfg vdpa_devices ids iommu
  | none => .ok (ids, iommu)

/-- `[!0, 0, 1, 2].contains(&vsock.cid)` — `!0` is `u32::MAX`. -/
def stageVsockCid (cfg : VmConfig) : VRes Unit :=
  match cfg.vsock with
  | some vsock =>
    if [4294967295, 0, 1, 2].contains vsock.cid then
      .error (.verr (.VsockSpecialCid vsock.cid))
    else .ok ()
  | none => .ok ()

/-- The RAM total the balloon check compares against: base size plus the
zone sizes — hotplugged sizes are not included here. -/
def balloonRamSize (cfg : VmConfig) : Nat :=
  match cfg.memory.zones with
  | some zones => zones.foldl (fun ram_size zone => (ram_size + zone.size) % u64Mod) cfg.memory.size
  | none => cfg.memory.size

def stageBalloon (cfg : VmConfig) : VRes Unit :=
  match cfg.balloon with
  | some balloon =>
    if balloon.size ≥ balloonRamSize cfg then
      .error (.verr (.BalloonLargerThanRam balloon.size (balloonRamSize cfg)))
    else .ok ()
  | none => .ok ()

def deviceLoop (cfg : VmConfig) :
    List DeviceConfig → List String → Bool → List String → VRes (List String × Bool)
  | [], ids, iommu, _device_paths => .ok (ids, iommu)
  | device :: rest, ids, iommu, device_paths =>
    if device.path ∈ device_paths then
      .error (.verr (.DuplicateDevicePath device.path))
    else
      match DeviceConfig.validate device cfg with
      | .error e => .error (.verr e)
      | .ok _ =>
        match VmConfig.validate_identifier ids device.id with
        | .error e => .error (.verr e)
        | .ok ids' => deviceLoop cfg rest ids' (iommu || device.iommu) (device_paths ++ [device.path])

def stageDevices (cfg : VmConfig) (ids : List String) (iommu : Bool) : VRes (List String × Bool) :=
  match cfg.devices with
  | some devices => deviceLoop cfg devices ids iommu []
  | none => .ok (ids, iommu)

def stageVsock (cfg : VmConfig) (ids : List String) (iommu : Bool) : VRes (List String × Bool) :=
  match cfg.vsock with
  | some vsock =>
    match VsockConfig.validate vsock cfg with
    | .error e => .error (.verr e)
    | .ok _ =>
      match VmConfig.validate_identifier ids vsock.id with
      | .error e => .error (.verr e)
      | .ok ids' => .ok (ids', iommu || vsock.iommu)
  | none => .ok (ids, iommu)

def numPciSegments (cfg : VmConfig) : Nat :=
  match cfg.platform with
  | some platform_config => platform_config.num_pci_segments
  | none => 1

/-- Per-node loop over `memory_zones`: first claim of a zone is recorded,
a second claim is a `MemoryZoneReused` carrying the recorded node and the
current one. -/
def numaZonesLoop (guest_numa_id : Nat) (used : List (String × Nat)) :
    List String → ValidationResult (List (String × Nat))
  | [] => .ok used
  | memory_zone :: rest =>
    match used.find? (fun e => e.1 == memory_zone) with
    | none => numaZonesLoop guest_numa_id (used ++ [(memory_zone, guest_numa_id)]) rest
    | some e => .error (.MemoryZoneReused memory_zone e.2 guest_numa_id)

/-- Per-node loop over `pci_segments`: range check, the default-segment
rule, then the reuse check. -/
def numaSegsLoop (num_pci_segments guest_numa_id : Nat) (used : List (Nat × Nat)) :
    List Nat → ValidationResult (List (Nat × Nat))
  | [] => .ok used
  | pci_segment :: rest =>
    if pci_segment ≥ num_pci_segments then
      .error (.InvalidPciSegment pci_segment)
    else if pci_segment = 0 ∧ guest_numa_id ≠ 0 then
      .error (.DefaultPciSegmentInvalidNode guest_numa_id)
    else
      match used.find? (fun e => e.1 == pci_segment) with
      | none => numaSegsLoop num_pci_segments guest_numa_id (used ++ [(pci_segment, guest_numa_id)]) rest
      | some e => .error (.PciSegmentReused pci_segment e.2 guest_numa_id)

def numaLoop (num_pci_segments : Nat) (used_zones : List (String × Nat))
    (used_segs : List (Nat × Nat)) : List NumaConfig → ValidationResult Unit
  | [] => .ok ()
  | numa_node :: rest =>
    match numaZonesLoop numa_node.guest_numa_id used_zones (numa_node.memory_zones.getD []) with
    | .error e => .error e
    | .ok used_zones' =>
      match numaSegsLoop num_pci_segments numa_node.guest_numa_id used_segs
          (numa_node.pci_segments.getD []) with
      | .error e => .error e
      | .ok used_segs' => numaLoop num_pci_segments used_zones' used_segs' rest

def stageNuma (cfg : VmConfig) : VRes Unit :=
  match cfg.numa with
  | some numa =>
    match numaLoop (numPciSegments cfg) [] [] numa with
    | .error e => .error (.verr e)
    | .ok _ => .ok ()
  | none => .ok ()

def zoneIdsLoop : List MemoryZoneConfig → List String → VRes (List String)
  | [], ids => .ok ids
  | zone :: rest, ids =>
    match VmConfig.validate_identifier ids (some zone.id) with
    | .error e => .error (.verr e)
    | .ok ids' => zoneIdsLoop rest ids'

def stageZoneIds (cfg : VmConfig) (ids : List String) : VRes (List String) :=
  match cfg.memory.zones with
  | some zones => zoneIdsLoop zones ids
  | none => .ok ids

def sgxIdsLoop : List SgxEpcConfig → List String → VRes (List String)
  | [], ids => .ok ids
  | sgx_epc :: rest, ids =>
    match VmConfig.validate_identifier ids (some sgx_epc.id) with
    | .error e => .error (.verr e)
    | .ok ids' => sgxIdsLoop rest ids'

def stageSgxIds (cfg : VmConfig) (ids : List String) : VRes (List String) :=
  match cfg.sgx_epc with
  | some sgx_epcs => sgxIdsLoop sgx_epcs ids
  | none => .ok ids

def pciSegsLoop (cfg : VmConfig) : List PciSegmentConfig → VRes Unit
  | [] => .ok ()
  | pci_segment :: rest =>
    match PciSegmentConfig.validate pci_segment cfg with
    | .error e => .error (.verr e)
    | .ok _ => pciSegsLoop cfg rest

def stagePciSegs (cfg : VmConfig) : VRes Unit :=
  match cfg.pci_segments with
  | some pci_segments => pciSegsLoop cfg pci_segments
  | none => .ok ()

def stagePlatform (cfg : VmConfig) : VRes Unit :=
  match cfg.platform with
  | some platform_config => liftV platform_config.validate
  | none => .ok ()

def landlockLoop (env : ExtEnv) : List LandlockConfig → VRes Unit
  | [] => .ok ()
  | landlock_rule :: rest =>
    match landlock_rule.validate env with
    | .error e => .error (.verr e)
    | .ok _ => landlockLoop env rest

def stageLandlock (env : ExtEnv) (cfg : VmConfig) : VRes Unit :=
  match cfg.landlock_rules with
  | some landlock_rules => landlockLoop env landlock_rules
  | none => .ok ()

/-- `VmConfig::validate` up to (excluding) the balloon rule, returning the
identifier set and IOMMU aggregate accumulated so far. -/
def validatePreBalloon (cfg : VmConfig) : VRes (List String × Bool) :=
  match stagePayload cfg with
  | .error e => .error e
  | .ok _ =>
  match stageConsoles cfg with
  | .error e => .error e
  | .ok _ =>
  match stageCpusOrder cfg with
  | .error e => .error e
  | .ok _ =>
  match stageRlgs cfg [] with
  | .error e => .error e
  | .ok ids =>
  match stageDisks cfg ids cfg.iommu with
  | .error e => .error e
  | .ok (ids, iommu) =>
  match stageNets cfg ids iommu with
  | .error e => .error e
  | .ok (ids, iommu) =>
  match stageFs cfg ids with
  | .error e => .error e
  | .ok ids =>
  match stagePmem cfg ids iommu with
  | .error e => .error e
  | .ok (ids, iommu) =>
  let iommu := iommu || cfg.rng.iommu || cfg.console.iommu
  match stageTopology cfg with
  | .error e => .error e
  | .ok _ =>
  match stageHugepages cfg with
  | .error e => .error e
  | .ok _ =>
  match stageUsers cfg ids with
  | .error e => .error e
  | .ok ids =>
  match stageVdpa cfg ids iommu with
  | .error e => .error e
  | .ok (ids, iommu) =>
  match stageVsockCid cfg with
  | .error e => .error e
  | .ok _ => .ok (ids, iommu)

/-- `VmConfig::validate` up to (excluding) the NUMA rules. -/
def validatePreNuma (cfg : VmConfig) : VRes (List String × Bool) :=
  match validatePreBalloon cfg with
  | .error e => .error e
  | .ok (ids, iommu) =>
  match stageBalloon cfg with
  | .error e => .error e
  | .ok _ =>
  match stageDevices cfg ids iommu with
  | .error e => .error e
  | .ok (ids, iommu) => stageVsock cfg ids iommu

/-- The whole pass: identifier set and final IOMMU aggregate on success. -/
def validateCore (env : ExtEnv) (cfg : VmConfig) : VRes (List String × Bool) :=
  match validatePreNuma cfg with
  | .error e => .error e
  | .ok (ids, iommu) =>
  match stageNuma cfg with
  | .error e => .error e
  | .ok _ =>
  match stageZoneIds cfg ids with
  | .error e => .error e
  | .ok ids =>
  match stageSgxIds cfg ids with
  | .error e => .error e
  | .ok ids =>
  match stagePciSegs cfg with
  | .error e => .error e
  | .ok _ =>
  match stagePlatform cfg with
  | .error e => .error e
  | .ok _ =>
  let iommu := iommu || (match cfg.platform with
    | some p => p.iommu_segments.isSome
    | none => false)
  match stageLandlock env cfg with
  | .error e => .error e
  | .ok _ => .ok (ids, iommu)

/-- `VmConfig::validate(&mut self)`: returns the (possibly mutated)
config together with the result. -/
def VmConfig.validate (env : ExtEnv) (cfg : VmConfig) : VmConfig × VRes (List String) :=
  match validateCore env cfg with
  | .ok (ids, iommu) => ({ cfg with iommu := iommu }, .ok ids)
  | .error e => (cfg, .error e)

/-! ## Fixtures for witnesses -/

/-- Environment in which every path exists and every access string parses
(irrelevant to configs without landlock rules). -/
def defaultEnv : ExtEnv := ⟨fun _ => true, fun _ => true⟩

def baseCpus : CpusConfig :=
  ⟨1, 1, none, false, 46, none, ⟨false⟩⟩

def baseMemory : MemoryConfig :=
  ⟨536870912, false, .Acpi, none, none, false, false, none, false, none, false⟩

def baseConsole : ConsoleConfig := ⟨none, .Off, false, none⟩

def basePayload : PayloadConfig := ⟨none, some "vmlinux", none, none⟩

/-- A minimal boot-able configuration that the whole pass accepts. -/
def baseCfg : VmConfig :=
  ⟨baseCpus, baseMemory, some basePayload, none, none, none, ⟨"urandom", false⟩,
    none, none, none, baseConsole, baseConsole, baseConsole, none, none, none,
    none, false, false, none, none, false, none, none, none, none, false, none⟩

example : (VmConfig.validate defaultEnv baseCfg).2 = .ok [] := rfl

def baseDisk : DiskConfig :=
  ⟨some "disk.img", false, false, false, 1, 128, false, none, none, none,
    none, false, false, 0, none, none⟩

def baseNet : NetConfig :=
  ⟨none, "ip", "mask", "mac", none, none, false, 2, 256, false, none, .Client,
    none, none, none, 0, true, true, true⟩

/-! ## C8 — disk queue-size rule -/

lemma pciSegmentIommuCheck_some {platform : Option PlatformConfig} {seg : Nat}
    {io : Bool} {e : ValidationError}
    (h : pciSegmentIommuCheck platform seg io = some e) :
    e = .InvalidPciSegment seg ∨ e = .OnIommuSegment seg := by
  rcases platform with _ | pc
  · simp [pciSegmentIommuCheck] at h
  · rcases hseg : pc.iommu_segments with _ | segs <;>
      simp only [pciSegmentIommuCheck, hseg] at h <;>
      split_ifs at h <;>
      first
        | (left; exact (Option.some.inj h).symm)
        | (right; exact (Option.some.inj h).symm)
        | simp at h

lemma pciSegmentNoIommuCheck_some {platform : Option PlatformConfig} {seg : Nat}
    {e : ValidationError}
    (h : pciSegmentNoIommuCheck platform seg = some e) :
    e = .InvalidPciSegment seg ∨ e = .IommuNotSupportedOnSegment seg := by
  rcases platform with _ | pc
  · simp [pciSegmentNoIommuCheck] at h
  · rcases hseg : pc.iommu_segments with _ | segs <;>
      simp only [pciSegmentNoIommuCheck, hseg] at h <;>
      split_ifs at h <;>
      first
        | (left; exact (Option.some.inj h).symm)
        | (right; exact (Option.some.inj h).symm)
        | simp at h

/-- C8: `DiskConfig::validate` returns the invalid-queue-size error,
carrying the offending value, exactly when `queue_size` is at or below
`MINIMUM_BLOCK_QUEUE_SIZE` and the rule is reached (the queue-count rule,
checked just before it, passes); a `queue_size` at or below the minimum
always fails validation with some error; and a disk with `queue_size`
equal to the minimum plus one and every other disk rule satisfied
validates successfully. -/
theorem c8_disk_queue_size (d : DiskConfig) (cfg : VmConfig) :
    (∀ q, DiskConfig.validate d cfg = .error (.InvalidQueueSize q) ↔
      (q = d.queue_size ∧ d.queue_size ≤ MINIMUM_BLOCK_QUEUE_SIZE ∧
        d.num_queues ≤ cfg.cpus.boot_vcpus)) ∧
    (d.queue_size ≤ MINIMUM_BLOCK_QUEUE_SIZE →
      ∃ e, DiskConfig.validate d cfg = .error e) ∧
    (d.queue_size = MINIMUM_BLOCK_QUEUE_SIZE + 1 →
      d.num_queues ≤ cfg.cpus.boot_vcpus →
      ¬ (d.vhost_user ∧ d.iommu) →
      pciSegmentIommuCheck cfg.platform d.pci_segment d.iommu = none →
      ¬ (d.rate_limiter_config.isSome ∧ d.rate_limit_group.isSome) →
      (∀ st, d.serial = some st → st.length ≤ VIRTIO_BLK_ID_BYTES) →
      DiskConfig.validate d cfg = .ok ()) := by
  refine ⟨?_, ?_, ?_⟩
  · intro q
    constructor
    · intro h
      unfold DiskConfig.validate at h
      split_ifs at h with h1 h2 h3 h4
      · simp at h
      · simp only [Except.error.injEq, ValidationError.InvalidQueueSize.injEq] at h
        subst h
        exact ⟨rfl, h2, by omega⟩
      · simp at h
      · cases hp : pciSegmentIommuCheck cfg.platform d.pci_segment d.iommu with
        | some e =>
          rw [hp] at h
          rcases pciSegmentIommuCheck_some hp with rfl | rfl <;> simp at h
        | none =>
          simp only [hp] at h
          simp at h
      · cases hp : pciSegmentIommuCheck cfg.platform d.pci_segment d.iommu with
        | some e =>
          rw [hp] at h
          rcases pciSegmentIommuCheck_some hp with rfl | rfl <;> simp at h
        | none =>
          simp only [hp] at h
          cases hs : d.serial with
          | some st =>
            rw [hs] at h
            simp only at h
            split_ifs at h with h5 <;> simp at h
          | none =>
            rw [hs] at h
            simp at h
    · rintro ⟨rfl, hle, hnq⟩
      unfold DiskConfig.validate
      rw [if_neg (by omega), if_pos hle]
  · intro hle
    unfold DiskConfig.validate
    split_ifs <;> first | exact ⟨_, rfl⟩ | omega
  · intro hqs hnq hvi hpci hrl hserial
    unfold DiskConfig.validate
    rw [if_neg (by omega), if_neg (by omega), if_neg hvi]
    simp only [hpci]
    rw [if_neg hrl]
    split
    all_goals try rfl
    rename_i st hst
    rw [if_neg (by have := hserial st hst; omega)]

theorem c8_disk_queue_size_example :
    DiskConfig.validate { baseDisk with queue_size := 2 } baseCfg
      = .error (.InvalidQueueSize 2) := rfl

/-! ## C2 — network queue / fd rules -/

lemma netHasReservedFd_iff (fds : Option (List Int)) :
    netHasReservedFd fds = true ↔ ∃ f ∈ fds.getD [], f ≤ 2 := by
  cases fds <;> simp [netHasReservedFd]

def c2Cfg : VmConfig :=
  { baseCfg with cpus := ⟨3, 3, none, false, 46, none, ⟨false⟩⟩ }

def c2Net : NetConfig := { baseNet with num_queues := 4 }

/-- C2 counterexample: a NIC with 4 queues on a VM with 3 boot vCPUs — the
queue count exceeds the boot vCPU count, yet `NetConfig::validate`
accepts it (the code bounds the queue-PAIR count `num_queues / 2`, not the
queue count). -/
theorem c2_counterexample :
    c2Net.num_queues > c2Cfg.cpus.boot_vcpus ∧
    NetConfig.validate c2Net c2Cfg = .ok () := ⟨by decide, rfl⟩

/-- C2 (amended: the vCPU bound is on queue pairs — validation fails with
`TooManyQueues` exactly when `num_queues / 2` exceeds the boot vCPU count,
with the earlier queue/fd rules passing; and the fd-count rule demands
`fds.len() * 2 == num_queues`, not merely `len == num_queues / 2` under
integer division): the three fd/queue errors are each characterised, and a
config passing validation satisfies all three rules. -/
theorem c2_net_queue_fd_rules (n : NetConfig) (cfg : VmConfig) :
    (NetConfig.validate n cfg = .error .TooManyQueues ↔
      (2 ≤ n.num_queues ∧
        ¬ (n.fds.isSome ∧ (n.fds.getD []).length * 2 ≠ n.num_queues) ∧
        (∀ f ∈ n.fds.getD [], 2 < f) ∧
        cfg.cpus.boot_vcpus < n.num_queues / 2)) ∧
    (NetConfig.validate n cfg = .error .VnetQueueFdMismatch ↔
      (2 ≤ n.num_queues ∧ n.fds.isSome ∧ (n.fds.getD []).length * 2 ≠ n.num_queues)) ∧
    (NetConfig.validate n cfg = .error .VnetReservedFd ↔
      (2 ≤ n.num_queues ∧
        ¬ (n.fds.isSome ∧ (n.fds.getD []).length * 2 ≠ n.num_queues) ∧
        (∃ f ∈ n.fds.getD [], f ≤ 2))) ∧
    (NetConfig.validate n cfg = .ok () →
      (n.num_queues / 2 ≤ cfg.cpus.boot_vcpus ∧
        (∀ fl, n.fds = some fl →
          fl.length * 2 = n.num_queues ∧ ∀ f ∈ fl, 2 < f))) := by
  have hfd := netHasReservedFd_iff n.fds
  refine ⟨?_, ?_, ?_, ?_⟩
  · constructor
    · intro h
      unfold NetConfig.validate at h
      by_cases h1 : n.num_queues < 2
      · rw [if_pos h1] at h; simp at h
      rw [if_neg h1] at h
      by_cases h2 : n.fds.isSome ∧ (n.fds.getD []).length * 2 ≠ n.num_queues
      · rw [if_pos h2] at h; simp at h
      rw [if_neg h2] at h
      by_cases h3 : netHasReservedFd n.fds = true
      · rw [if_pos h3] at h; simp at h
      rw [if_neg h3] at h
      by_cases h4 : n.num_queues / 2 > cfg.cpus.boot_vcpus
      · refine ⟨by omega, h2, ?_, by omega⟩
        intro f hf
        by_contra hc
        exact h3 (hfd.mpr ⟨f, hf, by omega⟩)
      rw [if_neg h4] at h
      by_cases h5 : n.vhost_user ∧ n.iommu
      · rw [if_pos h5] at h; simp at h
      rw [if_neg h5] at h
      cases hp : pciSegmentIommuCheck cfg.platform n.pci_segment n.iommu with
      | some e =>
        rw [hp] at h
        rcases pciSegmentIommuCheck_some hp with rfl | rfl <;> simp at h
      | none =>
        rw [hp] at h
        dsimp only [] at h
        cases hm : n.mtu with
        | some mtu =>
          rw [hm] at h
          dsimp only [] at h
          split_ifs at h <;> simp at h
        | none =>
          rw [hm] at h
          dsimp only [] at h
          split_ifs at h <;> simp at h
    · rintro ⟨hq, hfds, hres, hcnt⟩
      unfold NetConfig.validate
      rw [if_neg (by omega), if_neg hfds,
        if_neg (by simp only [hfd]; push_neg; intro f hf; have := hres f hf; omega),
        if_pos (by omega)]
  · constructor
    · intro h
      unfold NetConfig.validate at h
      by_cases h1 : n.num_queues < 2
      · rw [if_pos h1] at h; simp at h
      rw [if_neg h1] at h
      by_cases h2 : n.fds.isSome ∧ (n.fds.getD []).length * 2 ≠ n.num_queues
      · exact ⟨by omega, h2⟩
      rw [if_neg h2] at h
      by_cases h3 : netHasReservedFd n.fds = true
      · rw [if_pos h3] at h; simp at h
      rw [if_neg h3] at h
      by_cases h4 : n.num_queues / 2 > cfg.cpus.boot_vcpus
      · rw [if_pos h4] at h; simp at h
      rw [if_neg h4] at h
      by_cases h5 : n.vhost_user ∧ n.iommu
      · rw [if_pos h5] at h; simp at h
      rw [if_neg h5] at h
      cases hp : pciSegmentIommuCheck cfg.platform n.pci_segment n.iommu with
      | some e =>
        rw [hp] at h
        rcases pciSegmentIommuCheck_some hp with rfl | rfl <;> simp at h
      | none =>
        rw [hp] at h
        dsimp only [] at h
        cases hm : n.mtu with
        | some mtu =>
          rw [hm] at h
          dsimp only [] at h
          split_ifs at h <;> simp at h
        | none =>
          rw [hm] at h
          dsimp only [] at h
          split_ifs at h <;> simp at h
    · rintro ⟨hq, hfds⟩
      unfold NetConfig.validate
      rw [if_neg (by omega), if_pos hfds]
  · constructor
    · intro h
      unfold NetConfig.validate at h
      by_cases h1 : n.num_queues < 2
      · rw [if_pos h1] at h; simp at h
      rw [if_neg h1] at h
      by_cases h2 : n.fds.isSome ∧ (n.fds.getD []).length * 2 ≠ n.num_queues
      · rw [if_pos h2] at h; simp at h
      rw [if_neg h2] at h
      by_cases h3 : netHasReservedFd n.fds = true
      · exact ⟨by omega, h2, hfd.mp h3⟩
      rw [if_neg h3] at h
      by_cases h4 : n.num_queues / 2 > cfg.cpus.boot_vcpus
      · rw [if_pos h4] at h; simp at h
      rw [if_neg h4] at h
      by_cases h5 : n.vhost_user ∧ n.iommu
      · rw [if_pos h5] at h; simp at h
      rw [if_neg h5] at h
      cases hp : pciSegmentIommuCheck cfg.platform n.pci_segment n.iommu with
      | some e =>
        rw [hp] at h
        rcases pciSegmentIommuCheck_some hp with rfl | rfl <;> simp at h
      | none =>
        rw [hp] at h
        dsimp only [] at h
        cases hm : n.mtu with
        | some mtu =>
          rw [hm] at h
          dsimp only [] at h
          split_ifs at h <;> simp at h
        | none =>
          rw [hm] at h
          dsimp only [] at h
          split_ifs at h <;> simp at h
    · rintro ⟨hq, hfds, f, hf, hle⟩
      unfold NetConfig.validate
      rw [if_neg (by omega), if_neg hfds, if_pos (hfd.mpr ⟨f, hf, hle⟩)]
  · intro h
    unfold NetConfig.validate at h
    by_cases h1 : n.num_queues < 2
    · rw [if_pos h1] at h; simp at h
    rw [if_neg h1] at h
    by_cases h2 : n.fds.isSome ∧ (n.fds.getD []).length * 2 ≠ n.num_queues
    · rw [if_pos h2] at h; simp at h
    rw [if_neg h2] at h
    by_cases h3 : netHasReservedFd n.fds = true
    · rw [if_pos h3] at h; simp at h
    rw [if_neg h3] at h
    by_cases h4 : n.num_queues / 2 > cfg.cpus.boot_vcpus
    · rw [if_pos h4] at h; simp at h
    refine ⟨by omega, ?_⟩
    intro fl hfl
    constructor
    · by_contra hc
      exact h2 ⟨by simp [hfl], by simp [hfl]; omega⟩
    · intro f hf
      by_contra hc
      refine h3 (hfd.mpr ⟨f, ?_, by omega⟩)
      simp [hfl]
      exact hf

/-! ## C7 — filesystems and user devices are never allowed on an IOMMU
segment; disks, NICs, pmem, vDPA and vsock may opt in with `iommu=on` -/

lemma pciSegmentIommuCheck_pass {pc : PlatformConfig} {segs : List Nat} {seg : Nat}
    (hs : pc.iommu_segments = some segs) (hlt : seg < pc.num_pci_segments) :
    pciSegmentIommuCheck (some pc) seg true = none := by
  unfold pciSegmentIommuCheck
  dsimp only []
  rw [if_neg (by omega), hs]
  dsimp only []
  rw [if_neg (by simp)]

lemma pciSegmentNoIommuCheck_hit {pc : PlatformConfig} {segs : List Nat} {seg : Nat}
    (hs : pc.iommu_segments = some segs) (hmem : seg ∈ segs)
    (hlt : seg < pc.num_pci_segments) :
    pciSegmentNoIommuCheck (some pc) seg = some (.IommuNotSupportedOnSegment seg) := by
  unfold pciSegmentNoIommuCheck
  dsimp only []
  rw [if_neg (by omega), hs]
  dsimp only []
  rw [if_pos hmem]

lemma disk_validate_err_not_iommu_seg (d : DiskConfig) (cfg : VmConfig)
    (hnone : pciSegmentIommuCheck cfg.platform d.pci_segment d.iommu = none) :
    ∀ e, DiskConfig.validate d cfg = .error e →
      e ≠ .OnIommuSegment d.pci_segment ∧ e ≠ .IommuNotSupportedOnSegment d.pci_segment := by
  intro e h
  unfold DiskConfig.validate at h
  by_cases h1 : d.num_queues > cfg.cpus.boot_vcpus
  · rw [if_pos h1] at h
    obtain rfl := (Except.error.inj h).symm
    exact ⟨by simp, by simp⟩
  rw [if_neg h1] at h
  by_cases h2 : d.queue_size ≤ MINIMUM_BLOCK_QUEUE_SIZE
  · rw [if_pos h2] at h
    obtain rfl := (Except.error.inj h).symm
    exact ⟨by simp, by simp⟩
  rw [if_neg h2] at h
  by_cases h3 : d.vhost_user ∧ d.iommu
  · rw [if_pos h3] at h
    obtain rfl := (Except.error.inj h).symm
    exact ⟨by simp, by simp⟩
  rw [if_neg h3] at h
  rw [hnone] at h
  dsimp only [] at h
  by_cases h4 : d.rate_limiter_config.isSome ∧ d.rate_limit_group.isSome
  · rw [if_pos h4] at h
    obtain rfl := (Except.error.inj h).symm
    exact ⟨by simp, by simp⟩
  rw [if_neg h4] at h
  cases hs : d.serial with
  | some st =>
    rw [hs] at h
    dsimp only [] at h
    by_cases h5 : st.length > VIRTIO_BLK_ID_BYTES
    · rw [if_pos h5] at h
      obtain rfl := (Except.error.inj h).symm
      exact ⟨by simp, by simp⟩
    · rw [if_neg h5] at h
      simp at h
  | none =>
    rw [hs] at h
    simp at h

lemma net_validate_err_not_iommu_seg (n : NetConfig) (cfg : VmConfig)
    (hnone : pciSegmentIommuCheck cfg.platform n.pci_segment n.iommu = none) :
    ∀ e, NetConfig.validate n cfg = .error e →
      e ≠ .OnIommuSegment n.pci_segment ∧ e ≠ .IommuNotSupportedOnSegment n.pci_segment := by
  intro e h
  unfold NetConfig.validate at h
  by_cases h1 : n.num_queues < 2
  · rw [if_pos h1] at h
    obtain rfl := (Except.error.inj h).symm
    exact ⟨by simp, by simp⟩
  rw [if_neg h1] at h
  by_cases h2 : n.fds.isSome ∧ (n.fds.getD []).length * 2 ≠ n.num_queues
  · rw [if_pos h2] at h
    obtain rfl := (Except.error.inj h).symm
    exact ⟨by simp, by simp⟩
  rw [if_neg h2] at h
  by_cases h3 : netHasReservedFd n.fds = true
  · rw [if_pos h3] at h
    obtain rfl := (Except.error.inj h).symm
    exact ⟨by simp, by simp⟩
  rw [if_neg h3] at h
  by_cases h4 : n.num_queues / 2 > cfg.cpus.boot_vcpus
  · rw [if_pos h4] at h
    obtain rfl := (Except.error.inj h).symm
    exact ⟨by simp, by simp⟩
  rw [if_neg h4] at h
  by_cases h5 : n.vhost_user ∧ n.iommu
  · rw [if_pos h5] at h
    obtain rfl := (Except.error.inj h).symm
    exact ⟨by simp, by simp⟩
  rw [if_neg h5] at h
  rw [hnone] at h
  dsimp only [] at h
  cases hm : n.mtu with
  | some mtu =>
    rw [hm] at h
    dsimp only [] at h
    by_cases h6 : mtu < MIN_MTU
    · rw [if_pos h6] at h
      obtain rfl := (Except.error.inj h).symm
      exact ⟨by simp, by simp⟩
    rw [if_neg h6] at h
    by_cases h7 : ¬ n.offload_csum ∧ (n.offload_tso ∨ n.offload_ufo)
    · rw [if_pos h7] at h
      obtain rfl := (Except.error.inj h).symm
      exact ⟨by simp, by simp⟩
    · rw [if_neg h7] at h
      simp at h
  | none =>
    rw [hm] at h
    dsimp only [] at h
    by_cases h7 : ¬ n.offload_csum ∧ (n.offload_tso ∨ n.offload_ufo)
    · rw [if_pos h7] at h
      obtain rfl := (Except.error.inj h).symm
      exact ⟨by simp, by simp⟩
    · rw [if_neg h7] at h
      simp at h

/-- C7: with the platform declaring IOMMU segments (indices within the
platform's segment count, the invariant `PlatformConfig::validate`
enforces), a filesystem or user device placed on such a segment always
fails with `IommuNotSupportedOnSegment` — there is no opt-in flag — while
a pmem, vDPA or vsock device there with `iommu=on` passes validation
outright, and a disk or NIC there with `iommu=on` can only fail for
reasons unrelated to IOMMU placement. -/
theorem c7_fs_user_never_on_iommu_segment (cfg : VmConfig) (pc : PlatformConfig)
    (segs : List Nat) (hp : cfg.platform = some pc)
    (hs : pc.iommu_segments = some segs) :
    (∀ f : FsConfig, f.pci_segment ∈ segs → f.pci_segment < pc.num_pci_segments →
      f.num_queues ≤ cfg.cpus.boot_vcpus →
      FsConfig.validate f cfg = .error (.IommuNotSupportedOnSegment f.pci_segment)) ∧
    (∀ u : UserDeviceConfig, u.pci_segment ∈ segs → u.pci_segment < pc.num_pci_segments →
      UserDeviceConfig.validate u cfg = .error (.IommuNotSupportedOnSegment u.pci_segment)) ∧
    (∀ p : PmemConfig, p.pci_segment ∈ segs → p.pci_segment < pc.num_pci_segments →
      p.iommu → PmemConfig.validate p cfg = .ok ()) ∧
    (∀ v : VdpaConfig, v.pci_segment ∈ segs → v.pci_segment < pc.num_pci_segments →
      v.iommu → VdpaConfig.validate v cfg = .ok ()) ∧
    (∀ v : VsockConfig, v.pci_segment ∈ segs → v.pci_segment < pc.num_pci_segments →
      v.iommu → VsockConfig.validate v cfg = .ok ()) ∧
    (∀ d : DiskConfig, d.pci_segment ∈ segs → d.pci_segment < pc.num_pci_segments →
      d.iommu → ∀ e, DiskConfig.validate d cfg = .error e →
        e ≠ .OnIommuSegment d.pci_segment ∧ e ≠ .IommuNotSupportedOnSegment d.pci_segment) ∧
    (∀ n : NetConfig, n.pci_segment ∈ segs → n.pci_segment < pc.num_pci_segments →
      n.iommu → ∀ e, NetConfig.validate n cfg = .error e →
        e ≠ .OnIommuSegment n.pci_segment ∧ e ≠ .IommuNotSupportedOnSegment n.pci_segment) := by
  refine ⟨?_, ?_, ?_, ?_, ?_, ?_, ?_⟩
  · intro f hmem hlt hq
    unfold FsConfig.validate
    rw [if_neg (by omega), hp, pciSegmentNoIommuCheck_hit hs hmem hlt]
  · intro u hmem hlt
    unfold UserDeviceConfig.validate
    rw [hp, pciSegmentNoIommuCheck_hit hs hmem hlt]
  · intro p hmem hlt hio
    unfold PmemConfig.validate
    rw [hp, show p.iommu = true from hio, pciSegmentIommuCheck_pass hs hlt]
  · intro v hmem hlt hio
    unfold VdpaConfig.validate
    rw [hp, show v.iommu = true from hio, pciSegmentIommuCheck_pass hs hlt]
  · intro v hmem hlt hio
    unfold VsockConfig.validate
    rw [hp, show v.iommu = true from hio, pciSegmentIommuCheck_pass hs hlt]
  · intro d hmem hlt hio
    refine disk_validate_err_not_iommu_seg d cfg ?_
    rw [hp, show d.iommu = true from hio]
    exact pciSegmentIommuCheck_pass hs hlt
  · intro n hmem hlt hio
    refine net_validate_err_not_iommu_seg n cfg ?_
    rw [hp, show n.iommu = true from hio]
    exact pciSegmentIommuCheck_pass hs hlt

def c7Platform : PlatformConfig := ⟨2, some [1], 64, none, none, none⟩

def c7Cfg : VmConfig := { baseCfg with platform := some c7Platform }

def c7Fs : FsConfig := ⟨"tag", "sock", 1, 1024, none, 1⟩

theorem c7_fs_user_never_on_iommu_segment_witness :
    (c7Cfg.platform = some c7Platform ∧ c7Platform.iommu_segments = some [1] ∧
      c7Fs.pci_segment ∈ [1] ∧ c7Fs.pci_segment < c7Platform.num_pci_segments ∧
      c7Fs.num_queues ≤ c7Cfg.cpus.boot_vcpus) ∧
    FsConfig.validate c7Fs c7Cfg = .error (.IommuNotSupportedOnSegment c7Fs.pci_segment) := by
  refine ⟨⟨rfl, rfl, by decide, by decide, by decide⟩, ?_⟩
  exact (c7_fs_user_never_on_iommu_segment c7Cfg c7Platform [1] rfl rfl).1
    c7Fs (by decide) (by decide) (by decide)

/-! ## C10 — `backed_by_shared_memory` totality and the shared-memory
checks of `validate` -/

lemma validate_identifier_no_panic {ids : List String} {id : Option String} {e : ValidationError} :
    VmConfig.validate_identifier ids id = .error e → True := fun _ => trivial

lemma rlgLoop_no_panic (cfg : VmConfig) :
    ∀ (gs : List RateLimiterGroupConfig) (ids : List String),
      rlgLoop cfg gs ids ≠ .error .panicked := by
  intro gs
  induction gs with
  | nil => intro ids h; simp [rlgLoop] at h
  | cons g rest ih =>
    intro ids h
    unfold rlgLoop at h
    split at h
    · simp at h
    · split at h
      · simp at h
      · exact ih _ h

lemma diskAfterGroup_no_panic (cfg : VmConfig) (d : DiskConfig) (ids : List String) :
    diskAfterGroup cfg d ids ≠ .error .panicked := by
  intro h
  unfold diskAfterGroup at h
  split at h
  · simp at h
  · split at h
    · simp at h
    · simp at h

lemma diskTail_no_panic (cfg : VmConfig) (d : DiskConfig) (ids : List String) :
    diskTail cfg d ids ≠ .error .panicked := by
  intro h
  unfold diskTail at h
  split_ifs at h with h1
  · simp at h
  · split at h
    · split at h
      · split_ifs at h with h2
        · exact diskAfterGroup_no_panic cfg d ids h
        · simp at h
      · simp at h
    · exact diskAfterGroup_no_panic cfg d ids h

lemma diskStep_no_panic (cfg : VmConfig) (d : DiskConfig) (ids : List String)
    (hb : cfg.backed_by_shared_memory ≠ none) :
    diskStep cfg d ids ≠ .error .panicked := by
  intro h
  unfold diskStep at h
  split_ifs at h with h1 h2
  all_goals
    first
    | (simp at h; done)
    | exact diskTail_no_panic cfg d ids h
    | (cases hbk : cfg.backed_by_shared_memory with
       | none => exact hb hbk
       | some b =>
         rw [hbk] at h
         dsimp only [] at h
         split_ifs at h with h3
         all_goals
           first
           | (simp at h; done)
           | exact diskTail_no_panic cfg d ids h)

lemma diskLoop_no_panic (cfg : VmConfig) (hb : cfg.backed_by_shared_memory ≠ none) :
    ∀ (ds : List DiskConfig) (ids : List String) (io : Bool),
      diskLoop cfg ds ids io ≠ .error .panicked := by
  intro ds
  induction ds with
  | nil => intro ids io h; simp [diskLoop] at h
  | cons d rest ih =>
    intro ids io h
    unfold diskLoop at h
    split at h
    · rename_i e heq
      obtain rfl := Except.error.inj h
      exact diskStep_no_panic cfg d ids hb heq
    · exact ih _ _ h

lemma netTail_no_panic (cfg : VmConfig) (n : NetConfig) (ids : List String) :
    netTail cfg n ids ≠ .error .panicked := by
  intro h
  unfold netTail at h
  split at h
  · simp at h
  · split at h
    · simp at h
    · simp at h

lemma netStep_no_panic (cfg : VmConfig) (n : NetConfig) (ids : List String)
    (hb : cfg.backed_by_shared_memory ≠ none) :
    netStep cfg n ids ≠ .error .panicked := by
  intro h
  unfold netStep at h
  split_ifs at h with h1
  all_goals
    first
    | (simp at h; done)
    | exact netTail_no_panic cfg n ids h
    | (cases hbk : cfg.backed_by_shared_memory with
       | none => exact hb hbk
       | some b =>
         rw [hbk] at h
         dsimp only [] at h
         split_ifs at h with h3
         all_goals
           first
           | (simp at h; done)
           | exact netTail_no_panic cfg n ids h)

lemma netLoop_no_panic (cfg : VmConfig) (hb : cfg.backed_by_shared_memory ≠ none) :
    ∀ (ns : List NetConfig) (ids : List String) (io : Bool),
      netLoop cfg ns ids io ≠ .error .panicked := by
  intro ns
  induction ns with
  | nil => intro ids io h; simp [netLoop] at h
  | cons n rest ih =>
    intro ids io h
    unfold netLoop at h
    split at h
    · rename_i e heq
      obtain rfl := Except.error.inj h
      exact netStep_no_panic cfg n ids hb heq
    · exact ih _ _ h

lemma fsLoop_no_panic (cfg : VmConfig) :
    ∀ (fses : List FsConfig) (ids : List String),
      fsLoop cfg fses ids ≠ .error .panicked := by
  intro fses
  induction fses with
  | nil => intro ids h; simp [fsLoop] at h
  | cons f rest ih =>
    intro ids h
    unfold fsLoop at h
    split at h
    · simp at h
    · split at h
      · simp at h
      · exact ih _ h

lemma stageFs_no_panic (cfg : VmConfig) (hb : cfg.backed_by_shared_memory ≠ none)
    (ids : List String) : stageFs cfg ids ≠ .error .panicked := by
  intro h
  unfold stageFs at h
  split at h
  · split_ifs at h with h1
    all_goals
      first
      | (simp at h; done)
      | exact fsLoop_no_panic cfg _ _ h
      | (cases hbk : cfg.backed_by_shared_memory with
         | none => exact hb hbk
         | some b =>
           rw [hbk] at h
           dsimp only [] at h
           split_ifs at h with h2
           all_goals
             first
             | (simp at h; done)
             | exact fsLoop_no_panic cfg _ _ h)
  · simp at h

lemma pmemLoop_no_panic (cfg : VmConfig) :
    ∀ (ps : List PmemConfig) (ids : List String) (io : Bool),
      pmemLoop cfg ps ids io ≠ .error .panicked := by
  intro ps
  induction ps with
  | nil => intro ids io h; simp [pmemLoop] at h
  | cons p rest ih =>
    intro ids io h
    unfold pmemLoop at h
    split at h
    · simp at h
    · split at h
      · simp at h
      · exact ih _ _ h

lemma userLoop_no_panic (cfg : VmConfig) :
    ∀ (us : List UserDeviceConfig) (ids : List String),
      userLoop cfg us ids ≠ .error .panicked := by
  intro us
  induction us with
  | nil => intro ids h; simp [userLoop] at h
  | cons u rest ih =>
    intro ids h
    unfold userLoop at h
    split at h
    · simp at h
    · split at h
      · simp at h
      · exact ih _ h

lemma stageUsers_no_panic (cfg : VmConfig) (hb : cfg.backed_by_shared_memory ≠ none)
    (ids : List String) : stageUsers cfg ids ≠ .error .panicked := by
  intro h
  unfold stageUsers at h
  split at h
  · split_ifs at h with h1
    all_goals
      first
      | (simp at h; done)
      | exact userLoop_no_panic cfg _ _ h
      | (cases hbk : cfg.backed_by_shared_memory with
         | none => exact hb hbk
         | some b =>
           rw [hbk] at h
           dsimp only [] at h
           split_ifs at h with h2
           all_goals
             first
             | (simp at h; done)
             | exact userLoop_no_panic cfg _ _ h)
  · simp at h

lemma vdpaLoop_no_panic (cfg : VmConfig) :
    ∀ (vs : List VdpaConfig) (ids : List String) (io : Bool),
      vdpaLoop cfg vs ids io ≠ .error .panicked := by
  intro vs
  induction vs with
  | nil => intro ids io h; simp [vdpaLoop] at h
  | cons v rest ih =>
    intro ids io h
    unfold vdpaLoop at h
    split at h
    · simp at h
    · split at h
      · simp at h
      · exact ih _ _ h

lemma deviceLoop_no_panic (cfg : VmConfig) :
    ∀ (ds : List DeviceConfig) (ids : List String) (io : Bool) (paths : List String),
      deviceLoop cfg ds ids io paths ≠ .error .panicked := by
  intro ds
  induction ds with
  | nil => intro ids io paths h; simp [deviceLoop] at h
  | cons d rest ih =>
    intro ids io paths h
    unfold deviceLoop at h
    split_ifs at h with h1
    · simp at h
    · split at h
      · simp at h
      · split at h
        · simp at h
        · exact ih _ _ _ h

lemma zoneIdsLoop_no_panic :
    ∀ (zs : List MemoryZoneConfig) (ids : List String),
      zoneIdsLoop zs ids ≠ .error .panicked := by
  intro zs
  induction zs with
  | nil => intro ids h; simp [zoneIdsLoop] at h
  | cons z rest ih =>
    intro ids h
    unfold zoneIdsLoop at h
    split at h
    · simp at h
    · exact ih _ h

lemma sgxIdsLoop_no_panic :
    ∀ (zs : List SgxEpcConfig) (ids : List String),
      sgxIdsLoop zs ids ≠ .error .panicked := by
  intro zs
  induction zs with
  | nil => intro ids h; simp [sgxIdsLoop] at h
  | cons z rest ih =>
    intro ids h
    unfold sgxIdsLoop at h
    split at h
    · simp at h
    · exact ih _ h

lemma pciSegsLoop_no_panic (cfg : VmConfig) :
    ∀ (ss : List PciSegmentConfig), pciSegsLoop cfg ss ≠ .error .panicked := by
  intro ss
  induction ss with
  | nil => intro h; simp [pciSegsLoop] at h
  | cons sc rest ih =>
    intro h
    unfold pciSegsLoop at h
    split at h
    · simp at h
    · exact ih h

lemma landlockLoop_no_panic (env : ExtEnv) :
    ∀ (ls : List LandlockConfig), landlockLoop env ls ≠ .error .panicked := by
  intro ls
  induction ls with
  | nil => intro h; simp [landlockLoop] at h
  | cons l rest ih =>
    intro h
    unfold landlockLoop at h
    split at h
    · simp at h
    · exact ih h

lemma stagePayload_no_panic (cfg : VmConfig) : stagePayload cfg ≠ .error .panicked := by
  intro h
  unfold stagePayload at h
  split at h <;> simp at h

lemma stageConsoles_no_panic (cfg : VmConfig) : stageConsoles cfg ≠ .error .panicked := by
  intro h
  unfold stageConsoles at h
  split_ifs at h <;> simp at h

lemma stageCpusOrder_no_panic (cfg : VmConfig) : stageCpusOrder cfg ≠ .error .panicked := by
  intro h
  unfold stageCpusOrder at h
  split_ifs at h <;> simp at h

lemma stageRlgs_no_panic (cfg : VmConfig) (ids : List String) :
    stageRlgs cfg ids ≠ .error .panicked := by
  intro h
  unfold stageRlgs at h
  split at h
  · exact rlgLoop_no_panic cfg _ _ h
  · simp at h

lemma stageDisks_no_panic (cfg : VmConfig) (hb : cfg.backed_by_shared_memory ≠ none)
    (ids : List String) (io : Bool) : stageDisks cfg ids io ≠ .error .panicked := by
  intro h
  unfold stageDisks at h
  split at h
  · exact diskLoop_no_panic cfg hb _ _ _ h
  · simp at h

lemma stageNets_no_panic (cfg : VmConfig) (hb : cfg.backed_by_shared_memory ≠ none)
    (ids : List String) (io : Bool) : stageNets cfg ids io ≠ .error .panicked := by
  intro h
  unfold stageNets at h
  split at h
  · exact netLoop_no_panic cfg hb _ _ _ h
  · simp at h

lemma stagePmem_no_panic (cfg : VmConfig) (ids : List String) (io : Bool) :
    stagePmem cfg ids io ≠ .error .panicked := by
  intro h
  unfold stagePmem at h
  split at h
  · exact pmemLoop_no_panic cfg _ _ _ h
  · simp at h

lemma stageTopology_no_panic (cfg : VmConfig) : stageTopology cfg ≠ .error .panicked := by
  intro h
  unfold stageTopology at h
  split at h
  · dsimp only [] at h
    split_ifs at h <;> simp at h
  · simp at h

lemma stageHugepages_no_panic (cfg : VmConfig) : stageHugepages cfg ≠ .error .panicked := by
  intro h
  unfold stageHugepages at h
  split at h
  · split_ifs at h <;> simp at h
  · simp at h

lemma stageVdpa_no_panic (cfg : VmConfig) (ids : List String) (io : Bool) :
    stageVdpa cfg ids io ≠ .error .panicked := by
  intro h
  unfold stageVdpa at h
  split at h
  · exact vdpaLoop_no_panic cfg _ _ _ h
  · simp at h

lemma stageVsockCid_no_panic (cfg : VmConfig) : stageVsockCid cfg ≠ .error .panicked := by
  intro h
  unfold stageVsockCid at h
  split at h
  · split_ifs at h <;> simp at h
  · simp at h

lemma stageBalloon_no_panic (cfg : VmConfig) : stageBalloon cfg ≠ .error .panicked := by
  intro h
  unfold stageBalloon at h
  split at h
  · split_ifs at h <;> simp at h
  · simp at h

lemma stageDevices_no_panic (cfg : VmConfig) (ids : List String) (io : Bool) :
    stageDevices cfg ids io ≠ .error .panicked := by
  intro h
  unfold stageDevices at h
  split at h
  · exact deviceLoop_no_panic cfg _ _ _ _ h
  · simp at h

lemma stageVsock_no_panic (cfg : VmConfig) (ids : List String) (io : Bool) :
    stageVsock cfg ids io ≠ .error .panicked := by
  intro h
  unfold stageVsock at h
  split at h
  · split at h
    · simp at h
    · split at h
      · simp at h
      · simp at h
  · simp at h

lemma stageNuma_no_panic (cfg : VmConfig) : stageNuma cfg ≠ .error .panicked := by
  intro h
  unfold stageNuma at h
  split at h
  · split at h
    · simp at h
    · simp at h
  · simp at h

lemma stageZoneIds_no_panic (cfg : VmConfig) (ids : List String) :
    stageZoneIds cfg ids ≠ .error .panicked := by
  intro h
  unfold stageZoneIds at h
  split at h
  · exact zoneIdsLoop_no_panic _ _ h
  · simp at h

lemma stageSgxIds_no_panic (cfg : VmConfig) (ids : List String) :
    stageSgxIds cfg ids ≠ .error .panicked := by
  intro h
  unfold stageSgxIds at h
  split at h
  · exact sgxIdsLoop_no_panic _ _ h
  · simp at h

lemma stagePciSegs_no_panic (cfg : VmConfig) : stagePciSegs cfg ≠ .error .panicked := by
  intro h
  unfold stagePciSegs at h
  split at h
  · exact pciSegsLoop_no_panic cfg _ h
  · simp at h

lemma stagePlatform_no_panic (cfg : VmConfig) : stagePlatform cfg ≠ .error .panicked := by
  intro h
  unfold stagePlatform at h
  split at h
  · rename_i pc
    unfold liftV at h
    split at h <;> simp at h
  · simp at h

lemma stageLandlock_no_panic (env : ExtEnv) (cfg : VmConfig) :
    stageLandlock env cfg ≠ .error .panicked := by
  intro h
  unfold stageLandlock at h
  split at h
  · exact landlockLoop_no_panic env _ h
  · simp at h

lemma validatePreBalloon_no_panic (cfg : VmConfig)
    (hb : cfg.backed_by_shared_memory ≠ none) :
    validatePreBalloon cfg ≠ .error .panicked := by
  intro h
  unfold validatePreBalloon at h
  split at h
  · rename_i e heq
    obtain rfl := Except.error.inj h
    exact stagePayload_no_panic cfg heq
  split at h
  · rename_i e heq
    obtain rfl := Except.error.inj h
    exact stageConsoles_no_panic cfg heq
  split at h
  · rename_i e heq
    obtain rfl := Except.error.inj h
    exact stageCpusOrder_no_panic cfg heq
  split at h
  · rename_i e heq
    obtain rfl := Except.error.inj h
    exact stageRlgs_no_panic cfg _ heq
  split at h
  · rename_i e heq
    obtain rfl := Except.error.inj h
    exact stageDisks_no_panic cfg hb _ _ heq
  split at h
  · rename_i e heq
    obtain rfl := Except.error.inj h
    exact stageNets_no_panic cfg hb _ _ heq
  split at h
  · rename_i e heq
    obtain rfl := Except.error.inj h
    exact stageFs_no_panic cfg hb _ heq
  split at h
  · rename_i e heq
    obtain rfl := Except.error.inj h
    exact stagePmem_no_panic cfg _ _ heq
  dsimp only [] at h
  split at h
  · rename_i e heq
    obtain rfl := Except.error.inj h
    exact stageTopology_no_panic cfg heq
  split at h
  · rename_i e heq
    obtain rfl := Except.error.inj h
    exact stageHugepages_no_panic cfg heq
  split at h
  · rename_i e heq
    obtain rfl := Except.error.inj h
    exact stageUsers_no_panic cfg hb _ heq
  split at h
  · rename_i e heq
    obtain rfl := Except.error.inj h
    exact stageVdpa_no_panic cfg _ _ heq
  split at h
  · rename_i e heq
    obtain rfl := Except.error.inj h
    exact stageVsockCid_no_panic cfg heq
  simp at h

lemma validatePreNuma_no_panic (cfg : VmConfig)
    (hb : cfg.backed_by_shared_memory ≠ none) :
    validatePreNuma cfg ≠ .error .panicked := by
  intro h
  unfold validatePreNuma at h
  split at h
  · rename_i e heq
    obtain rfl := Except.error.inj h
    exact validatePreBalloon_no_panic cfg hb heq
  split at h
  · rename_i e heq
    obtain rfl := Except.error.inj h
    exact stageBalloon_no_panic cfg heq
  split at h
  · rename_i e heq
    obtain rfl := Except.error.inj h
    exact stageDevices_no_panic cfg _ _ heq
  exact stageVsock_no_panic cfg _ _ h

lemma validateCore_no_panic (env : ExtEnv) (cfg : VmConfig)
    (hb : cfg.backed_by_shared_memory ≠ none) :
    validateCore env cfg ≠ .error .panicked := by
  intro h
  unfold validateCore at h
  split at h
  · rename_i e heq
    obtain rfl := Except.error.inj h
    exact validatePreNuma_no_panic cfg hb heq
  split at h
  · rename_i e heq
    obtain rfl := Except.error.inj h
    exact stageNuma_no_panic cfg heq
  split at h
  · rename_i e heq
    obtain rfl := Except.error.inj h
    exact stageZoneIds_no_panic cfg _ heq
  split at h
  · rename_i e heq
    obtain rfl := Except.error.inj h
    exact stageSgxIds_no_panic cfg _ heq
  split at h
  · rename_i e heq
    obtain rfl := Except.error.inj h
    exact stagePciSegs_no_panic cfg heq
  split at h
  · rename_i e heq
    obtain rfl := Except.error.inj h
    exact stagePlatform_no_panic cfg heq
  dsimp only [] at h
  split at h
  · rename_i e heq
    obtain rfl := Except.error.inj h
    exact stageLandlock_no_panic env cfg heq
  simp at h


lemma backed_none_iff (cfg : VmConfig) :
    cfg.backed_by_shared_memory = none ↔
      (¬ cfg.memory.shared ∧ ¬ cfg.memory.hugepages ∧
        cfg.memory.size = 0 ∧ cfg.memory.zones = none) := by
  unfold VmConfig.backed_by_shared_memory
  split_ifs with h1 h2
  · constructor
    · intro hc; simp at hc
    · rintro ⟨hs, hh, _, _⟩
      rcases h1 with h | h
      · exact hs h
      · exact hh h
  · push_neg at h1
    cases hz : cfg.memory.zones with
    | none => simp [h2, h1.1, h1.2]
    | some zs => simp
  · push_neg at h1
    constructor
    · intro hc; simp at hc
    · rintro ⟨_, _, hsz, _⟩
      exact h2 hsz

lemma backed_some_true_iff (cfg : VmConfig) :
    cfg.backed_by_shared_memory = some true ↔
      (cfg.memory.shared ∨ cfg.memory.hugepages ∨
        (cfg.memory.size = 0 ∧ ∃ zs, cfg.memory.zones = some zs ∧
          ∀ z ∈ zs, z.shared = true ∨ z.hugepages = true)) := by
  unfold VmConfig.backed_by_shared_memory
  split_ifs with h1 h2
  · simp only [eq_self_iff_true, true_iff]
    rcases h1 with h | h
    · exact Or.inl h
    · exact Or.inr (Or.inl h)
  · push_neg at h1
    cases hz : cfg.memory.zones with
    | none =>
      simp [h1.1, h1.2]
    | some zs =>
      simp [h1.1, h1.2, h2, List.all_eq_true]
  · push_neg at h1
    simp [h1.1, h1.2, h2]

def c10Cfg : VmConfig :=
  { baseCfg with memory := { baseMemory with size := 0, shared := true } }

/-- C10 counterexample: a config with `memory.size == 0` and no zone list
whose memory is marked `shared` — the claim says such a config panics, but
`backed_by_shared_memory` returns `true` before ever reaching the `unwrap`
(the `shared || hugepages` early return comes first). -/
theorem c10_counterexample :
    c10Cfg.memory.size = 0 ∧ c10Cfg.memory.zones = none ∧
    VmConfig.backed_by_shared_memory c10Cfg = some true := ⟨rfl, rfl, rfl⟩

/-- C10 (amended: the `unwrap` panic requires, in addition to
`memory.size == 0` and `zones == None`, that the memory is neither shared
nor huge-paged — otherwise the first early return fires):
`backed_by_shared_memory` panics exactly on that narrower set, returns
`true` exactly when the memory is shared or huge-paged or `size == 0` with
every zone shared or huge-paged, and under the claim's precondition
(`size` nonzero or `zones` present) the shared-memory checks inside
`VmConfig::validate` never panic. -/
theorem c10_backed_by_shared_memory (env : ExtEnv) (cfg : VmConfig) :
    (cfg.backed_by_shared_memory = none ↔
      (¬ cfg.memory.shared ∧ ¬ cfg.memory.hugepages ∧
        cfg.memory.size = 0 ∧ cfg.memory.zones = none)) ∧
    (cfg.backed_by_shared_memory = some true ↔
      (cfg.memory.shared ∨ cfg.memory.hugepages ∨
        (cfg.memory.size = 0 ∧ ∃ zs, cfg.memory.zones = some zs ∧
          ∀ z ∈ zs, z.shared = true ∨ z.hugepages = true))) ∧
    ((cfg.memory.size ≠ 0 ∨ cfg.memory.zones ≠ none) →
      (VmConfig.validate env cfg).2 ≠ .error .panicked) := by
  refine ⟨backed_none_iff cfg, backed_some_true_iff cfg, ?_⟩
  intro hpre h
  have hb : cfg.backed_by_shared_memory ≠ none := by
    rw [Ne, backed_none_iff cfg]
    rintro ⟨_, _, hsz, hzn⟩
    rcases hpre with hc | hc
    · exact hc hsz
    · exact hc hzn
  unfold VmConfig.validate at h
  cases hc : validateCore env cfg with
  | ok v => rw [hc] at h; simp at h
  | error e =>
    rw [hc] at h
    simp only at h
    obtain rfl := Except.error.inj h
    exact validateCore_no_panic env cfg hb hc

theorem c10_backed_by_shared_memory_witness :
    (baseCfg.memory.size ≠ 0 ∨ baseCfg.memory.zones ≠ none) ∧
    (VmConfig.validate defaultEnv baseCfg).2 ≠ .error .panicked :=
  ⟨Or.inl (by decide),
    (c10_backed_by_shared_memory defaultEnv baseCfg).2.2 (Or.inl (by decide))⟩

/-! ## C1 — balloon size versus RAM -/

lemma preNuma_ok_balloon {cfg : VmConfig} {st : List String × Bool}
    (h : validatePreNuma cfg = .ok st) : stageBalloon cfg = .ok () := by
  unfold validatePreNuma at h
  split at h
  · simp at h
  · split at h
    · simp at h
    · rename_i u heqB
      cases u
      exact heqB

lemma core_ok_preNuma {env : ExtEnv} {cfg : VmConfig} {st : List String × Bool}
    (h : validateCore env cfg = .ok st) :
    ∃ st', validatePreNuma cfg = .ok st' := by
  unfold validateCore at h
  split at h
  · simp at h
  · rename_i ids iommu heq
    exact ⟨_, heq⟩

lemma validate_ok_core {env : ExtEnv} {cfg : VmConfig} {S : List String}
    (h : (VmConfig.validate env cfg).2 = .ok S) :
    ∃ st, validateCore env cfg = .ok st ∧ st.1 = S := by
  unfold VmConfig.validate at h
  cases hc : validateCore env cfg with
  | error e => rw [hc] at h; simp at h
  | ok st =>
    rw [hc] at h
    simp only at h
    exact ⟨st, rfl, Except.ok.inj h⟩

def c1Cfg : VmConfig :=
  { baseCfg with
      memory := { baseMemory with size := 1024, hotplugged_size := some 1024 }
      balloon := some ⟨1024, false, false⟩ }

/-- C1 counterexample: base size 1024 with a hotplugged 1024 and a balloon
of 1024.  Counting hotplugged sizes (`MemoryConfig::total_size`) the
balloon is strictly below total RAM, so per the claim the
balloon-larger-than-RAM error must not fire — but `validate` compares
against base size plus zone sizes only and rejects the config. -/
theorem c1_counterexample :
    (∃ b, c1Cfg.balloon = some b ∧ b.size < c1Cfg.memory.total_size) ∧
    (VmConfig.validate defaultEnv c1Cfg).2
      = .error (.verr (.BalloonLargerThanRam 1024 1024)) := by
  refine ⟨⟨⟨1024, false, false⟩, rfl, by decide⟩, ?_⟩
  rfl

/-- C1 (amended: the RAM bound of the balloon rule is the base memory size
plus the zone sizes — hotplugged sizes, which `MemoryConfig::total_size`
does include, are NOT part of this bound): on success the balloon is
strictly below that bound, and whenever the rules before the balloon rule
pass and the balloon is at or above the bound, validation fails with
`BalloonLargerThanRam` carrying the balloon size and the bound. -/
theorem c1_balloon_rule (env : ExtEnv) (cfg : VmConfig) (b : BalloonConfig)
    (hb : cfg.balloon = some b) :
    (∀ S, (VmConfig.validate env cfg).2 = .ok S → b.size < balloonRamSize cfg) ∧
    (∀ st, validatePreBalloon cfg = .ok st → balloonRamSize cfg ≤ b.size →
      (VmConfig.validate env cfg).2
        = .error (.verr (.BalloonLargerThanRam b.size (balloonRamSize cfg)))) := by
  constructor
  · intro S h
    obtain ⟨st, hc, _⟩ := validate_ok_core h
    obtain ⟨st', hpn⟩ := core_ok_preNuma hc
    have hB := preNuma_ok_balloon hpn
    unfold stageBalloon at hB
    rw [hb] at hB
    dsimp only [] at hB
    split_ifs at hB with hge
    all_goals first | (simp at hB; done) | omega
  · intro st hpre hge
    obtain ⟨ids, iommu⟩ := st
    have hB : stageBalloon cfg
        = .error (.verr (.BalloonLargerThanRam b.size (balloonRamSize cfg))) := by
      unfold stageBalloon
      rw [hb]
      dsimp only []
      rw [if_pos (by omega)]
    have hpn : validatePreNuma cfg
        = .error (.verr (.BalloonLargerThanRam b.size (balloonRamSize cfg))) := by
      unfold validatePreNuma
      rw [hpre]
      dsimp only []
      rw [hB]
    have hc : validateCore env cfg
        = .error (.verr (.BalloonLargerThanRam b.size (balloonRamSize cfg))) := by
      unfold validateCore
      rw [hpn]
    unfold VmConfig.validate
    rw [hc]

theorem c1_balloon_rule_witness :
    (c1Cfg.balloon = some ⟨1024, false, false⟩ ∧
      validatePreBalloon c1Cfg = .ok ([], false) ∧
      balloonRamSize c1Cfg ≤ 1024) ∧
    (VmConfig.validate defaultEnv c1Cfg).2
      = .error (.verr (.BalloonLargerThanRam 1024 (balloonRamSize c1Cfg))) :=
  ⟨⟨rfl, rfl, by decide⟩,
    (c1_balloon_rule defaultEnv c1Cfg ⟨1024, false, false⟩ rfl).2
      ([], false) rfl (by decide)⟩

/-! ## C4 — NUMA zone / PCI-segment claims -/

/-- The zone claims one NUMA node makes: `(zone, guest_numa_id)` per listed
memory zone, in order. -/
def nodeZoneClaims (n : NumaConfig) : List (String × Nat) :=
  (n.memory_zones.getD []).map fun z => (z, n.guest_numa_id)

/-- The PCI-segment claims one NUMA node makes. -/
def nodeSegClaims (n : NumaConfig) : List (Nat × Nat) :=
  (n.pci_segments.getD []).map fun s => (s, n.guest_numa_id)

/-- All zone claims of a NUMA config list, in iteration order. -/
def zoneClaims (numa : List NumaConfig) : List (String × Nat) :=
  numa.flatMap nodeZoneClaims

/-- All PCI-segment claims of a NUMA config list, in iteration order. -/
def segClaims (numa : List NumaConfig) : List (Nat × Nat) :=
  numa.flatMap nodeSegClaims

/-- The condition the NUMA rules actually enforce: no zone is claimed
twice (by any nodes, equal or not), no segment is claimed twice, every
claimed segment is in range, and segment 0 is only claimed by node 0. -/
def numaOk (num : Nat) (numa : List NumaConfig) : Prop :=
  ((zoneClaims numa).map Prod.fst).Nodup ∧
  ((segClaims numa).map Prod.fst).Nodup ∧
  ∀ p ∈ segClaims numa, p.1 < num ∧ (p.1 = 0 → p.2 = 0)

lemma zoneClaims_cons (n : NumaConfig) (rest : List NumaConfig) :
    zoneClaims (n :: rest) = nodeZoneClaims n ++ zoneClaims rest := by
  simp [zoneClaims]

lemma segClaims_cons (n : NumaConfig) (rest : List NumaConfig) :
    segClaims (n :: rest) = nodeSegClaims n ++ segClaims rest := by
  simp [segClaims]

lemma nodeZoneClaims_keys (n : NumaConfig) :
    (nodeZoneClaims n).map Prod.fst = n.memory_zones.getD [] := by
  simp [nodeZoneClaims, Function.comp_def]

lemma zonesLoop_val {gid : Nat} {used u' : List (String × Nat)} {zs : List String}
    (h : numaZonesLoop gid used zs = .ok u') :
    u' = used ++ zs.map (fun z => (z, gid)) := by
  induction zs generalizing used with
  | nil =>
    simp [numaZonesLoop] at h
    simp [h]
  | cons w rest ih =>
    unfold numaZonesLoop at h
    cases hf : used.find? (fun e => e.1 == w) with
    | none =>
      rw [hf] at h
      dsimp only [] at h
      rw [ih h]
      simp
    | some e =>
      rw [hf] at h
      simp at h

lemma zonesLoop_ex (gid : Nat) (used : List (String × Nat)) (zs : List String) :
    (∃ u', numaZonesLoop gid used zs = .ok u') ↔
      (zs.Nodup ∧ ∀ z ∈ zs, z ∉ used.map Prod.fst) := by
  induction zs generalizing used with
  | nil => simp [numaZonesLoop]
  | cons w rest ih =>
    cases hf : used.find? (fun e => e.1 == w) with
    | none =>
      have hw : w ∉ used.map Prod.fst := by
        intro hmem
        rw [List.find?_eq_none] at hf
        obtain ⟨p, hp, hpe⟩ := List.mem_map.mp hmem
        exact hf p hp (by simp [hpe])
      constructor
      · rintro ⟨u', h⟩
        unfold numaZonesLoop at h
        rw [hf] at h
        dsimp only [] at h
        obtain ⟨hnd, hall⟩ := (ih (used ++ [(w, gid)])).mp ⟨u', h⟩
        refine ⟨List.nodup_cons.mpr ⟨?_, hnd⟩, ?_⟩
        · intro hwr
          have := hall w hwr
          simp at this
        · intro z hz
          cases List.mem_cons.mp hz with
          | inl h' => subst h'; exact hw
          | inr h' =>
            intro hc
            exact hall z h' (by simp [hc])
      · rintro ⟨hnd, hall⟩
        have hr := (ih (used ++ [(w, gid)])).mpr
          ⟨(List.nodup_cons.mp hnd).2, ?_⟩
        · obtain ⟨u', hu⟩ := hr
          refine ⟨u', ?_⟩
          unfold numaZonesLoop
          rw [hf]
          dsimp only []
          exact hu
        · intro z hz hc
          simp [List.map_append] at hc
          rcases hc with hc | hc
          · obtain ⟨x, hx⟩ := hc
            exact hall z (List.mem_cons_of_mem _ hz) (List.mem_map.mpr ⟨(z, x), hx, rfl⟩)
          · exact (List.nodup_cons.mp hnd).1 (hc ▸ hz)
    | some e =>
      have hkey : e.1 = w := by simpa using List.find?_some hf
      have hmem := List.mem_of_find?_eq_some hf
      have hw : w ∈ used.map Prod.fst := List.mem_map.mpr ⟨e, hmem, hkey⟩
      constructor
      · rintro ⟨u', h⟩
        unfold numaZonesLoop at h
        rw [hf] at h
        simp at h
      · rintro ⟨_, hall⟩
        exact absurd hw (hall w (by simp))

lemma segsLoop_val {num gid : Nat} {used u' : List (Nat × Nat)} {ss : List Nat}
    (h : numaSegsLoop num gid used ss = .ok u') :
    u' = used ++ ss.map (fun s => (s, gid)) := by
  induction ss generalizing used with
  | nil =>
    simp [numaSegsLoop] at h
    simp [h]
  | cons w rest ih =>
    unfold numaSegsLoop at h
    by_cases h1 : w ≥ num
    · rw [if_pos h1] at h
      simp at h
    by_cases h2 : w = 0 ∧ gid ≠ 0
    · rw [if_neg h1, if_pos h2] at h
      simp at h
    rw [if_neg h1, if_neg h2] at h
    cases hf : used.find? (fun e => e.1 == w) with
      | none =>
        rw [hf] at h
        dsimp only [] at h
        rw [ih h]
        simp
      | some e =>
        rw [hf] at h
        simp at h

lemma segsLoop_ex (num gid : Nat) (used : List (Nat × Nat)) (ss : List Nat) :
    (∃ u', numaSegsLoop num gid used ss = .ok u') ↔
      (ss.Nodup ∧ ∀ s ∈ ss,
        s < num ∧ (s = 0 → gid = 0) ∧ s ∉ used.map Prod.fst) := by
  induction ss generalizing used with
  | nil => simp [numaSegsLoop]
  | cons w rest ih =>
    by_cases h1 : w ≥ num
    · constructor
      · rintro ⟨u', h⟩
        unfold numaSegsLoop at h
        rw [if_pos h1] at h
        simp at h
      · rintro ⟨_, hall⟩
        exact absurd (hall w (by simp)).1 (by omega)
    · by_cases h2 : w = 0 ∧ gid ≠ 0
      · constructor
        · rintro ⟨u', h⟩
          unfold numaSegsLoop at h
          rw [if_neg h1, if_pos h2] at h
          simp at h
        · rintro ⟨_, hall⟩
          exact absurd ((hall w (by simp)).2.1 h2.1) h2.2
      · have h2' : w = 0 → gid = 0 := by tauto
        cases hf : used.find? (fun e => e.1 == w) with
        | none =>
          have hw : w ∉ used.map Prod.fst := by
            intro hmem
            rw [List.find?_eq_none] at hf
            obtain ⟨p, hp, hpe⟩ := List.mem_map.mp hmem
            exact hf p hp (by simp [hpe])
          constructor
          · rintro ⟨u', h⟩
            unfold numaSegsLoop at h
            rw [if_neg h1, if_neg h2, hf] at h
            dsimp only [] at h
            obtain ⟨hnd, hall⟩ := (ih (used ++ [(w, gid)])).mp ⟨u', h⟩
            refine ⟨List.nodup_cons.mpr ⟨?_, hnd⟩, ?_⟩
            · intro hwr
              have := (hall w hwr).2.2
              simp at this
            · intro s hs
              cases List.mem_cons.mp hs with
              | inl h' => subst h'; exact ⟨by omega, h2', hw⟩
              | inr h' =>
                obtain ⟨ha, hb, hc⟩ := hall s h'
                refine ⟨ha, hb, ?_⟩
                intro hcc
                exact hc (by simp [hcc])
          · rintro ⟨hnd, hall⟩
            have hr := (ih (used ++ [(w, gid)])).mpr
              ⟨(List.nodup_cons.mp hnd).2, ?_⟩
            · obtain ⟨u', hu⟩ := hr
              refine ⟨u', ?_⟩
              unfold numaSegsLoop
              rw [if_neg h1, if_neg h2, hf]
              dsimp only []
              exact hu
            · intro s hs
              obtain ⟨ha, hb, hc⟩ := hall s (List.mem_cons_of_mem _ hs)
              refine ⟨ha, hb, ?_⟩
              intro hcc
              simp [List.map_append] at hcc
              rcases hcc with hcc | hcc
              · obtain ⟨x, hx⟩ := hcc
                exact hc (List.mem_map.mpr ⟨(s, x), hx, rfl⟩)
              · exact (List.nodup_cons.mp hnd).1 (hcc ▸ hs)
        | some e =>
          have hkey : e.1 = w := by simpa using List.find?_some hf
          have hmem := List.mem_of_find?_eq_some hf
          have hw : w ∈ used.map Prod.fst := List.mem_map.mpr ⟨e, hmem, hkey⟩
          constructor
          · rintro ⟨u', h⟩
            unfold numaSegsLoop at h
            rw [if_neg h1, if_neg h2, hf] at h
            simp at h
          · rintro ⟨_, hall⟩
            exact absurd hw (hall w (by simp)).2.2

lemma zonesLoop_err_shape {gid : Nat} {used : List (String × Nat)} {zs : List String}
    {e : ValidationError} (h : numaZonesLoop gid used zs = .error e) :
    ∃ z f s, e = .MemoryZoneReused z f s := by
  induction zs generalizing used with
  | nil => simp [numaZonesLoop] at h
  | cons w rest ih =>
    unfold numaZonesLoop at h
    cases hf : used.find? (fun q => q.1 == w) with
    | none =>
      rw [hf] at h
      dsimp only [] at h
      exact ih h
    | some q =>
      rw [hf] at h
      dsimp only [] at h
      exact ⟨w, q.2, gid, (Except.error.inj h).symm⟩

lemma segsLoop_err_shape {num gid : Nat} {used : List (Nat × Nat)} {ss : List Nat}
    {e : ValidationError} (h : numaSegsLoop num gid used ss = .error e) :
    ∀ z f s, e ≠ .MemoryZoneReused z f s := by
  induction ss generalizing used with
  | nil => simp [numaSegsLoop] at h
  | cons w rest ih =>
    unfold numaSegsLoop at h
    by_cases h1 : w ≥ num
    · rw [if_pos h1] at h
      obtain rfl := (Except.error.inj h).symm
      intro z f s hc
      simp at hc
    by_cases h2 : w = 0 ∧ gid ≠ 0
    · rw [if_neg h1, if_pos h2] at h
      obtain rfl := (Except.error.inj h).symm
      intro z f s hc
      simp at hc
    rw [if_neg h1, if_neg h2] at h
    cases hf : used.find? (fun q => q.1 == w) with
    | none =>
      rw [hf] at h
      dsimp only [] at h
      exact ih h
    | some q =>
      rw [hf] at h
      dsimp only [] at h
      obtain rfl := (Except.error.inj h).symm
      intro z f s hc
      simp at hc

lemma zonesLoop_err {gid : Nat} {used : List (String × Nat)} {zs : List String}
    {z : String} {f s : Nat}
    (h : numaZonesLoop gid used zs = .error (.MemoryZoneReused z f s)) :
    s = gid ∧ z ∈ zs ∧ ((z, f) ∈ used ∨ (z, f) ∈ zs.map (fun w => (w, gid))) := by
  induction zs generalizing used with
  | nil => simp [numaZonesLoop] at h
  | cons w rest ih =>
    unfold numaZonesLoop at h
    cases hf : used.find? (fun q => q.1 == w) with
    | none =>
      rw [hf] at h
      dsimp only [] at h
      obtain ⟨h1, h2, h3⟩ := ih h
      refine ⟨h1, List.mem_cons_of_mem _ h2, ?_⟩
      rcases h3 with h3 | h3
      · rw [List.mem_append] at h3
        rcases h3 with h3 | h3
        · exact Or.inl h3
        · right
          simp at h3
          simp [h3]
      · right
        rw [List.map_cons]
        exact List.mem_cons_of_mem _ h3
    | some q =>
      rw [hf] at h
      dsimp only [] at h
      have h' := Except.error.inj h
      simp only [ValidationError.MemoryZoneReused.injEq] at h'
      obtain ⟨rfl, rfl, rfl⟩ := h'
      have hmem := List.mem_of_find?_eq_some hf
      have hkey : q.1 = w := by simpa using List.find?_some hf
      refine ⟨rfl, by simp, Or.inl ?_⟩
      have : (w, q.2) = q := by
        rw [← hkey]
      exact this ▸ hmem

lemma segsLoop_err {num gid : Nat} {used : List (Nat × Nat)} {ss : List Nat}
    {p f s : Nat}
    (h : numaSegsLoop num gid used ss = .error (.PciSegmentReused p f s)) :
    s = gid ∧ p ∈ ss ∧ ((p, f) ∈ used ∨ (p, f) ∈ ss.map (fun w => (w, gid))) := by
  induction ss generalizing used with
  | nil => simp [numaSegsLoop] at h
  | cons w rest ih =>
    unfold numaSegsLoop at h
    by_cases h1 : w ≥ num
    · rw [if_pos h1] at h
      simp at h
    by_cases h2 : w = 0 ∧ gid ≠ 0
    · rw [if_neg h1, if_pos h2] at h
      simp at h
    rw [if_neg h1, if_neg h2] at h
    cases hf : used.find? (fun q => q.1 == w) with
    | none =>
      rw [hf] at h
      dsimp only [] at h
      obtain ⟨ha, hb, hc⟩ := ih h
      refine ⟨ha, List.mem_cons_of_mem _ hb, ?_⟩
      rcases hc with hc | hc
      · rw [List.mem_append] at hc
        rcases hc with hc | hc
        · exact Or.inl hc
        · right
          simp at hc
          simp [hc]
      · right
        rw [List.map_cons]
        exact List.mem_cons_of_mem _ hc
    | some q =>
      rw [hf] at h
      dsimp only [] at h
      have h' := Except.error.inj h
      simp only [ValidationError.PciSegmentReused.injEq] at h'
      obtain ⟨rfl, rfl, rfl⟩ := h'
      have hmem := List.mem_of_find?_eq_some hf
      have hkey : q.1 = w := by simpa using List.find?_some hf
      refine ⟨rfl, by simp, Or.inl ?_⟩
      have : (w, q.2) = q := by
        rw [← hkey]
      exact this ▸ hmem

lemma nodeSegClaims_keys (n : NumaConfig) :
    (nodeSegClaims n).map Prod.fst = n.pci_segments.getD [] := by
  simp [nodeSegClaims, Function.comp_def]

lemma numaLoop_ok_iff (num : Nat) (uz : List (String × Nat)) (us : List (Nat × Nat))
    (numa : List NumaConfig) :
    numaLoop num uz us numa = .ok () ↔
      ( ((zoneClaims numa).map Prod.fst).Nodup ∧
        (∀ k ∈ (zoneClaims numa).map Prod.fst, k ∉ uz.map Prod.fst) ∧
        ((segClaims numa).map Prod.fst).Nodup ∧
        (∀ p ∈ segClaims numa,
          p.1 < num ∧ (p.1 = 0 → p.2 = 0) ∧ p.1 ∉ us.map Prod.fst) ) := by
  induction numa generalizing uz us with
  | nil => simp [numaLoop, zoneClaims, segClaims]
  | cons n rest ih =>
    constructor
    · intro h
      unfold numaLoop at h
      cases hz : numaZonesLoop n.guest_numa_id uz (n.memory_zones.getD []) with
      | error e => rw [hz] at h; simp at h
      | ok uz' =>
        rw [hz] at h
        dsimp only [] at h
        cases hsg : numaSegsLoop num n.guest_numa_id us (n.pci_segments.getD []) with
        | error e => rw [hsg] at h; simp at h
        | ok us' =>
          rw [hsg] at h
          dsimp only [] at h
          obtain ⟨hzn, hzu⟩ := (zonesLoop_ex _ uz _).mp ⟨uz', hz⟩
          obtain ⟨hsn, hsall⟩ := (segsLoop_ex num _ us _).mp ⟨us', hsg⟩
          have huz' : uz' = uz ++ nodeZoneClaims n := zonesLoop_val hz
          have hus' : us' = us ++ nodeSegClaims n := segsLoop_val hsg
          subst huz' hus'
          obtain ⟨h1, h2, h3, h4⟩ := (ih _ _).mp h
          rw [zoneClaims_cons, segClaims_cons]
          refine ⟨?_, ?_, ?_, ?_⟩
          · rw [List.map_append, List.nodup_append, nodeZoneClaims_keys]
            refine ⟨hzn, h1, ?_⟩
            intro k hk hk'
            have h22 := h2 k hk'
            rw [List.map_append, nodeZoneClaims_keys] at h22
            exact h22 (List.mem_append.mpr (Or.inr hk))
          · intro k hk
            rw [List.map_append, List.mem_append] at hk
            intro hc
            rcases hk with hk | hk
            · rw [nodeZoneClaims_keys] at hk
              exact hzu k hk hc
            · have h22 := h2 k hk
              rw [List.map_append] at h22
              exact h22 (List.mem_append.mpr (Or.inl hc))
          · rw [List.map_append, List.nodup_append, nodeSegClaims_keys]
            refine ⟨hsn, h3, ?_⟩
            intro k hk hk'
            obtain ⟨p, hp, rfl⟩ := List.mem_map.mp hk'
            have h44 := (h4 p hp).2.2
            rw [List.map_append, nodeSegClaims_keys] at h44
            exact h44 (List.mem_append.mpr (Or.inr hk))
          · intro p hp
            rw [List.mem_append] at hp
            rcases hp with hp | hp
            · obtain ⟨sv, hsv, rfl⟩ := List.mem_map.mp hp
              obtain ⟨ha, hb, hc⟩ := hsall sv hsv
              exact ⟨ha, hb, hc⟩
            · have h4' := h4 p hp
              refine ⟨h4'.1, h4'.2.1, ?_⟩
              intro hc
              apply h4'.2.2
              rw [List.map_append]
              exact List.mem_append.mpr (Or.inl hc)
    · rintro ⟨H1, H2, H3, H4⟩
      rw [zoneClaims_cons] at H1 H2
      rw [segClaims_cons] at H3 H4
      rw [List.map_append, List.nodup_append, nodeZoneClaims_keys] at H1
      rw [List.map_append, List.nodup_append, nodeSegClaims_keys] at H3
      obtain ⟨hzn, hzrest, hzdisj⟩ := H1
      obtain ⟨hsn, hsrest, hsdisj⟩ := H3
      obtain ⟨uz', hz⟩ := (zonesLoop_ex n.guest_numa_id uz (n.memory_zones.getD [])).mpr
        ⟨hzn, fun z hzmem => H2 z (by
          rw [List.map_append]
          exact List.mem_append.mpr (Or.inl (by rw [nodeZoneClaims_keys]; exact hzmem)))⟩
      obtain ⟨us', hsg⟩ := (segsLoop_ex num n.guest_numa_id us (n.pci_segments.getD [])).mpr
        ⟨hsn, fun sv hsv => H4 (sv, n.guest_numa_id)
          (List.mem_append.mpr (Or.inl (List.mem_map.mpr ⟨sv, hsv, rfl⟩)))⟩
      have huz' : uz' = uz ++ nodeZoneClaims n := zonesLoop_val hz
      have hus' : us' = us ++ nodeSegClaims n := segsLoop_val hsg
      subst huz' hus'
      unfold numaLoop
      rw [hz]
      dsimp only []
      rw [hsg]
      dsimp only []
      apply (ih _ _).mpr
      refine ⟨hzrest, ?_, hsrest, ?_⟩
      · intro k hk
        rw [List.map_append, nodeZoneClaims_keys]
        intro hc
        rw [List.mem_append] at hc
        rcases hc with hc | hc
        · exact H2 k (by rw [List.map_append]; exact List.mem_append.mpr (Or.inr hk)) hc
        · exact hzdisj hc hk
      · intro p hp
        have h4' := H4 p (List.mem_append.mpr (Or.inr hp))
        refine ⟨h4'.1, h4'.2.1, ?_⟩
        rw [List.map_append, nodeSegClaims_keys]
        intro hc
        rw [List.mem_append] at hc
        rcases hc with hc | hc
        · exact h4'.2.2 hc
        · exact hsdisj hc (List.mem_map.mpr ⟨p, hp, rfl⟩)

lemma numaLoop_zone_err {num : Nat} {uz : List (String × Nat)} {us : List (Nat × Nat)}
    {numa : List NumaConfig} {z : String} {f s : Nat}
    (h : numaLoop num uz us numa = .error (.MemoryZoneReused z f s)) :
    ((z, f) ∈ uz ∨ (z, f) ∈ zoneClaims numa) ∧ (z, s) ∈ zoneClaims numa := by
  induction numa generalizing uz us with
  | nil => simp [numaLoop] at h
  | cons n rest ih =>
    unfold numaLoop at h
    cases hz : numaZonesLoop n.guest_numa_id uz (n.memory_zones.getD []) with
    | error e =>
      rw [hz] at h
      dsimp only [] at h
      obtain rfl := Except.error.inj h
      obtain ⟨hs, hzz, hor⟩ := zonesLoop_err hz
      subst hs
      rw [zoneClaims_cons]
      constructor
      · rcases hor with h' | h'
        · exact Or.inl h'
        · exact Or.inr (List.mem_append.mpr (Or.inl h'))
      · exact List.mem_append.mpr (Or.inl (List.mem_map.mpr ⟨z, hzz, rfl⟩))
    | ok uz' =>
      rw [hz] at h
      dsimp only [] at h
      cases hsg : numaSegsLoop num n.guest_numa_id us (n.pci_segments.getD []) with
      | error e =>
        rw [hsg] at h
        dsimp only [] at h
        obtain rfl := Except.error.inj h
        exact absurd rfl (segsLoop_err_shape hsg z f s)
      | ok us' =>
        rw [hsg] at h
        dsimp only [] at h
        have huz' : uz' = uz ++ nodeZoneClaims n := zonesLoop_val hz
        subst huz'
        obtain ⟨hA, hB⟩ := ih h
        rw [zoneClaims_cons]
        constructor
        · rcases hA with hA | hA
          · rw [List.mem_append] at hA
            rcases hA with hA | hA
            · exact Or.inl hA
            · exact Or.inr (List.mem_append.mpr (Or.inl hA))
          · exact Or.inr (List.mem_append.mpr (Or.inr hA))
        · exact List.mem_append.mpr (Or.inr hB)

lemma numaLoop_seg_err {num : Nat} {uz : List (String × Nat)} {us : List (Nat × Nat)}
    {numa : List NumaConfig} {p f s : Nat}
    (h : numaLoop num uz us numa = .error (.PciSegmentReused p f s)) :
    ((p, f) ∈ us ∨ (p, f) ∈ segClaims numa) ∧ (p, s) ∈ segClaims numa := by
  induction numa generalizing uz us with
  | nil => simp [numaLoop] at h
  | cons n rest ih =>
    unfold numaLoop at h
    cases hz : numaZonesLoop n.guest_numa_id uz (n.memory_zones.getD []) with
    | error e =>
      rw [hz] at h
      dsimp only [] at h
      obtain rfl := Except.error.inj h
      obtain ⟨a, b, c, hc⟩ := zonesLoop_err_shape hz
      simp at hc
    | ok uz' =>
      rw [hz] at h
      dsimp only [] at h
      cases hsg : numaSegsLoop num n.guest_numa_id us (n.pci_segments.getD []) with
      | error e =>
        rw [hsg] at h
        dsimp only [] at h
        obtain rfl := Except.error.inj h
        obtain ⟨hs, hss, hor⟩ := segsLoop_err hsg
        subst hs
        rw [segClaims_cons]
        constructor
        · rcases hor with h' | h'
          · exact Or.inl h'
          · exact Or.inr (List.mem_append.mpr (Or.inl h'))
        · exact List.mem_append.mpr (Or.inl (List.mem_map.mpr ⟨p, hss, rfl⟩))
      | ok us' =>
        rw [hsg] at h
        dsimp only [] at h
        have hus' : us' = us ++ nodeSegClaims n := segsLoop_val hsg
        subst hus'
        obtain ⟨hA, hB⟩ := ih h
        rw [segClaims_cons]
        constructor
        · rcases hA with hA | hA
          · rw [List.mem_append] at hA
            rcases hA with hA | hA
            · exact Or.inl hA
            · exact Or.inr (List.mem_append.mpr (Or.inl hA))
          · exact Or.inr (List.mem_append.mpr (Or.inr hA))
        · exact List.mem_append.mpr (Or.inr hB)

lemma core_ok_numa {env : ExtEnv} {cfg : VmConfig} {st : List String × Bool}
    (h : validateCore env cfg = .ok st) : stageNuma cfg = .ok () := by
  unfold validateCore at h
  split at h
  · simp at h
  · split at h
    · simp at h
    · rename_i u heq
      cases u
      exact heq

lemma stageNuma_ok_iff {cfg : VmConfig} {numa : List NumaConfig}
    (hn : cfg.numa = some numa) :
    stageNuma cfg = .ok () ↔ numaOk (numPciSegments cfg) numa := by
  have hred : stageNuma cfg = .ok () ↔
      numaLoop (numPciSegments cfg) [] [] numa = .ok () := by
    unfold stageNuma
    rw [hn]
    dsimp only []
    cases hl : numaLoop (numPciSegments cfg) [] [] numa with
    | error e => simp
    | ok u => cases u; simp
  rw [hred, numaLoop_ok_iff]
  unfold numaOk
  constructor
  · rintro ⟨a, _, c, d⟩
    exact ⟨a, c, fun p hp => ⟨(d p hp).1, (d p hp).2.1⟩⟩
  · rintro ⟨a, c, d⟩
    refine ⟨a, ?_, c, ?_⟩
    · intro k hk
      simp
    · intro p hp
      exact ⟨(d p hp).1, (d p hp).2, by simp⟩

lemma stageNuma_zone_err {cfg : VmConfig} {numa : List NumaConfig} {z : String} {f s : Nat}
    (hn : cfg.numa = some numa)
    (h : stageNuma cfg = .error (.verr (.MemoryZoneReused z f s))) :
    (z, f) ∈ zoneClaims numa ∧ (z, s) ∈ zoneClaims numa := by
  unfold stageNuma at h
  rw [hn] at h
  dsimp only [] at h
  cases hl : numaLoop (numPciSegments cfg) [] [] numa with
  | error e =>
    rw [hl] at h
    dsimp only [] at h
    obtain rfl := VFailure.verr.inj (Except.error.inj h)
    have := numaLoop_zone_err hl
    simpa using this
  | ok u =>
    cases u
    rw [hl] at h
    simp at h

lemma stageNuma_seg_err {cfg : VmConfig} {numa : List NumaConfig} {p f s : Nat}
    (hn : cfg.numa = some numa)
    (h : stageNuma cfg = .error (.verr (.PciSegmentReused p f s))) :
    (p, f) ∈ segClaims numa ∧ (p, s) ∈ segClaims numa := by
  unfold stageNuma at h
  rw [hn] at h
  dsimp only [] at h
  cases hl : numaLoop (numPciSegments cfg) [] [] numa with
  | error e =>
    rw [hl] at h
    dsimp only [] at h
    obtain rfl := VFailure.verr.inj (Except.error.inj h)
    have := numaLoop_seg_err hl
    simpa using this
  | ok u =>
    cases u
    rw [hl] at h
    simp at h

def c4Node : NumaConfig :=
  { guest_numa_id := 3, cpus := none, distances := none,
    memory_zones := some ["z", "z"], sgx_epc_sections := none,
    pci_segments := none }

def c4Cfg : VmConfig := { baseCfg with numa := some [c4Node] }

/-- C4 counterexample: with a single NUMA node listing the same memory
zone twice, every zone and segment is claimed by at most one node (there
is only one node), segment constraints hold vacuously — yet `validate`
fails with `MemoryZoneReused`, reporting the very same node id as both
the first and the second claimant. -/
theorem c4_counterexample :
    (∀ k : String,
      ((c4Cfg.numa.getD []).filter
        (fun n => decide (k ∈ n.memory_zones.getD []))).length ≤ 1) ∧
    (∀ p : Nat,
      ((c4Cfg.numa.getD []).filter
        (fun n => decide (p ∈ n.pci_segments.getD []))).length ≤ 1) ∧
    (∀ n ∈ c4Cfg.numa.getD [], ∀ p ∈ n.pci_segments.getD [],
      p < numPciSegments c4Cfg ∧ (p = 0 → n.guest_numa_id = 0)) ∧
    (VmConfig.validate defaultEnv c4Cfg).2
      = .error (.verr (.MemoryZoneReused "z" 3 3)) := by
  refine ⟨?_, ?_, ?_, rfl⟩
  · intro k
    exact (List.length_filter_le _ _).trans (by decide)
  · intro p
    exact (List.length_filter_le _ _).trans (by decide)
  · intro n hn p hp
    simp [c4Cfg, baseCfg] at hn
    subst hn
    simp [c4Node] at hp

/-- C4 (amended: a reuse error fires on the second claim of the same zone
or segment even when both claims come from the same node — the reported
pair of node ids is the recorded first claimant and the current claimant,
which may be equal; a config passes the NUMA rules iff all zone claims
have pairwise-distinct zones, all segment claims pairwise-distinct
segments, every claimed segment is below the platform segment count, and
segment 0 is only claimed by node 0): characterization of the NUMA stage,
its necessity on overall success, its error propagation into `validate`,
and the provenance of the node ids carried by the two reuse errors. -/
theorem c4_numa_rules (env : ExtEnv) (cfg : VmConfig) (numa : List NumaConfig)
    (hn : cfg.numa = some numa) :
    (stageNuma cfg = .ok () ↔ numaOk (numPciSegments cfg) numa) ∧
    (∀ S, (VmConfig.validate env cfg).2 = .ok S → numaOk (numPciSegments cfg) numa) ∧
    (∀ st e, validatePreNuma cfg = .ok st → stageNuma cfg = .error e →
        (VmConfig.validate env cfg).2 = .error e) ∧
    (∀ z f s, stageNuma cfg = .error (.verr (.MemoryZoneReused z f s)) →
        (z, f) ∈ zoneClaims numa ∧ (z, s) ∈ zoneClaims numa) ∧
    (∀ p f s, stageNuma cfg = .error (.verr (.PciSegmentReused p f s)) →
        (p, f) ∈ segClaims numa ∧ (p, s) ∈ segClaims numa) := by
  refine ⟨stageNuma_ok_iff hn, ?_, ?_,
    fun z f s h => stageNuma_zone_err hn h,
    fun p f s h => stageNuma_seg_err hn h⟩
  · intro S h
    obtain ⟨st, hc, _⟩ := validate_ok_core h
    exact (stageNuma_ok_iff hn).mp (core_ok_numa hc)
  · intro st e hpn hse
    obtain ⟨ids, iommu⟩ := st
    have hcore : validateCore env cfg = .error e := by
      unfold validateCore
      rw [hpn]
      dsimp only []
      rw [hse]
    unfold VmConfig.validate
    rw [hcore]

def c4GoodNuma : List NumaConfig :=
  [ { guest_numa_id := 0, cpus := none, distances := none,
      memory_zones := some ["a"], sgx_epc_sections := none,
      pci_segments := some [0] },
    { guest_numa_id := 1, cpus := none, distances := none,
      memory_zones := some ["b"], sgx_epc_sections := none,
      pci_segments := none } ]

def c4GoodCfg : VmConfig := { baseCfg with numa := some c4GoodNuma }

theorem c4_numa_rules_witness :
    numaOk (numPciSegments c4GoodCfg) c4GoodNuma ∧
    stageNuma c4GoodCfg = .ok () :=
  have h : numaOk (numPciSegments c4GoodCfg) c4GoodNuma := by
    unfold numaOk
    decide
  ⟨h, ((c4_numa_rules defaultEnv c4GoodCfg c4GoodNuma rfl).1).mpr h⟩

/-! ## C5 — identifier uniqueness -/

/-- The invariant `validate_identifier` maintains on the running id set:
no duplicates, no reserved-prefix ids. -/
def GoodIds (ids : List String) : Prop :=
  ids.Nodup ∧ ∀ i ∈ ids, ¬ strStartsWith i "__"

/-- Every explicit user-supplied id of a config, in the order `validate`
inserts them. -/
def collectIds (cfg : VmConfig) : List String :=
  (cfg.rate_limit_groups.getD []).map (fun g => g.id)
  ++ (cfg.disks.getD []).filterMap (fun d => d.id)
  ++ (cfg.net.getD []).filterMap (fun n => n.id)
  ++ (cfg.fs.getD []).filterMap (fun f => f.id)
  ++ (cfg.pmem.getD []).filterMap (fun p => p.id)
  ++ (cfg.user_devices.getD []).filterMap (fun u => u.id)
  ++ (cfg.vdpa.getD []).filterMap (fun v => v.id)
  ++ (cfg.devices.getD []).filterMap (fun d => d.id)
  ++ (match cfg.vsock with | some v => v.id.toList | none => [])
  ++ (cfg.memory.zones.getD []).map (fun z => z.id)
  ++ (cfg.sgx_epc.getD []).map (fun s => s.id)

lemma validate_identifier_ok {ids ids' : List String} {id : Option String}
    (h : VmConfig.validate_identifier ids id = .ok ids') :
    ids' = ids ++ id.toList ∧ ∀ i, id = some i → i ∉ ids ∧ ¬ strStartsWith i "__" := by
  cases id with
  | none =>
    simp [VmConfig.validate_identifier] at h
    simp [h]
  | some i =>
    unfold VmConfig.validate_identifier at h
    dsimp only [] at h
    by_cases h1 : strStartsWith i "__" = true
    · rw [if_pos h1] at h
      simp at h
    rw [if_neg h1] at h
    by_cases h2 : i ∈ ids
    · rw [if_pos h2] at h
      simp at h
    rw [if_neg h2] at h
    · obtain rfl := Except.ok.inj h
      refine ⟨rfl, ?_⟩
      intro j hj
      obtain rfl := Option.some.inj hj
      exact ⟨h2, h1⟩

lemma GoodIds_step {ids ids' : List String} {id : Option String}
    (hg : GoodIds ids) (h : VmConfig.validate_identifier ids id = .ok ids') :
    GoodIds ids' := by
  obtain ⟨hv, hc⟩ := validate_identifier_ok h
  subst hv
  cases id with
  | none => simpa using hg
  | some i =>
    obtain ⟨hmem, hpre⟩ := hc i rfl
    constructor
    · rw [List.nodup_append]
      refine ⟨hg.1, List.nodup_singleton i, ?_⟩
      intro a ha hb
      simp at hb
      subst hb
      exact hmem ha
    · intro j hj
      rw [List.mem_append] at hj
      rcases hj with hj | hj
      · exact hg.2 j hj
      · simp at hj
        subst hj
        exact hpre

lemma rlgLoop_ids {cfg : VmConfig} {gs : List RateLimiterGroupConfig}
    {ids ids' : List String} (h : rlgLoop cfg gs ids = .ok ids') :
    ids' = ids ++ gs.map (fun g => g.id) ∧ (GoodIds ids → GoodIds ids') := by
  induction gs generalizing ids with
  | nil =>
    simp [rlgLoop] at h
    subst h
    exact ⟨by simp, fun hg => hg⟩
  | cons g rest ih =>
    unfold rlgLoop at h
    cases hv : RateLimiterGroupConfig.validate g cfg with
    | error e => rw [hv] at h; simp at h
    | ok u =>
      rw [hv] at h
      dsimp only [] at h
      cases hi : VmConfig.validate_identifier ids (some g.id) with
      | error e => rw [hi] at h; simp at h
      | ok ids1 =>
        rw [hi] at h
        dsimp only [] at h
        obtain ⟨h1, h2⟩ := ih h
        obtain ⟨hv1, _⟩ := validate_identifier_ok hi
        subst hv1
        constructor
        · rw [h1]; simp
        · intro hg
          exact h2 (GoodIds_step hg hi)

lemma stageRlgs_ids {cfg : VmConfig} {ids ids' : List String}
    (h : stageRlgs cfg ids = .ok ids') :
    ids' = ids ++ (cfg.rate_limit_groups.getD []).map (fun g => g.id) ∧
    (GoodIds ids → GoodIds ids') := by
  unfold stageRlgs at h
  cases hr : cfg.rate_limit_groups with
  | none =>
    rw [hr] at h
    dsimp only [] at h
    obtain rfl := Except.ok.inj h
    exact ⟨by simp, fun hg => hg⟩
  | some gs =>
    rw [hr] at h
    dsimp only [] at h
    simpa using rlgLoop_ids h

lemma diskAfterGroup_ids {cfg : VmConfig} {disk : DiskConfig} {ids ids' : List String}
    (h : diskAfterGroup cfg disk ids = .ok ids') :
    ids' = ids ++ disk.id.toList ∧ (GoodIds ids → GoodIds ids') := by
  unfold diskAfterGroup at h
  cases hv : DiskConfig.validate disk cfg with
  | error e => rw [hv] at h; simp at h
  | ok u =>
    rw [hv] at h
    dsimp only [] at h
    cases hi : VmConfig.validate_identifier ids disk.id with
    | error e => rw [hi] at h; simp at h
    | ok ids1 =>
      rw [hi] at h
      dsimp only [] at h
      obtain rfl := Except.ok.inj h
      exact ⟨(validate_identifier_ok hi).1, fun hg => GoodIds_step hg hi⟩

lemma diskTail_ids {cfg : VmConfig} {disk : DiskConfig} {ids ids' : List String}
    (h : diskTail cfg disk ids = .ok ids') :
    ids' = ids ++ disk.id.toList ∧ (GoodIds ids → GoodIds ids') := by
  unfold diskTail at h
  by_cases h1 : disk.vhost_user = true ∧ disk.vhost_socket.isNone = true
  · rw [if_pos h1] at h
    simp at h
  rw [if_neg h1] at h
  cases hrl : disk.rate_limit_group with
  | none =>
    rw [hrl] at h
    dsimp only [] at h
    exact diskAfterGroup_ids h
  | some rl =>
    rw [hrl] at h
    dsimp only [] at h
    cases hgs : cfg.rate_limit_groups with
    | none => rw [hgs] at h; simp at h
    | some gs =>
      rw [hgs] at h
      dsimp only [] at h
      by_cases h2 : gs.any (fun g => g.id == rl) = true
      · rw [if_pos h2] at h
        exact diskAfterGroup_ids h
      · rw [if_neg h2] at h
        simp at h

lemma diskStep_ids {cfg : VmConfig} {disk : DiskConfig} {ids ids' : List String}
    (h : diskStep cfg disk ids = .ok ids') :
    ids' = ids ++ disk.id.toList ∧ (GoodIds ids → GoodIds ids') := by
  unfold diskStep at h
  by_cases h1 : disk.vhost_socket.isSome = true ∧ disk.path.isSome = true
  · rw [if_pos h1] at h
    simp at h
  rw [if_neg h1] at h
  by_cases h2 : disk.vhost_user = true
  · rw [if_pos h2] at h
    cases hb : cfg.backed_by_shared_memory with
    | none => rw [hb] at h; simp at h
    | some b =>
      rw [hb] at h
      dsimp only [] at h
      by_cases h3 : b = true
      · rw [if_neg (by simp [h3])] at h
        exact diskTail_ids h
      · rw [if_pos (by simp [h3])] at h
        simp at h
  · rw [if_neg h2] at h
    exact diskTail_ids h

lemma diskLoop_ids {cfg : VmConfig} {disks : List DiskConfig}
    {ids ids' : List String} {iommu iommu' : Bool}
    (h : diskLoop cfg disks ids iommu = .ok (ids', iommu')) :
    ids' = ids ++ disks.filterMap (fun d => d.id) ∧ (GoodIds ids → GoodIds ids') := by
  induction disks generalizing ids iommu with
  | nil =>
    unfold diskLoop at h
    obtain ⟨rfl, rfl⟩ := Prod.mk.inj (Except.ok.inj h)
    exact ⟨by simp, fun hg => hg⟩
  | cons d rest ih =>
    unfold diskLoop at h
    cases hs : diskStep cfg d ids with
    | error e => rw [hs] at h; simp at h
    | ok ids1 =>
      rw [hs] at h
      dsimp only [] at h
      obtain ⟨h1, h2⟩ := ih h
      obtain ⟨hv, _⟩ := diskStep_ids hs
      subst hv
      constructor
      · rw [h1]
        cases hid : d.id <;> simp [hid]
      · intro hg
        exact h2 ((diskStep_ids hs).2 hg)

lemma stageDisks_ids {cfg : VmConfig} {ids ids' : List String} {iommu iommu' : Bool}
    (h : stageDisks cfg ids iommu = .ok (ids', iommu')) :
    ids' = ids ++ (cfg.disks.getD []).filterMap (fun d => d.id) ∧
    (GoodIds ids → GoodIds ids') := by
  unfold stageDisks at h
  cases hd : cfg.disks with
  | none =>
    rw [hd] at h
    dsimp only [] at h
    obtain ⟨rfl, rfl⟩ := Prod.mk.inj (Except.ok.inj h)
    exact ⟨by simp, fun hg => hg⟩
  | some disks =>
    rw [hd] at h
    dsimp only [] at h
    simpa using diskLoop_ids h

lemma netTail_ids {cfg : VmConfig} {net : NetConfig} {ids ids' : List String}
    (h : netTail cfg net ids = .ok ids') :
    ids' = ids ++ net.id.toList ∧ (GoodIds ids → GoodIds ids') := by
  unfold netTail at h
  cases hv : NetConfig.validate net cfg with
  | error e => rw [hv] at h; simp at h
  | ok u =>
    rw [hv] at h
    dsimp only [] at h
    cases hi : VmConfig.validate_identifier ids net.id with
    | error e => rw [hi] at h; simp at h
    | ok ids1 =>
      rw [hi] at h
      dsimp only [] at h
      obtain rfl := Except.ok.inj h
      exact ⟨(validate_identifier_ok hi).1, fun hg => GoodIds_step hg hi⟩

lemma netStep_ids {cfg : VmConfig} {net : NetConfig} {ids ids' : List String}
    (h : netStep cfg net ids = .ok ids') :
    ids' = ids ++ net.id.toList ∧ (GoodIds ids → GoodIds ids') := by
  unfold netStep at h
  by_cases h2 : net.vhost_user = true
  · rw [if_pos h2] at h
    cases hb : cfg.backed_by_shared_memory with
    | none => rw [hb] at h; simp at h
    | some b =>
      rw [hb] at h
      dsimp only [] at h
      by_cases h3 : b = true
      · rw [if_neg (by simp [h3])] at h
        exact netTail_ids h
      · rw [if_pos (by simp [h3])] at h
        simp at h
  · rw [if_neg h2] at h
    exact netTail_ids h

lemma netLoop_ids {cfg : VmConfig} {nets : List NetConfig}
    {ids ids' : List String} {iommu iommu' : Bool}
    (h : netLoop cfg nets ids iommu = .ok (ids', iommu')) :
    ids' = ids ++ nets.filterMap (fun n => n.id) ∧ (GoodIds ids → GoodIds ids') := by
  induction nets generalizing ids iommu with
  | nil =>
    unfold netLoop at h
    obtain ⟨rfl, rfl⟩ := Prod.mk.inj (Except.ok.inj h)
    exact ⟨by simp, fun hg => hg⟩
  | cons n rest ih =>
    unfold netLoop at h
    cases hs : netStep cfg n ids with
    | error e => rw [hs] at h; simp at h
    | ok ids1 =>
      rw [hs] at h
      dsimp only [] at h
      obtain ⟨h1, h2⟩ := ih h
      obtain ⟨hv, _⟩ := netStep_ids hs
      subst hv
      constructor
      · rw [h1]
        cases hid : n.id <;> simp [hid]
      · intro hg
        exact h2 ((netStep_ids hs).2 hg)

lemma stageNets_ids {cfg : VmConfig} {ids ids' : List String} {iommu iommu' : Bool}
    (h : stageNets cfg ids iommu = .ok (ids', iommu')) :
    ids' = ids ++ (cfg.net.getD []).filterMap (fun n => n.id) ∧
    (GoodIds ids → GoodIds ids') := by
  unfold stageNets at h
  cases hd : cfg.net with
  | none =>
    rw [hd] at h
    dsimp only [] at h
    obtain ⟨rfl, rfl⟩ := Prod.mk.inj (Except.ok.inj h)
    exact ⟨by simp, fun hg => hg⟩
  | some nets =>
    rw [hd] at h
    dsimp only [] at h
    simpa using netLoop_ids h

lemma fsLoop_ids {cfg : VmConfig} {fses : List FsConfig} {ids ids' : List String}
    (h : fsLoop cfg fses ids = .ok ids') :
    ids' = ids ++ fses.filterMap (fun f => f.id) ∧ (GoodIds ids → GoodIds ids') := by
  induction fses generalizing ids with
  | nil =>
    simp [fsLoop] at h
    subst h
    exact ⟨by simp, fun hg => hg⟩
  | cons f rest ih =>
    unfold fsLoop at h
    cases hv : FsConfig.validate f cfg with
    | error e => rw [hv] at h; simp at h
    | ok u =>
      rw [hv] at h
      dsimp only [] at h
      cases hi : VmConfig.validate_identifier ids f.id with
      | error e => rw [hi] at h; simp at h
      | ok ids1 =>
        rw [hi] at h
        dsimp only [] at h
        obtain ⟨h1, h2⟩ := ih h
        obtain ⟨hv1, _⟩ := validate_identifier_ok hi
        subst hv1
        constructor
        · rw [h1]
          cases hid : f.id <;> simp [hid]
        · intro hg
          exact h2 (GoodIds_step hg hi)

lemma stageFs_ids {cfg : VmConfig} {ids ids' : List String}
    (h : stageFs cfg ids = .ok ids') :
    ids' = ids ++ (cfg.fs.getD []).filterMap (fun f => f.id) ∧
    (GoodIds ids → GoodIds ids') := by
  unfold stageFs at h
  cases hd : cfg.fs with
  | none =>
    rw [hd] at h
    dsimp only [] at h
    obtain rfl := Except.ok.inj h
    exact ⟨by simp, fun hg => hg⟩
  | some fses =>
    rw [hd] at h
    dsimp only [] at h
    by_cases h1 : ¬ fses.isEmpty = true
    · rw [if_pos h1] at h
      cases hb : cfg.backed_by_shared_memory with
      | none => rw [hb] at h; simp at h
      | some b =>
        rw [hb] at h
        dsimp only [] at h
        by_cases h3 : b = true
        · rw [if_neg (by simp [h3])] at h
          simpa using fsLoop_ids h
        · rw [if_pos (by simp [h3])] at h
          simp at h
    · rw [if_neg h1] at h
      simpa using fsLoop_ids h

lemma pmemLoop_ids {cfg : VmConfig} {pmems : List PmemConfig}
    {ids ids' : List String} {iommu iommu' : Bool}
    (h : pmemLoop cfg pmems ids iommu = .ok (ids', iommu')) :
    ids' = ids ++ pmems.filterMap (fun p => p.id) ∧ (GoodIds ids → GoodIds ids') := by
  induction pmems generalizing ids iommu with
  | nil =>
    unfold pmemLoop at h
    obtain ⟨rfl, rfl⟩ := Prod.mk.inj (Except.ok.inj h)
    exact ⟨by simp, fun hg => hg⟩
  | cons p rest ih =>
    unfold pmemLoop at h
    cases hv : PmemConfig.validate p cfg with
    | error e => rw [hv] at h; simp at h
    | ok u =>
      rw [hv] at h
      dsimp only [] at h
      cases hi : VmConfig.validate_identifier ids p.id with
      | error e => rw [hi] at h; simp at h
      | ok ids1 =>
        rw [hi] at h
        dsimp only [] at h
        obtain ⟨h1, h2⟩ := ih h
        obtain ⟨hv1, _⟩ := validate_identifier_ok hi
        subst hv1
        constructor
        · rw [h1]
          cases hid : p.id <;> simp [hid]
        · intro hg
          exact h2 (GoodIds_step hg hi)

lemma stagePmem_ids {cfg : VmConfig} {ids ids' : List String} {iommu iommu' : Bool}
    (h : stagePmem cfg ids iommu = .ok (ids', iommu')) :
    ids' = ids ++ (cfg.pmem.getD []).filterMap (fun p => p.id) ∧
    (GoodIds ids → GoodIds ids') := by
  unfold stagePmem at h
  cases hd : cfg.pmem with
  | none =>
    rw [hd] at h
    dsimp only [] at h
    obtain ⟨rfl, rfl⟩ := Prod.mk.inj (Except.ok.inj h)
    exact ⟨by simp, fun hg => hg⟩
  | some pmems =>
    rw [hd] at h
    dsimp only [] at h
    simpa using pmemLoop_ids h

lemma userLoop_ids {cfg : VmConfig} {uds : List UserDeviceConfig} {ids ids' : List String}
    (h : userLoop cfg uds ids = .ok ids') :
    ids' = ids ++ uds.filterMap (fun u => u.id) ∧ (GoodIds ids → GoodIds ids') := by
  induction uds generalizing ids with
  | nil =>
    simp [userLoop] at h
    subst h
    exact ⟨by simp, fun hg => hg⟩
  | cons ud rest ih =>
    unfold userLoop at h
    cases hv : UserDeviceConfig.validate ud cfg with
    | error e => rw [hv] at h; simp at h
    | ok u =>
      rw [hv] at h
      dsimp only [] at h
      cases hi : VmConfig.validate_identifier ids ud.id with
      | error e => rw [hi] at h; simp at h
      | ok ids1 =>
        rw [hi] at h
        dsimp only [] at h
        obtain ⟨h1, h2⟩ := ih h
        obtain ⟨hv1, _⟩ := validate_identifier_ok hi
        subst hv1
        constructor
        · rw [h1]
          cases hid : ud.id <;> simp [hid]
        · intro hg
          exact h2 (GoodIds_step hg hi)

lemma stageUsers_ids {cfg : VmConfig} {ids ids' : List String}
    (h : stageUsers cfg ids = .ok ids') :
    ids' = ids ++ (cfg.user_devices.getD []).filterMap (fun u => u.id) ∧
    (GoodIds ids → GoodIds ids') := by
  unfold stageUsers at h
  cases hd : cfg.user_devices with
  | none =>
    rw [hd] at h
    dsimp only [] at h
    obtain rfl := Except.ok.inj h
    exact ⟨by simp, fun hg => hg⟩
  | some uds =>
    rw [hd] at h
    dsimp only [] at h
    by_cases h1 : ¬ uds.isEmpty = true
    · rw [if_pos h1] at h
      cases hb : cfg.backed_by_shared_memory with
      | none => rw [hb] at h; simp at h
      | some b =>
        rw [hb] at h
        dsimp only [] at h
        by_cases h3 : b = true
        · rw [if_neg (by simp [h3])] at h
          simpa using userLoop_ids h
        · rw [if_pos (by simp [h3])] at h
          simp at h
    · rw [if_neg h1] at h
      simpa using userLoop_ids h

lemma vdpaLoop_ids {cfg : VmConfig} {vds : List VdpaConfig}
    {ids ids' : List String} {iommu iommu' : Bool}
    (h : vdpaLoop cfg vds ids iommu = .ok (ids', iommu')) :
    ids' = ids ++ vds.filterMap (fun v => v.id) ∧ (GoodIds ids → GoodIds ids') := by
  induction vds generalizing ids iommu with
  | nil =>
    unfold vdpaLoop at h
    obtain ⟨rfl, rfl⟩ := Prod.mk.inj (Except.ok.inj h)
    exact ⟨by simp, fun hg => hg⟩
  | cons vd rest ih =>
    unfold vdpaLoop at h
    cases hv : VdpaConfig.validate vd cfg with
    | error e => rw [hv] at h; simp at h
    | ok u =>
      rw [hv] at h
      dsimp only [] at h
      cases hi : VmConfig.validate_identifier ids vd.id with
      | error e => rw [hi] at h; simp at h
      | ok ids1 =>
        rw [hi] at h
        dsimp only [] at h
        obtain ⟨h1, h2⟩ := ih h
        obtain ⟨hv1, _⟩ := validate_identifier_ok hi
        subst hv1
        constructor
        · rw [h1]
          cases hid : vd.id <;> simp [hid]
        · intro hg
          exact h2 (GoodIds_step hg hi)

lemma stageVdpa_ids {cfg : VmConfig} {ids ids' : List String} {iommu iommu' : Bool}
    (h : stageVdpa cfg ids iommu = .ok (ids', iommu')) :
    ids' = ids ++ (cfg.vdpa.getD []).filterMap (fun v => v.id) ∧
    (GoodIds ids → GoodIds ids') := by
  unfold stageVdpa at h
  cases hd : cfg.vdpa with
  | none =>
    rw [hd] at h
    dsimp only [] at h
    obtain ⟨rfl, rfl⟩ := Prod.mk.inj (Except.ok.inj h)
    exact ⟨by simp, fun hg => hg⟩
  | some vds =>
    rw [hd] at h
    dsimp only [] at h
    simpa using vdpaLoop_ids h

lemma deviceLoop_ids {cfg : VmConfig} {devs : List DeviceConfig}
    {ids ids' : List String} {iommu iommu' : Bool} {paths : List String}
    (h : deviceLoop cfg devs ids iommu paths = .ok (ids', iommu')) :
    ids' = ids ++ devs.filterMap (fun d => d.id) ∧ (GoodIds ids → GoodIds ids') := by
  induction devs generalizing ids iommu paths with
  | nil =>
    unfold deviceLoop at h
    obtain ⟨rfl, rfl⟩ := Prod.mk.inj (Except.ok.inj h)
    exact ⟨by simp, fun hg => hg⟩
  | cons d rest ih =>
    unfold deviceLoop at h
    by_cases hp : d.path ∈ paths
    · rw [if_pos hp] at h
      simp at h
    rw [if_neg hp] at h
    cases hv : DeviceConfig.validate d cfg with
    | error e => rw [hv] at h; simp at h
    | ok u =>
      rw [hv] at h
      dsimp only [] at h
      cases hi : VmConfig.validate_identifier ids d.id with
      | error e => rw [hi] at h; simp at h
      | ok ids1 =>
        rw [hi] at h
        dsimp only [] at h
        obtain ⟨h1, h2⟩ := ih h
        obtain ⟨hv1, _⟩ := validate_identifier_ok hi
        subst hv1
        constructor
        · rw [h1]
          cases hid : d.id <;> simp [hid]
        · intro hg
          exact h2 (GoodIds_step hg hi)

lemma stageDevices_ids {cfg : VmConfig} {ids ids' : List String} {iommu iommu' : Bool}
    (h : stageDevices cfg ids iommu = .ok (ids', iommu')) :
    ids' = ids ++ (cfg.devices.getD []).filterMap (fun d => d.id) ∧
    (GoodIds ids → GoodIds ids') := by
  unfold stageDevices at h
  cases hd : cfg.devices with
  | none =>
    rw [hd] at h
    dsimp only [] at h
    obtain ⟨rfl, rfl⟩ := Prod.mk.inj (Except.ok.inj h)
    exact ⟨by simp, fun hg => hg⟩
  | some devs =>
    rw [hd] at h
    dsimp only [] at h
    simpa using deviceLoop_ids h

lemma stageVsock_ids {cfg : VmConfig} {ids ids' : List String} {iommu iommu' : Bool}
    (h : stageVsock cfg ids iommu = .ok (ids', iommu')) :
    ids' = ids ++ (match cfg.vsock with | some v => v.id.toList | none => []) ∧
    (GoodIds ids → GoodIds ids') := by
  unfold stageVsock at h
  cases hd : cfg.vsock with
  | none =>
    rw [hd] at h
    dsimp only [] at h
    obtain ⟨rfl, rfl⟩ := Prod.mk.inj (Except.ok.inj h)
    exact ⟨by simp, fun hg => hg⟩
  | some v =>
    rw [hd] at h
    dsimp only [] at h
    cases hv : VsockConfig.validate v cfg with
    | error e => rw [hv] at h; simp at h
    | ok u =>
      rw [hv] at h
      dsimp only [] at h
      cases hi : VmConfig.validate_identifier ids v.id with
      | error e => rw [hi] at h; simp at h
      | ok ids1 =>
        rw [hi] at h
        dsimp only [] at h
        obtain ⟨rfl, rfl⟩ := Prod.mk.inj (Except.ok.inj h)
        exact ⟨(validate_identifier_ok hi).1, fun hg => GoodIds_step hg hi⟩

lemma zoneIdsLoop_ids {zones : List MemoryZoneConfig} {ids ids' : List String}
    (h : zoneIdsLoop zones ids = .ok ids') :
    ids' = ids ++ zones.map (fun z => z.id) ∧ (GoodIds ids → GoodIds ids') := by
  induction zones generalizing ids with
  | nil =>
    simp [zoneIdsLoop] at h
    subst h
    exact ⟨by simp, fun hg => hg⟩
  | cons z rest ih =>
    unfold zoneIdsLoop at h
    cases hi : VmConfig.validate_identifier ids (some z.id) with
    | error e => rw [hi] at h; simp at h
    | ok ids1 =>
      rw [hi] at h
      dsimp only [] at h
      obtain ⟨h1, h2⟩ := ih h
      obtain ⟨hv1, _⟩ := validate_identifier_ok hi
      subst hv1
      constructor
      · rw [h1]; simp
      · intro hg
        exact h2 (GoodIds_step hg hi)

lemma stageZoneIds_ids {cfg : VmConfig} {ids ids' : List String}
    (h : stageZoneIds cfg ids = .ok ids') :
    ids' = ids ++ (cfg.memory.zones.getD []).map (fun z => z.id) ∧
    (GoodIds ids → GoodIds ids') := by
  unfold stageZoneIds at h
  cases hd : cfg.memory.zones with
  | none =>
    rw [hd] at h
    dsimp only [] at h
    obtain rfl := Except.ok.inj h
    exact ⟨by simp, fun hg => hg⟩
  | some zones =>
    rw [hd] at h
    dsimp only [] at h
    simpa using zoneIdsLoop_ids h

lemma sgxIdsLoop_ids {sgxs : List SgxEpcConfig} {ids ids' : List String}
    (h : sgxIdsLoop sgxs ids = .ok ids') :
    ids' = ids ++ sgxs.map (fun s => s.id) ∧ (GoodIds ids → GoodIds ids') := by
  induction sgxs generalizing ids with
  | nil =>
    simp [sgxIdsLoop] at h
    subst h
    exact ⟨by simp, fun hg => hg⟩
  | cons x rest ih =>
    unfold sgxIdsLoop at h
    cases hi : VmConfig.validate_identifier ids (some x.id) with
    | error e => rw [hi] at h; simp at h
    | ok ids1 =>
      rw [hi] at h
      dsimp only [] at h
      obtain ⟨h1, h2⟩ := ih h
      obtain ⟨hv1, _⟩ := validate_identifier_ok hi
      subst hv1
      constructor
      · rw [h1]; simp
      · intro hg
        exact h2 (GoodIds_step hg hi)

lemma stageSgxIds_ids {cfg : VmConfig} {ids ids' : List String}
    (h : stageSgxIds cfg ids = .ok ids') :
    ids' = ids ++ (cfg.sgx_epc.getD []).map (fun s => s.id) ∧
    (GoodIds ids → GoodIds ids') := by
  unfold stageSgxIds at h
  cases hd : cfg.sgx_epc with
  | none =>
    rw [hd] at h
    dsimp only [] at h
    obtain rfl := Except.ok.inj h
    exact ⟨by simp, fun hg => hg⟩
  | some sgxs =>
    rw [hd] at h
    dsimp only [] at h
    simpa using sgxIdsLoop_ids h

lemma preBalloon_ids {cfg : VmConfig} {S : List String} {io : Bool}
    (h : validatePreBalloon cfg = .ok (S, io)) :
    S = (cfg.rate_limit_groups.getD []).map (fun g => g.id)
      ++ (cfg.disks.getD []).filterMap (fun d => d.id)
      ++ (cfg.net.getD []).filterMap (fun n => n.id)
      ++ (cfg.fs.getD []).filterMap (fun f => f.id)
      ++ (cfg.pmem.getD []).filterMap (fun p => p.id)
      ++ (cfg.user_devices.getD []).filterMap (fun u => u.id)
      ++ (cfg.vdpa.getD []).filterMap (fun v => v.id) ∧
    GoodIds S := by
  unfold validatePreBalloon at h
  split at h
  · simp at h
  split at h
  · simp at h
  split at h
  · simp at h
  split at h
  · simp at h
  rename_i ids1 hrlg
  split at h
  · simp at h
  rename_i ids2 io2 hdisk
  split at h
  · simp at h
  rename_i ids3 io3 hnet
  split at h
  · simp at h
  rename_i ids4 hfs
  split at h
  · simp at h
  rename_i ids5 io5 hpmem
  dsimp only [] at h
  split at h
  · simp at h
  split at h
  · simp at h
  split at h
  · simp at h
  rename_i ids6 huser
  split at h
  · simp at h
  rename_i ids7 io7 hvdpa
  split at h
  · simp at h
  obtain ⟨rfl, rfl⟩ := Prod.mk.inj (Except.ok.inj h)
  obtain ⟨e1, g1⟩ := stageRlgs_ids hrlg
  obtain ⟨e2, g2⟩ := stageDisks_ids hdisk
  obtain ⟨e3, g3⟩ := stageNets_ids hnet
  obtain ⟨e4, g4⟩ := stageFs_ids hfs
  obtain ⟨e5, g5⟩ := stagePmem_ids hpmem
  obtain ⟨e6, g6⟩ := stageUsers_ids huser
  obtain ⟨e7, g7⟩ := stageVdpa_ids hvdpa
  subst e1 e2 e3 e4 e5 e6 e7
  have g0 : GoodIds [] := ⟨List.nodup_nil, by simp⟩
  exact ⟨by simp, g7 (g6 (g5 (g4 (g3 (g2 (g1 g0))))))⟩

lemma preNuma_ids {cfg : VmConfig} {S : List String} {io : Bool}
    (h : validatePreNuma cfg = .ok (S, io)) :
    S = (cfg.rate_limit_groups.getD []).map (fun g => g.id)
      ++ (cfg.disks.getD []).filterMap (fun d => d.id)
      ++ (cfg.net.getD []).filterMap (fun n => n.id)
      ++ (cfg.fs.getD []).filterMap (fun f => f.id)
      ++ (cfg.pmem.getD []).filterMap (fun p => p.id)
      ++ (cfg.user_devices.getD []).filterMap (fun u => u.id)
      ++ (cfg.vdpa.getD []).filterMap (fun v => v.id)
      ++ (cfg.devices.getD []).filterMap (fun d => d.id)
      ++ (match cfg.vsock with | some v => v.id.toList | none => []) ∧
    GoodIds S := by
  unfold validatePreNuma at h
  split at h
  · simp at h
  rename_i ids0 io0 hpb
  split at h
  · simp at h
  split at h
  · simp at h
  rename_i ids1 io1 hdev
  obtain ⟨e0, g0⟩ := preBalloon_ids hpb
  obtain ⟨e1, g1⟩ := stageDevices_ids hdev
  obtain ⟨e2, g2⟩ := stageVsock_ids h
  subst e2 e1 e0
  exact ⟨by simp, g2 (g1 g0)⟩

lemma core_ids {env : ExtEnv} {cfg : VmConfig} {S : List String} {io : Bool}
    (h : validateCore env cfg = .ok (S, io)) :
    S = collectIds cfg ∧ GoodIds S := by
  unfold validateCore at h
  split at h
  · simp at h
  rename_i ids0 io0 hpn
  split at h
  · simp at h
  split at h
  · simp at h
  rename_i ids1 hz
  split at h
  · simp at h
  rename_i ids2 hsx
  split at h
  · simp at h
  split at h
  · simp at h
  dsimp only [] at h
  split at h
  · simp at h
  obtain ⟨rfl, rfl⟩ := Prod.mk.inj (Except.ok.inj h)
  obtain ⟨e0, g0⟩ := preNuma_ids hpn
  obtain ⟨e1, g1⟩ := stageZoneIds_ids hz
  obtain ⟨e2, g2⟩ := stageSgxIds_ids hsx
  subst e2 e1 e0
  refine ⟨?_, g2 (g1 g0)⟩
  unfold collectIds
  simp

lemma validate_ids {env : ExtEnv} {cfg : VmConfig} {S : List String}
    (h : (VmConfig.validate env cfg).2 = .ok S) :
    S = collectIds cfg ∧ GoodIds S := by
  obtain ⟨st, hc, h1⟩ := validate_ok_core h
  obtain ⟨s1, s2⟩ := st
  obtain rfl : s1 = S := h1
  exact core_ids hc

/-- C5: on success `validate` returns exactly the list of every explicit
user-supplied id (rate-limiter groups, disks, NICs, filesystems, pmem,
user devices, vDPA devices, generic devices, vsock, memory zones, SGX EPC
sections) in insertion order, that list has no duplicates and no id in it
starts with the reserved prefix "__"; consequently a config whose id
collection has a duplicate or a reserved id can never validate; and the
identifier rule itself rejects a reserved id with `InvalidIdentifier` and
a repeated id with `IdentifierNotUnique`. -/
theorem c5_identifier_uniqueness (env : ExtEnv) (cfg : VmConfig) :
    (∀ S, (VmConfig.validate env cfg).2 = .ok S →
        S = collectIds cfg ∧ S.Nodup ∧ ∀ i ∈ S, ¬ strStartsWith i "__") ∧
    (¬ ((collectIds cfg).Nodup ∧ ∀ i ∈ collectIds cfg, ¬ strStartsWith i "__") →
        ∀ S, (VmConfig.validate env cfg).2 ≠ .ok S) ∧
    (∀ ids i, strStartsWith i "__" = true →
        VmConfig.validate_identifier ids (some i) = .error (.InvalidIdentifier i)) ∧
    (∀ ids i, ¬ strStartsWith i "__" = true → i ∈ ids →
        VmConfig.validate_identifier ids (some i) = .error (.IdentifierNotUnique i)) := by
  refine ⟨?_, ?_, ?_, ?_⟩
  · intro S h
    obtain ⟨e, g⟩ := validate_ids h
    exact ⟨e, g.1, g.2⟩
  · intro hbad S h
    obtain ⟨e, g⟩ := validate_ids h
    exact hbad (e ▸ g)
  · intro ids i hpre
    unfold VmConfig.validate_identifier
    dsimp only []
    rw [if_pos hpre]
  · intro ids i hpre hmem
    unfold VmConfig.validate_identifier
    dsimp only []
    rw [if_neg hpre, if_pos hmem]

def c5Disk0 : DiskConfig := { baseDisk with id := some "d0" }

def c5Disk1 : DiskConfig := { baseDisk with id := some "d1" }

def c5Cfg : VmConfig := { baseCfg with disks := some [c5Disk0, c5Disk1] }

instance {ε α : Type} [DecidableEq ε] [DecidableEq α] : DecidableEq (Except ε α)
  | .error a, .error b =>
    if h : a = b then .isTrue (by rw [h])
    else .isFalse (by intro hc; exact h (Except.error.inj hc))
  | .error a, .ok b => .isFalse (fun hc => Except.noConfusion hc)
  | .ok a, .error b => .isFalse (fun hc => Except.noConfusion hc)
  | .ok a, .ok b =>
    if h : a = b then .isTrue (by rw [h])
    else .isFalse (by intro hc; exact h (Except.ok.inj hc))

theorem c5_identifier_uniqueness_witness :
    (VmConfig.validate defaultEnv c5Cfg).2 = .ok ["d0", "d1"] ∧
    collectIds c5Cfg = ["d0", "d1"] := by
  have hv : (VmConfig.validate defaultEnv c5Cfg).2 = .ok ["d0", "d1"] := by decide
  have h := (c5_identifier_uniqueness defaultEnv c5Cfg).1 ["d0", "d1"] hv
  exact ⟨hv, h.1.symm⟩

/-! ## C9 — idempotence of `validate` -/

/-- None of the validation rules read the aggregate `iommu` flag; the
per-stage functions are invariant under updating it. -/
lemma stagePayload_iommu (cfg : VmConfig) (b : Bool) :
    stagePayload {cfg with iommu := b} = stagePayload cfg := rfl

lemma stageConsoles_iommu (cfg : VmConfig) (b : Bool) :
    stageConsoles {cfg with iommu := b} = stageConsoles cfg := rfl

lemma stageCpusOrder_iommu (cfg : VmConfig) (b : Bool) :
    stageCpusOrder {cfg with iommu := b} = stageCpusOrder cfg := rfl

lemma stageTopology_iommu (cfg : VmConfig) (b : Bool) :
    stageTopology {cfg with iommu := b} = stageTopology cfg := rfl

lemma stageHugepages_iommu (cfg : VmConfig) (b : Bool) :
    stageHugepages {cfg with iommu := b} = stageHugepages cfg := rfl

lemma stageVsockCid_iommu (cfg : VmConfig) (b : Bool) :
    stageVsockCid {cfg with iommu := b} = stageVsockCid cfg := rfl

lemma stageBalloon_iommu (cfg : VmConfig) (b : Bool) :
    stageBalloon {cfg with iommu := b} = stageBalloon cfg := rfl

lemma stageNuma_iommu (cfg : VmConfig) (b : Bool) :
    stageNuma {cfg with iommu := b} = stageNuma cfg := rfl

lemma stagePlatform_iommu (cfg : VmConfig) (b : Bool) :
    stagePlatform {cfg with iommu := b} = stagePlatform cfg := rfl

lemma stageLandlock_iommu (env : ExtEnv) (cfg : VmConfig) (b : Bool) :
    stageLandlock env {cfg with iommu := b} = stageLandlock env cfg := rfl

lemma stageZoneIds_iommu (cfg : VmConfig) (b : Bool) (ids : List String) :
    stageZoneIds {cfg with iommu := b} ids = stageZoneIds cfg ids := rfl

lemma stageSgxIds_iommu (cfg : VmConfig) (b : Bool) (ids : List String) :
    stageSgxIds {cfg with iommu := b} ids = stageSgxIds cfg ids := rfl

lemma stageVsock_iommu (cfg : VmConfig) (b : Bool) (ids : List String) (io : Bool) :
    stageVsock {cfg with iommu := b} ids io = stageVsock cfg ids io := rfl

lemma rlgLoop_congr {cfgA cfgB : VmConfig}
    (h : ∀ g, RateLimiterGroupConfig.validate g cfgA = RateLimiterGroupConfig.validate g cfgB) :
    ∀ gs ids, rlgLoop cfgA gs ids = rlgLoop cfgB gs ids := by
  intro gs
  induction gs with
  | nil => intro ids; rfl
  | cons g rest ih =>
    intro ids
    unfold rlgLoop
    rw [h g]
    cases RateLimiterGroupConfig.validate g cfgB <;>
      cases VmConfig.validate_identifier ids (some g.id) <;> simp [ih]

lemma stageRlgs_congr (cfgA cfgB : VmConfig)
    (hf : cfgA.rate_limit_groups = cfgB.rate_limit_groups)
    (h : ∀ g, RateLimiterGroupConfig.validate g cfgA = RateLimiterGroupConfig.validate g cfgB) :
    ∀ ids, stageRlgs cfgA ids = stageRlgs cfgB ids := by
  intro ids
  unfold stageRlgs
  rw [hf]
  cases cfgB.rate_limit_groups <;> simp [rlgLoop_congr h]

lemma stageRlgs_iommu (cfg : VmConfig) (b : Bool) (ids : List String) :
    stageRlgs {cfg with iommu := b} ids = stageRlgs cfg ids :=
  stageRlgs_congr {cfg with iommu := b} cfg rfl (fun _ => rfl) ids

lemma diskLoop_congr {cfgA cfgB : VmConfig}
    (h : ∀ d ids, diskStep cfgA d ids = diskStep cfgB d ids) :
    ∀ disks ids io, diskLoop cfgA disks ids io = diskLoop cfgB disks ids io := by
  intro disks
  induction disks with
  | nil => intro ids io; rfl
  | cons d rest ih =>
    intro ids io
    unfold diskLoop
    rw [h d ids]
    cases diskStep cfgB d ids <;> simp [ih]

lemma stageDisks_congr (cfgA cfgB : VmConfig)
    (hf : cfgA.disks = cfgB.disks)
    (h : ∀ d ids, diskStep cfgA d ids = diskStep cfgB d ids) :
    ∀ ids io, stageDisks cfgA ids io = stageDisks cfgB ids io := by
  intro ids io
  unfold stageDisks
  rw [hf]
  cases cfgB.disks <;> simp [diskLoop_congr h]

lemma stageDisks_iommu (cfg : VmConfig) (b : Bool) (ids : List String) (io : Bool) :
    stageDisks {cfg with iommu := b} ids io = stageDisks cfg ids io :=
  stageDisks_congr {cfg with iommu := b} cfg rfl (fun _ _ => rfl) ids io

lemma netLoop_congr {cfgA cfgB : VmConfig}
    (h : ∀ n ids, netStep cfgA n ids = netStep cfgB n ids) :
    ∀ nets ids io, netLoop cfgA nets ids io = netLoop cfgB nets ids io := by
  intro nets
  induction nets with
  | nil => intro ids io; rfl
  | cons n rest ih =>
    intro ids io
    unfold netLoop
    rw [h n ids]
    cases netStep cfgB n ids <;> simp [ih]

lemma stageNets_congr (cfgA cfgB : VmConfig)
    (hf : cfgA.net = cfgB.net)
    (h : ∀ n ids, netStep cfgA n ids = netStep cfgB n ids) :
    ∀ ids io, stageNets cfgA ids io = stageNets cfgB ids io := by
  intro ids io
  unfold stageNets
  rw [hf]
  cases cfgB.net <;> simp [netLoop_congr h]

lemma stageNets_iommu (cfg : VmConfig) (b : Bool) (ids : List String) (io : Bool) :
    stageNets {cfg with iommu := b} ids io = stageNets cfg ids io :=
  stageNets_congr {cfg with iommu := b} cfg rfl (fun _ _ => rfl) ids io

lemma fsLoop_congr {cfgA cfgB : VmConfig}
    (h : ∀ f, FsConfig.validate f cfgA = FsConfig.validate f cfgB) :
    ∀ fses ids, fsLoop cfgA fses ids = fsLoop cfgB fses ids := by
  intro fses
  induction fses with
  | nil => intro ids; rfl
  | cons f rest ih =>
    intro ids
    unfold fsLoop
    rw [h f]
    cases FsConfig.validate f cfgB <;>
      cases VmConfig.validate_identifier ids f.id <;> simp [ih]

lemma stageFs_congr (cfgA cfgB : VmConfig)
    (hf : cfgA.fs = cfgB.fs)
    (hb : VmConfig.backed_by_shared_memory cfgA = VmConfig.backed_by_shared_memory cfgB)
    (h : ∀ f, FsConfig.validate f cfgA = FsConfig.validate f cfgB) :
    ∀ ids, stageFs cfgA ids = stageFs cfgB ids := by
  intro ids
  unfold stageFs
  rw [hf, hb]
  cases cfgB.fs with
  | none => rfl
  | some fses => simp [fsLoop_congr h]

lemma stageFs_iommu (cfg : VmConfig) (b : Bool) (ids : List String) :
    stageFs {cfg with iommu := b} ids = stageFs cfg ids :=
  stageFs_congr {cfg with iommu := b} cfg rfl rfl (fun _ => rfl) ids

lemma pmemLoop_congr {cfgA cfgB : VmConfig}
    (h : ∀ p, PmemConfig.validate p cfgA = PmemConfig.validate p cfgB) :
    ∀ pmems ids io, pmemLoop cfgA pmems ids io = pmemLoop cfgB pmems ids io := by
  intro pmems
  induction pmems with
  | nil => intro ids io; rfl
  | cons p rest ih =>
    intro ids io
    unfold pmemLoop
    rw [h p]
    cases PmemConfig.validate p cfgB <;>
      cases VmConfig.validate_identifier ids p.id <;> simp [ih]

lemma stagePmem_congr (cfgA cfgB : VmConfig)
    (hf : cfgA.pmem = cfgB.pmem)
    (h : ∀ p, PmemConfig.validate p cfgA = PmemConfig.validate p cfgB) :
    ∀ ids io, stagePmem cfgA ids io = stagePmem cfgB ids io := by
  intro ids io
  unfold stagePmem
  rw [hf]
  cases cfgB.pmem <;> simp [pmemLoop_congr h]

lemma stagePmem_iommu (cfg : VmConfig) (b : Bool) (ids : List String) (io : Bool) :
    stagePmem {cfg with iommu := b} ids io = stagePmem cfg ids io :=
  stagePmem_congr {cfg with iommu := b} cfg rfl (fun _ => rfl) ids io

lemma userLoop_congr {cfgA cfgB : VmConfig}
    (h : ∀ u, UserDeviceConfig.validate u cfgA = UserDeviceConfig.validate u cfgB) :
    ∀ uds ids, userLoop cfgA uds ids = userLoop cfgB uds ids := by
  intro uds
  induction uds with
  | nil => intro ids; rfl
  | cons u rest ih =>
    intro ids
    unfold userLoop
    rw [h u]
    cases UserDeviceConfig.validate u cfgB <;>
      cases VmConfig.validate_identifier ids u.id <;> simp [ih]

lemma stageUsers_congr (cfgA cfgB : VmConfig)
    (hf : cfgA.user_devices = cfgB.user_devices)
    (hb : VmConfig.backed_by_shared_memory cfgA = VmConfig.backed_by_shared_memory cfgB)
    (h : ∀ u, UserDeviceConfig.validate u cfgA = UserDeviceConfig.validate u cfgB) :
    ∀ ids, stageUsers cfgA ids = stageUsers cfgB ids := by
  intro ids
  unfold stageUsers
  rw [hf, hb]
  cases cfgB.user_devices with
  | none => rfl
  | some uds => simp [userLoop_congr h]

lemma stageUsers_iommu (cfg : VmConfig) (b : Bool) (ids : List String) :
    stageUsers {cfg with iommu := b} ids = stageUsers cfg ids :=
  stageUsers_congr {cfg with iommu := b} cfg rfl rfl (fun _ => rfl) ids

lemma vdpaLoop_congr {cfgA cfgB : VmConfig}
    (h : ∀ v, VdpaConfig.validate v cfgA = VdpaConfig.validate v cfgB) :
    ∀ vds ids io, vdpaLoop cfgA vds ids io = vdpaLoop cfgB vds ids io := by
  intro vds
  induction vds with
  | nil => intro ids io; rfl
  | cons v rest ih =>
    intro ids io
    unfold vdpaLoop
    rw [h v]
    cases VdpaConfig.validate v cfgB <;>
      cases VmConfig.validate_identifier ids v.id <;> simp [ih]

lemma stageVdpa_congr (cfgA cfgB : VmConfig)
    (hf : cfgA.vdpa = cfgB.vdpa)
    (h : ∀ v, VdpaConfig.validate v cfgA = VdpaConfig.validate v cfgB) :
    ∀ ids io, stageVdpa cfgA ids io = stageVdpa cfgB ids io := by
  intro ids io
  unfold stageVdpa
  rw [hf]
  cases cfgB.vdpa <;> simp [vdpaLoop_congr h]

lemma stageVdpa_iommu (cfg : VmConfig) (b : Bool) (ids : List String) (io : Bool) :
    stageVdpa {cfg with iommu := b} ids io = stageVdpa cfg ids io :=
  stageVdpa_congr {cfg with iommu := b} cfg rfl (fun _ => rfl) ids io

lemma deviceLoop_congr {cfgA cfgB : VmConfig}
    (h : ∀ d, DeviceConfig.validate d cfgA = DeviceConfig.validate d cfgB) :
    ∀ devs ids io paths, deviceLoop cfgA devs ids io paths = deviceLoop cfgB devs ids io paths := by
  intro devs
  induction devs with
  | nil => intro ids io paths; rfl
  | cons d rest ih =>
    intro ids io paths
    unfold deviceLoop
    rw [h d]
    split_ifs
    · rfl
    · cases DeviceConfig.validate d cfgB <;>
        cases VmConfig.validate_identifier ids d.id <;> simp [ih]

lemma stageDevices_congr (cfgA cfgB : VmConfig)
    (hf : cfgA.devices = cfgB.devices)
    (h : ∀ d, DeviceConfig.validate d cfgA = DeviceConfig.validate d cfgB) :
    ∀ ids io, stageDevices cfgA ids io = stageDevices cfgB ids io := by
  intro ids io
  unfold stageDevices
  rw [hf]
  cases cfgB.devices <;> simp [deviceLoop_congr h]

lemma stageDevices_iommu (cfg : VmConfig) (b : Bool) (ids : List String) (io : Bool) :
    stageDevices {cfg with iommu := b} ids io = stageDevices cfg ids io :=
  stageDevices_congr {cfg with iommu := b} cfg rfl (fun _ => rfl) ids io

lemma pciSegsLoop_congr {cfgA cfgB : VmConfig}
    (h : ∀ p, PciSegmentConfig.validate p cfgA = PciSegmentConfig.validate p cfgB) :
    ∀ segs, pciSegsLoop cfgA segs = pciSegsLoop cfgB segs := by
  intro segs
  induction segs with
  | nil => rfl
  | cons p rest ih =>
    unfold pciSegsLoop
    rw [h p]
    cases PciSegmentConfig.validate p cfgB <;> simp [ih]

lemma stagePciSegs_congr (cfgA cfgB : VmConfig)
    (hf : cfgA.pci_segments = cfgB.pci_segments)
    (h : ∀ p, PciSegmentConfig.validate p cfgA = PciSegmentConfig.validate p cfgB) :
    stagePciSegs cfgA = stagePciSegs cfgB := by
  unfold stagePciSegs
  rw [hf]
  cases cfgB.pci_segments <;> simp [pciSegsLoop_congr h]

lemma stagePciSegs_iommu (cfg : VmConfig) (b : Bool) :
    stagePciSegs {cfg with iommu := b} = stagePciSegs cfg :=
  stagePciSegs_congr {cfg with iommu := b} cfg rfl (fun _ => rfl)

lemma diskLoop_acc {cfg : VmConfig} {disks : List DiskConfig}
    {ids ids' : List String} {a a' : Bool}
    (h : diskLoop cfg disks ids a = .ok (ids', a')) :
    ∃ X, a' = (a || X) ∧ ∀ b, diskLoop cfg disks ids b = .ok (ids', b || X) := by
  induction disks generalizing ids a with
  | nil =>
    unfold diskLoop at h
    obtain ⟨rfl, rfl⟩ := Prod.mk.inj (Except.ok.inj h)
    exact ⟨false, by simp, fun b => by unfold diskLoop; simp⟩
  | cons d rest ih =>
    unfold diskLoop at h
    cases hs : diskStep cfg d ids with
    | error e => rw [hs] at h; simp at h
    | ok ids1 =>
      rw [hs] at h
      dsimp only [] at h
      obtain ⟨X, hX, hAll⟩ := ih h
      refine ⟨d.iommu || X, by rw [hX]; simp [Bool.or_assoc], ?_⟩
      intro b
      unfold diskLoop
      rw [hs]
      dsimp only []
      rw [hAll (b || d.iommu)]
      simp [Bool.or_assoc]

lemma stageDisks_acc {cfg : VmConfig} {ids ids' : List String} {a a' : Bool}
    (h : stageDisks cfg ids a = .ok (ids', a')) :
    ∃ X, a' = (a || X) ∧ ∀ b, stageDisks cfg ids b = .ok (ids', b || X) := by
  cases hd : cfg.disks with
  | none =>
    unfold stageDisks at h
    rw [hd] at h
    dsimp only [] at h
    obtain ⟨rfl, rfl⟩ := Prod.mk.inj (Except.ok.inj h)
    exact ⟨false, by simp, fun b => by unfold stageDisks; rw [hd]; simp⟩
  | some disks =>
    unfold stageDisks at h
    rw [hd] at h
    dsimp only [] at h
    obtain ⟨X, hX, hAll⟩ := diskLoop_acc h
    exact ⟨X, hX, fun b => by
      unfold stageDisks
      rw [hd]
      dsimp only []
      exact hAll b⟩

lemma netLoop_acc {cfg : VmConfig} {nets : List NetConfig}
    {ids ids' : List String} {a a' : Bool}
    (h : netLoop cfg nets ids a = .ok (ids', a')) :
    ∃ X, a' = (a || X) ∧ ∀ b, netLoop cfg nets ids b = .ok (ids', b || X) := by
  induction nets generalizing ids a with
  | nil =>
    unfold netLoop at h
    obtain ⟨rfl, rfl⟩ := Prod.mk.inj (Except.ok.inj h)
    exact ⟨false, by simp, fun b => by unfold netLoop; simp⟩
  | cons n rest ih =>
    unfold netLoop at h
    cases hs : netStep cfg n ids with
    | error e => rw [hs] at h; simp at h
    | ok ids1 =>
      rw [hs] at h
      dsimp only [] at h
      obtain ⟨X, hX, hAll⟩ := ih h
      refine ⟨n.iommu || X, by rw [hX]; simp [Bool.or_assoc], ?_⟩
      intro b
      unfold netLoop
      rw [hs]
      dsimp only []
      rw [hAll (b || n.iommu)]
      simp [Bool.or_assoc]

lemma stageNets_acc {cfg : VmConfig} {ids ids' : List String} {a a' : Bool}
    (h : stageNets cfg ids a = .ok (ids', a')) :
    ∃ X, a' = (a || X) ∧ ∀ b, stageNets cfg ids b = .ok (ids', b || X) := by
  cases hd : cfg.net with
  | none =>
    unfold stageNets at h
    rw [hd] at h
    dsimp only [] at h
    obtain ⟨rfl, rfl⟩ := Prod.mk.inj (Except.ok.inj h)
    exact ⟨false, by simp, fun b => by unfold stageNets; rw [hd]; simp⟩
  | some nets =>
    unfold stageNets at h
    rw [hd] at h
    dsimp only [] at h
    obtain ⟨X, hX, hAll⟩ := netLoop_acc h
    exact ⟨X, hX, fun b => by
      unfold stageNets
      rw [hd]
      dsimp only []
      exact hAll b⟩

lemma pmemLoop_acc {cfg : VmConfig} {pmems : List PmemConfig}
    {ids ids' : List String} {a a' : Bool}
    (h : pmemLoop cfg pmems ids a = .ok (ids', a')) :
    ∃ X, a' = (a || X) ∧ ∀ b, pmemLoop cfg pmems ids b = .ok (ids', b || X) := by
  induction pmems generalizing ids a with
  | nil =>
    unfold pmemLoop at h
    obtain ⟨rfl, rfl⟩ := Prod.mk.inj (Except.ok.inj h)
    exact ⟨false, by simp, fun b => by unfold pmemLoop; simp⟩
  | cons p rest ih =>
    unfold pmemLoop at h
    cases hv : PmemConfig.validate p cfg with
    | error e => rw [hv] at h; simp at h
    | ok u =>
      rw [hv] at h
      dsimp only [] at h
      cases hi : VmConfig.validate_identifier ids p.id with
      | error e => rw [hi] at h; simp at h
      | ok ids1 =>
        rw [hi] at h
        dsimp only [] at h
        obtain ⟨X, hX, hAll⟩ := ih h
        refine ⟨p.iommu || X, by rw [hX]; simp [Bool.or_assoc], ?_⟩
        intro b
        unfold pmemLoop
        rw [hv]
        dsimp only []
        rw [hi]
        dsimp only []
        rw [hAll (b || p.iommu)]
        simp [Bool.or_assoc]

lemma stagePmem_acc {cfg : VmConfig} {ids ids' : List String} {a a' : Bool}
    (h : stagePmem cfg ids a = .ok (ids', a')) :
    ∃ X, a' = (a || X) ∧ ∀ b, stagePmem cfg ids b = .ok (ids', b || X) := by
  cases hd : cfg.pmem with
  | none =>
    unfold stagePmem at h
    rw [hd] at h
    dsimp only [] at h
    obtain ⟨rfl, rfl⟩ := Prod.mk.inj (Except.ok.inj h)
    exact ⟨false, by simp, fun b => by unfold stagePmem; rw [hd]; simp⟩
  | some pmems =>
    unfold stagePmem at h
    rw [hd] at h
    dsimp only [] at h
    obtain ⟨X, hX, hAll⟩ := pmemLoop_acc h
    exact ⟨X, hX, fun b => by
      unfold stagePmem
      rw [hd]
      dsimp only []
      exact hAll b⟩

lemma vdpaLoop_acc {cfg : VmConfig} {vds : List VdpaConfig}
    {ids ids' : List String} {a a' : Bool}
    (h : vdpaLoop cfg vds ids a = .ok (ids', a')) :
    ∃ X, a' = (a || X) ∧ ∀ b, vdpaLoop cfg vds ids b = .ok (ids', b || X) := by
  induction vds generalizing ids a with
  | nil =>
    unfold vdpaLoop at h
    obtain ⟨rfl, rfl⟩ := Prod.mk.inj (Except.ok.inj h)
    exact ⟨false, by simp, fun b => by unfold vdpaLoop; simp⟩
  | cons v rest ih =>
    unfold vdpaLoop at h
    cases hv : VdpaConfig.validate v cfg with
    | error e => rw [hv] at h; simp at h
    | ok u =>
      rw [hv] at h
      dsimp only [] at h
      cases hi : VmConfig.validate_identifier ids v.id with
      | error e => rw [hi] at h; simp at h
      | ok ids1 =>
        rw [hi] at h
        dsimp only [] at h
        obtain ⟨X, hX, hAll⟩ := ih h
        refine ⟨v.iommu || X, by rw [hX]; simp [Bool.or_assoc], ?_⟩
        intro b
        unfold vdpaLoop
        rw [hv]
        dsimp only []
        rw [hi]
        dsimp only []
        rw [hAll (b || v.iommu)]
        simp [Bool.or_assoc]

lemma stageVdpa_acc {cfg : VmConfig} {ids ids' : List String} {a a' : Bool}
    (h : stageVdpa cfg ids a = .ok (ids', a')) :
    ∃ X, a' = (a || X) ∧ ∀ b, stageVdpa cfg ids b = .ok (ids', b || X) := by
  cases hd : cfg.vdpa with
  | none =>
    unfold stageVdpa at h
    rw [hd] at h
    dsimp only [] at h
    obtain ⟨rfl, rfl⟩ := Prod.mk.inj (Except.ok.inj h)
    exact ⟨false, by simp, fun b => by unfold stageVdpa; rw [hd]; simp⟩
  | some vds =>
    unfold stageVdpa at h
    rw [hd] at h
    dsimp only [] at h
    obtain ⟨X, hX, hAll⟩ := vdpaLoop_acc h
    exact ⟨X, hX, fun b => by
      unfold stageVdpa
      rw [hd]
      dsimp only []
      exact hAll b⟩

lemma deviceLoop_acc {cfg : VmConfig} {devs : List DeviceConfig}
    {ids ids' : List String} {a a' : Bool} {paths : List String}
    (h : deviceLoop cfg devs ids a paths = .ok (ids', a')) :
    ∃ X, a' = (a || X) ∧ ∀ b, deviceLoop cfg devs ids b paths = .ok (ids', b || X) := by
  induction devs generalizing ids a paths with
  | nil =>
    unfold deviceLoop at h
    obtain ⟨rfl, rfl⟩ := Prod.mk.inj (Except.ok.inj h)
    exact ⟨false, by simp, fun b => by unfold deviceLoop; simp⟩
  | cons d rest ih =>
    unfold deviceLoop at h
    by_cases hp : d.path ∈ paths
    · rw [if_pos hp] at h
      simp at h
    rw [if_neg hp] at h
    cases hv : DeviceConfig.validate d cfg with
    | error e => rw [hv] at h; simp at h
    | ok u =>
      rw [hv] at h
      dsimp only [] at h
      cases hi : VmConfig.validate_identifier ids d.id with
      | error e => rw [hi] at h; simp at h
      | ok ids1 =>
        rw [hi] at h
        dsimp only [] at h
        obtain ⟨X, hX, hAll⟩ := ih h
        refine ⟨d.iommu || X, by rw [hX]; simp [Bool.or_assoc], ?_⟩
        intro b
        unfold deviceLoop
        rw [if_neg hp]
        rw [hv]
        dsimp only []
        rw [hi]
        dsimp only []
        rw [hAll (b || d.iommu)]
        simp [Bool.or_assoc]

lemma stageDevices_acc {cfg : VmConfig} {ids ids' : List String} {a a' : Bool}
    (h : stageDevices cfg ids a = .ok (ids', a')) :
    ∃ X, a' = (a || X) ∧ ∀ b, stageDevices cfg ids b = .ok (ids', b || X) := by
  cases hd : cfg.devices with
  | none =>
    unfold stageDevices at h
    rw [hd] at h
    dsimp only [] at h
    obtain ⟨rfl, rfl⟩ := Prod.mk.inj (Except.ok.inj h)
    exact ⟨false, by simp, fun b => by unfold stageDevices; rw [hd]; simp⟩
  | some devs =>
    unfold stageDevices at h
    rw [hd] at h
    dsimp only [] at h
    obtain ⟨X, hX, hAll⟩ := deviceLoop_acc h
    exact ⟨X, hX, fun b => by
      unfold stageDevices
      rw [hd]
      dsimp only []
      exact hAll b⟩

lemma stageVsock_acc {cfg : VmConfig} {ids ids' : List String} {a a' : Bool}
    (h : stageVsock cfg ids a = .ok (ids', a')) :
    ∃ X, a' = (a || X) ∧ ∀ b, stageVsock cfg ids b = .ok (ids', b || X) := by
  cases hd : cfg.vsock with
  | none =>
    unfold stageVsock at h
    rw [hd] at h
    dsimp only [] at h
    obtain ⟨rfl, rfl⟩ := Prod.mk.inj (Except.ok.inj h)
    exact ⟨false, by simp, fun b => by unfold stageVsock; rw [hd]; simp⟩
  | some v =>
    unfold stageVsock at h
    rw [hd] at h
    dsimp only [] at h
    cases hv : VsockConfig.validate v cfg with
    | error e => rw [hv] at h; simp at h
    | ok u =>
      rw [hv] at h
      dsimp only [] at h
      cases hi : VmConfig.validate_identifier ids v.id with
      | error e => rw [hi] at h; simp at h
      | ok ids1 =>
        rw [hi] at h
        dsimp only [] at h
        obtain ⟨rfl, rfl⟩ := Prod.mk.inj (Except.ok.inj h)
        refine ⟨v.iommu, rfl, ?_⟩
        intro b
        unfold stageVsock
        rw [hd]
        dsimp only []
        rw [hv]
        dsimp only []
        rw [hi]

lemma preBalloon_acc {cfg : VmConfig} {S : List String} {io : Bool}
    (h : validatePreBalloon cfg = .ok (S, io)) :
    ∃ X, io = (cfg.iommu || X) ∧
      ∀ b, validatePreBalloon {cfg with iommu := b} = .ok (S, b || X) := by
  unfold validatePreBalloon at h
  split at h
  · simp at h
  rename_i u1 hpay
  split at h
  · simp at h
  rename_i u2 hcon
  split at h
  · simp at h
  rename_i u3 hcpu
  split at h
  · simp at h
  rename_i ids1 hrlg
  split at h
  · simp at h
  rename_i ids2 io2 hdisk
  split at h
  · simp at h
  rename_i ids3 io3 hnet
  split at h
  · simp at h
  rename_i ids4 hfs
  split at h
  · simp at h
  rename_i ids5 io5 hpmem
  dsimp only [] at h
  split at h
  · simp at h
  rename_i u4 htop
  split at h
  · simp at h
  rename_i u5 hhug
  split at h
  · simp at h
  rename_i ids6 huser
  split at h
  · simp at h
  rename_i ids7 io7 hvdpa
  split at h
  · simp at h
  rename_i u6 hcid
  obtain ⟨rfl, rfl⟩ := Prod.mk.inj (Except.ok.inj h)
  obtain ⟨X1, hX1, hD⟩ := stageDisks_acc hdisk
  obtain ⟨X2, hX2, hN⟩ := stageNets_acc hnet
  obtain ⟨X3, hX3, hP⟩ := stagePmem_acc hpmem
  obtain ⟨X4, hX4, hV⟩ := stageVdpa_acc hvdpa
  refine ⟨X1 || X2 || X3 || cfg.rng.iommu || cfg.console.iommu || X4, ?_, ?_⟩
  · rw [hX4, hX3, hX2, hX1]
    simp [Bool.or_assoc]
  · intro b
    unfold validatePreBalloon
    dsimp only []
    rw [stagePayload_iommu, hpay]
    dsimp only []
    rw [stageConsoles_iommu, hcon]
    dsimp only []
    rw [stageCpusOrder_iommu, hcpu]
    dsimp only []
    rw [stageRlgs_iommu, hrlg]
    dsimp only []
    rw [stageDisks_iommu, hD b]
    dsimp only []
    rw [stageNets_iommu, hN (b || X1)]
    dsimp only []
    rw [stageFs_iommu, hfs]
    dsimp only []
    rw [stagePmem_iommu, hP (b || X1 || X2)]
    dsimp only []
    rw [stageTopology_iommu, htop]
    dsimp only []
    rw [stageHugepages_iommu, hhug]
    dsimp only []
    rw [stageUsers_iommu, huser]
    dsimp only []
    rw [stageVdpa_iommu, hV (b || X1 || X2 || X3 || cfg.rng.iommu || cfg.console.iommu)]
    dsimp only []
    rw [stageVsockCid_iommu, hcid]
    dsimp only []
    simp [Bool.or_assoc]

lemma preNuma_acc {cfg : VmConfig} {S : List String} {io : Bool}
    (h : validatePreNuma cfg = .ok (S, io)) :
    ∃ X, io = (cfg.iommu || X) ∧
      ∀ b, validatePreNuma {cfg with iommu := b} = .ok (S, b || X) := by
  unfold validatePreNuma at h
  split at h
  · simp at h
  rename_i ids0 io0 hpb
  split at h
  · simp at h
  rename_i u1 hball
  split at h
  · simp at h
  rename_i ids1 io1 hdev
  obtain ⟨X0, hX0, hPB⟩ := preBalloon_acc hpb
  obtain ⟨X1, hX1, hDv⟩ := stageDevices_acc hdev
  obtain ⟨X2, hX2, hVs⟩ := stageVsock_acc h
  refine ⟨X0 || X1 || X2, ?_, ?_⟩
  · rw [hX2, hX1, hX0]
    simp [Bool.or_assoc]
  · intro b
    unfold validatePreNuma
    rw [hPB b]
    dsimp only []
    rw [stageBalloon_iommu, hball]
    dsimp only []
    rw [stageDevices_iommu, hDv (b || X0)]
    dsimp only []
    rw [stageVsock_iommu, hVs (b || X0 || X1)]
    simp [Bool.or_assoc]

lemma core_acc {env : ExtEnv} {cfg : VmConfig} {S : List String} {io : Bool}
    (h : validateCore env cfg = .ok (S, io)) :
    ∃ X, io = (cfg.iommu || X) ∧
      ∀ b, validateCore env {cfg with iommu := b} = .ok (S, b || X) := by
  unfold validateCore at h
  split at h
  · simp at h
  rename_i ids0 io0 hpn
  split at h
  · simp at h
  rename_i u1 hnuma
  split at h
  · simp at h
  rename_i ids1 hz
  split at h
  · simp at h
  rename_i ids2 hsx
  split at h
  · simp at h
  rename_i u2 hpci
  split at h
  · simp at h
  rename_i u3 hplat
  dsimp only [] at h
  split at h
  · simp at h
  rename_i u4 hll
  obtain ⟨rfl, rfl⟩ := Prod.mk.inj (Except.ok.inj h)
  obtain ⟨X0, hX0, hPN⟩ := preNuma_acc hpn
  refine ⟨X0 || (match cfg.platform with
    | some p => p.iommu_segments.isSome
    | none => false), ?_, ?_⟩
  · rw [hX0]
    simp [Bool.or_assoc]
  · intro b
    unfold validateCore
    rw [hPN b]
    dsimp only []
    rw [stageNuma_iommu, hnuma]
    dsimp only []
    rw [stageZoneIds_iommu, hz]
    dsimp only []
    rw [stageSgxIds_iommu, hsx]
    dsimp only []
    rw [stagePciSegs_iommu, hpci]
    dsimp only []
    rw [stagePlatform_iommu, hplat]
    dsimp only []
    rw [stageLandlock_iommu, hll]
    dsimp only []
    simp [Bool.or_assoc]

/-- C9: `validate` is idempotent on a config it accepts — a first call
returning `Ok` with id set `S` mutates only the aggregate `iommu` flag,
and calling `validate` again on the mutated config returns `Ok` with the
same `S` and leaves the config unchanged (the aggregate is already
saturated, so re-OR-ing every device bit into it changes nothing). -/
theorem c9_validate_idempotent (env : ExtEnv) (cfg cfg' : VmConfig) (S : List String)
    (h : VmConfig.validate env cfg = (cfg', .ok S)) :
    VmConfig.validate env cfg' = (cfg', .ok S) := by
  unfold VmConfig.validate at h
  cases hc : validateCore env cfg with
  | error e =>
    rw [hc] at h
    dsimp only [] at h
    have h2 := congrArg Prod.snd h
    simp at h2
  | ok st =>
    obtain ⟨ids, io⟩ := st
    rw [hc] at h
    dsimp only [] at h
    have h1 := congrArg Prod.fst h
    have h2 := congrArg Prod.snd h
    dsimp only [] at h1 h2
    obtain rfl : ids = S := Except.ok.inj h2
    subst h1
    obtain ⟨X, hX, hAll⟩ := core_acc hc
    have hio : (io || X) = io := by
      rw [hX, Bool.or_assoc, Bool.or_self]
    have hc2 : validateCore env {cfg with iommu := io} = .ok (ids, io) := by
      rw [hAll io, hio]
    unfold VmConfig.validate
    rw [hc2]

theorem c9_validate_idempotent_witness :
    VmConfig.validate defaultEnv baseCfg = (baseCfg, .ok []) :=
  c9_validate_idempotent defaultEnv baseCfg baseCfg [] rfl

/-! ## C3 — restore fd-matching -/

lemma find?_removeKey_ne {m : List (String × RestoredNetConfig)} {i j : String}
    (hij : i ≠ j) :
    (removeKey m j).find? (fun p => p.1 == i) = m.find? (fun p => p.1 == i) := by
  induction m with
  | nil => rfl
  | cons p rest ih =>
    unfold removeKey at ih ⊢
    by_cases hpj : p.1 = j
    · rw [List.filter_cons]
      simp only [hpj]
      rw [if_neg (by simp)]
      rw [ih]
      have : (p.1 == i) = false := by
        simp [hpj]
        exact fun hc => hij hc.symm
      rw [List.find?_cons, this]
    · rw [List.filter_cons]
      rw [if_pos (by simp [hpj])]
      rw [List.find?_cons, List.find?_cons]
      cases hpi : (p.1 == i) with
      | true => rfl
      | false => exact ih

lemma buildMap_ok {entries : List RestoredNetConfig}
    {acc : List (String × RestoredNetConfig)}
    (hassert : ∀ n ∈ entries,
      n.num_fds = (match n.fds with | some f => f.length | none => 0))
    (hnodup : ((acc.map Prod.fst) ++ entries.map (fun n => n.id)).Nodup) :
    restoreBuildMap entries acc
      = some (.ok (acc ++ entries.map (fun n => (n.id, n)))) := by
  induction entries generalizing acc with
  | nil => simp [restoreBuildMap]
  | cons n rest ih =>
    unfold restoreBuildMap
    rw [if_neg (by simp [hassert n (by simp)])]
    have hfresh : n.id ∉ acc.map Prod.fst := by
      intro hc
      rw [List.nodup_append] at hnodup
      exact hnodup.2.2 hc (by simp)
    have hfind : acc.find? (fun e => e.1 == n.id) = none := by
      rw [List.find?_eq_none]
      intro p hp hc
      exact hfresh (List.mem_map.mpr ⟨p, hp, by simpa using hc⟩)
    rw [if_neg (by rw [hfind]; simp)]
    rw [ih (fun n' h' => hassert n' (by simp [h'])) ?_]
    · simp
    · simp only [List.map_append, List.map_cons, List.map_nil]
      rw [List.append_assoc]
      simpa using hnodup

lemma buildMap_ok_val {entries : List RestoredNetConfig}
    {acc m : List (String × RestoredNetConfig)}
    (h : restoreBuildMap entries acc = some (.ok m)) :
    m = acc ++ entries.map (fun n => (n.id, n)) := by
  induction entries generalizing acc with
  | nil =>
    unfold restoreBuildMap at h
    obtain rfl := Except.ok.inj (Option.some.inj h)
    simp
  | cons n rest ih =>
    unfold restoreBuildMap at h
    by_cases h1 : n.num_fds ≠ (match n.fds with | some f => f.length | none => 0)
    · rw [if_pos h1] at h
      simp at h
    rw [if_neg h1] at h
    by_cases h2 : (acc.find? (fun e => e.1 == n.id)).isSome = true
    · rw [if_pos h2] at h
      simp at h
    · rw [if_neg h2] at h
      rw [ih h]
      simp

lemma buildMap_err_shape {entries : List RestoredNetConfig}
    {acc : List (String × RestoredNetConfig)} {e : ValidationError}
    (h : restoreBuildMap entries acc = some (.error e)) :
    ∃ i, e = .IdentifierNotUnique i := by
  induction entries generalizing acc with
  | nil => simp [restoreBuildMap] at h
  | cons n rest ih =>
    unfold restoreBuildMap at h
    by_cases h1 : n.num_fds ≠ (match n.fds with | some f => f.length | none => 0)
    · rw [if_pos h1] at h
      simp at h
    rw [if_neg h1] at h
    by_cases h2 : (acc.find? (fun e => e.1 == n.id)).isSome = true
    · rw [if_pos h2] at h
      exact ⟨n.id, (Except.error.inj (Option.some.inj h)).symm⟩
    · rw [if_neg h2] at h
      exact ih h

lemma buildMap_err {entries : List RestoredNetConfig}
    {acc : List (String × RestoredNetConfig)}
    (hassert : ∀ n ∈ entries,
      n.num_fds = (match n.fds with | some f => f.length | none => 0))
    (hacc : (acc.map Prod.fst).Nodup)
    (hdup : ¬ ((acc.map Prod.fst) ++ entries.map (fun n => n.id)).Nodup) :
    ∃ i, restoreBuildMap entries acc = some (.error (.IdentifierNotUnique i)) ∧
      i ∈ entries.map (fun n => n.id) := by
  induction entries generalizing acc with
  | nil => exact absurd (by simpa using hacc) hdup
  | cons n rest ih =>
    unfold restoreBuildMap
    rw [if_neg (by simp [hassert n (by simp)])]
    by_cases hmem : n.id ∈ acc.map Prod.fst
    · obtain ⟨p, hp, hpe⟩ := List.mem_map.mp hmem
      have hfind : (acc.find? (fun e => e.1 == n.id)).isSome = true := by
        cases hfound : acc.find? (fun e => e.1 == n.id) with
        | none =>
          rw [List.find?_eq_none] at hfound
          exact absurd (by simpa using hpe) (hfound p hp)
        | some q => rfl
      rw [if_pos hfind]
      exact ⟨n.id, rfl, by simp⟩
    · have hfind : acc.find? (fun e => e.1 == n.id) = none := by
        rw [List.find?_eq_none]
        intro p hp hc
        exact hmem (List.mem_map.mpr ⟨p, hp, by simpa using hc⟩)
      rw [if_neg (by rw [hfind]; simp)]
      have hacc' : ((acc ++ [(n.id, n)]).map Prod.fst).Nodup := by
        simp only [List.map_append]
        rw [List.nodup_append]
        refine ⟨hacc, by simp, ?_⟩
        intro a ha hb
        simp at hb
        subst hb
        exact hmem ha
      have hdup' : ¬ (((acc ++ [(n.id, n)]).map Prod.fst)
          ++ rest.map (fun n => n.id)).Nodup := by
        intro hc
        apply hdup
        simp only [List.map_append] at hc
        rw [List.append_assoc] at hc
        simpa using hc
      obtain ⟨i, hvi, hmi⟩ := ih (fun n' h' => hassert n' (by simp [h'])) hacc' hdup'
      exact ⟨i, hvi, by simp [hmi]⟩

/-- The ids of the fd-backed NICs of a net list, in order. -/
def liveFdIds (nets : List NetConfig) : List String :=
  nets.filterMap (fun n => if n.fds.isSome then n.id else none)

lemma matchNets_ok_iff {nets : List NetConfig} {m : List (String × RestoredNetConfig)}
    (hid : ∀ net ∈ nets, net.fds.isSome → net.id.isSome)
    (hnodup : (liveFdIds nets).Nodup) :
    restoreMatchNets m nets = some (.ok ()) ↔
      ∀ net ∈ nets, ∀ fds, net.fds = some fds →
        ∃ i, net.id = some i ∧
          ∃ p, m.find? (fun q => q.1 == i) = some p ∧ p.2.num_fds = fds.length := by
  induction nets generalizing m with
  | nil => simp [restoreMatchNets]
  | cons net rest ih =>
    have hid' : ∀ n ∈ rest, n.fds.isSome → n.id.isSome :=
      fun n hn => hid n (List.mem_cons_of_mem _ hn)
    unfold restoreMatchNets
    cases hfds : net.fds with
    | none =>
      dsimp only []
      have hnodup' : (liveFdIds rest).Nodup := by
        unfold liveFdIds at hnodup ⊢
        simpa [List.filterMap_cons, hfds] using hnodup
      rw [ih hid' hnodup']
      rw [List.forall_mem_cons]
      simp [hfds]
    | some fds0 =>
      have hsome : net.id.isSome := hid net (by simp) (by rw [hfds]; rfl)
      obtain ⟨i, hi⟩ := Option.isSome_iff_exists.mp hsome
      dsimp only []
      rw [hi]
      dsimp only []
      have hnd := hnodup
      unfold liveFdIds at hnd
      rw [List.filterMap_cons] at hnd
      simp only [hfds, hi, Option.isSome_some, if_true] at hnd
      rw [List.nodup_cons] at hnd
      have hnodup' : (liveFdIds rest).Nodup := hnd.2
      have hne : ∀ net' ∈ rest, ∀ i', net'.id = some i' → net'.fds.isSome = true → i' ≠ i := by
        intro net' hm' i' hi' hsome' hc
        apply hnd.1
        subst hc
        exact List.mem_filterMap.mpr ⟨net', hm', by simp [hsome', hi']⟩
      cases hfind : m.find? (fun q => q.1 == i) with
      | none =>
        dsimp only []
        constructor
        · intro hcc
          simp at hcc
        · intro hR
          obtain ⟨i2, hi2, p, hp, _⟩ := hR net (by simp) fds0 hfds
          rw [hi] at hi2
          obtain rfl := Option.some.inj hi2
          rw [hfind] at hp
          exact Option.noConfusion hp
      | some p =>
        dsimp only []
        by_cases hcnt : p.2.num_fds ≠ fds0.length
        · rw [if_pos hcnt]
          constructor
          · intro hcc
            simp at hcc
          · intro hR
            obtain ⟨i2, hi2, p2, hp2, hlen⟩ := hR net (by simp) fds0 hfds
            rw [hi] at hi2
            obtain rfl := Option.some.inj hi2
            rw [hfind] at hp2
            obtain rfl := Option.some.inj hp2
            exact absurd hlen hcnt
        · rw [if_neg hcnt]
          push_neg at hcnt
          rw [ih hid' hnodup']
          constructor
          · intro hR
            rw [List.forall_mem_cons]
            constructor
            · intro fds hfds'
              rw [hfds] at hfds'
              obtain rfl := Option.some.inj hfds'
              exact ⟨i, hi, p, hfind, hcnt⟩
            · intro net' hm' fds' hfds'
              obtain ⟨i', hi', p', hp', hlen⟩ := hR net' hm' fds' hfds'
              refine ⟨i', hi', p', ?_, hlen⟩
              rw [← find?_removeKey_ne (hne net' hm' i' hi' (by rw [hfds']; rfl))]
              exact hp'
          · intro hR net' hm' fds' hfds'
            obtain ⟨i', hi', p', hp', hlen⟩ :=
              hR net' (List.mem_cons_of_mem _ hm') fds' hfds'
            refine ⟨i', hi', p', ?_, hlen⟩
            rw [find?_removeKey_ne (hne net' hm' i' hi' (by rw [hfds']; rfl))]
            exact hp'

lemma matchNets_missing {nets : List NetConfig} {m : List (String × RestoredNetConfig)}
    {i : String}
    (h : restoreMatchNets m nets = some (.error (.RestoreMissingRequiredNetId i))) :
    ∃ net ∈ nets, net.id = some i ∧ net.fds.isSome = true := by
  induction nets generalizing m with
  | nil => simp [restoreMatchNets] at h
  | cons net rest ih =>
    unfold restoreMatchNets at h
    cases hfds : net.fds with
    | none =>
      rw [hfds] at h
      dsimp only [] at h
      obtain ⟨net', hm', hrest⟩ := ih h
      exact ⟨net', List.mem_cons_of_mem _ hm', hrest⟩
    | some fds0 =>
      rw [hfds] at h
      dsimp only [] at h
      cases hi : net.id with
      | none => rw [hi] at h; simp at h
      | some j =>
        rw [hi] at h
        dsimp only [] at h
        cases hfind : m.find? (fun q => q.1 == j) with
        | none =>
          rw [hfind] at h
          dsimp only [] at h
          obtain rfl := ValidationError.RestoreMissingRequiredNetId.inj
            (Except.error.inj (Option.some.inj h))
          exact ⟨net, by simp, hi, by rw [hfds]; rfl⟩
        | some p =>
          rw [hfind] at h
          dsimp only [] at h
          by_cases hcnt : p.2.num_fds ≠ fds0.length
          · rw [if_pos hcnt] at h
            simp at h
          · rw [if_neg hcnt] at h
            obtain ⟨net', hm', hrest⟩ := ih h
            exact ⟨net', List.mem_cons_of_mem _ hm', hrest⟩

lemma matchNets_mismatch {nets : List NetConfig} {m : List (String × RestoredNetConfig)}
    {i : String} {a e : Nat}
    (h : restoreMatchNets m nets
      = some (.error (.RestoreNetFdCountMismatch i a e))) :
    ∃ net ∈ nets, ∃ fds, net.id = some i ∧ net.fds = some fds ∧ fds.length = e ∧
      ∃ p ∈ m, p.1 = i ∧ p.2.num_fds = a := by
  induction nets generalizing m with
  | nil => simp [restoreMatchNets] at h
  | cons net rest ih =>
    unfold restoreMatchNets at h
    cases hfds : net.fds with
    | none =>
      rw [hfds] at h
      dsimp only [] at h
      obtain ⟨net', hm', hrest⟩ := ih h
      exact ⟨net', List.mem_cons_of_mem _ hm', hrest⟩
    | some fds0 =>
      rw [hfds] at h
      dsimp only [] at h
      cases hi : net.id with
      | none => rw [hi] at h; simp at h
      | some j =>
        rw [hi] at h
        dsimp only [] at h
        cases hfind : m.find? (fun q => q.1 == j) with
        | none =>
          rw [hfind] at h
          dsimp only [] at h
          simp at h
        | some p =>
          rw [hfind] at h
          dsimp only [] at h
          by_cases hcnt : p.2.num_fds ≠ fds0.length
          · rw [if_pos hcnt] at h
            have h3 := Except.error.inj (Option.some.inj h)
            simp only [ValidationError.RestoreNetFdCountMismatch.injEq] at h3
            obtain ⟨rfl, rfl, rfl⟩ := h3
            refine ⟨net, by simp, fds0, hi, hfds, rfl, p,
              List.mem_of_find?_eq_some hfind, ?_, rfl⟩
            simpa using List.find?_some hfind
          · rw [if_neg hcnt] at h
            obtain ⟨net', hm', fds', h1, h2, h3, p', hp', h4, h5⟩ := ih h
            exact ⟨net', List.mem_cons_of_mem _ hm', fds', h1, h2, h3, p',
              List.mem_of_mem_filter hp', h4, h5⟩

lemma find?_pairs {entries : List RestoredNetConfig} {i : String} {L : Nat}
    (hnodup : (entries.map (fun n => n.id)).Nodup) :
    (∃ p, (entries.map (fun n => (n.id, n))).find? (fun q => q.1 == i) = some p ∧
        p.2.num_fds = L) ↔ ∃ n ∈ entries, n.id = i ∧ n.num_fds = L := by
  induction entries with
  | nil => simp
  | cons n rest ih =>
    rw [List.map_cons]
    by_cases hni : (n.id == i) = true
    · rw [List.find?_cons_of_pos _ (by simpa using hni)]
      have hii : n.id = i := by simpa using hni
      constructor
      · rintro ⟨p, hp, hL⟩
        obtain rfl := Option.some.inj hp
        exact ⟨n, by simp, hii, hL⟩
      · rintro ⟨n', hn', hid', hL⟩
        refine ⟨(n.id, n), rfl, ?_⟩
        rcases List.mem_cons.mp hn' with rfl | hmem
        · exact hL
        · exact absurd (List.mem_map.mpr ⟨n', hmem, hid'.trans hii.symm⟩)
            (List.nodup_cons.mp hnodup).1
    · rw [List.find?_cons_of_neg _ (by simpa using hni)]
      rw [ih (List.nodup_cons.mp hnodup).2]
      constructor
      · rintro ⟨n', hmem, hi', hL⟩
        exact ⟨n', List.mem_cons_of_mem _ hmem, hi', hL⟩
      · rintro ⟨n', hmem, hi', hL⟩
        rcases List.mem_cons.mp hmem with rfl | hmem'
        · exact absurd hi' (by simpa using hni)
        · exact ⟨n', hmem', hi', hL⟩

/-- C3: `RestoreConfig::validate` — given that every restore entry's
`num_fds` matches its fd list (the `assert_eq!` precondition) and that the
live config's fd-backed NICs all carry ids, pairwise distinct (the
id-uniqueness invariant `validate` guarantees): a duplicate id in the
restore request is rejected with `IdentifierNotUnique`; with distinct
request ids, the result is `Ok` exactly when every fd-backed NIC of the
live config has a request entry with its id and the exact fd count —
entries left unconsumed are allowed; a missing-id failure names the id of
a live fd-backed NIC, and a count-mismatch failure carries that id, the
entry's (actual) `num_fds`, and the NIC's (expected) fd count. -/
theorem c3_restore_fd_matching (r : RestoreConfig) (cfg : VmConfig)
    (hassert : ∀ n ∈ r.net_fds.getD [],
      n.num_fds = (match n.fds with | some f => f.length | none => 0))
    (hid : ∀ net ∈ cfg.net.getD [], net.fds.isSome → net.id.isSome)
    (hlive : (liveFdIds (cfg.net.getD [])).Nodup) :
    (¬ (((r.net_fds.getD []).map (fun n => n.id)).Nodup) →
      ∃ i, RestoreConfig.validate r cfg = some (.error (.IdentifierNotUnique i)) ∧
        i ∈ (r.net_fds.getD []).map (fun n => n.id)) ∧
    ((((r.net_fds.getD []).map (fun n => n.id)).Nodup) →
      (RestoreConfig.validate r cfg = some (.ok ()) ↔
        ∀ net ∈ cfg.net.getD [], ∀ fds, net.fds = some fds →
          ∃ i, net.id = some i ∧
            ∃ n ∈ r.net_fds.getD [], n.id = i ∧ n.num_fds = fds.length)) ∧
    (∀ i, RestoreConfig.validate r cfg
        = some (.error (.RestoreMissingRequiredNetId i)) →
      ∃ net ∈ cfg.net.getD [], net.id = some i ∧ net.fds.isSome = true) ∧
    (∀ i a e, RestoreConfig.validate r cfg
        = some (.error (.RestoreNetFdCountMismatch i a e)) →
      ∃ net ∈ cfg.net.getD [], ∃ fds, net.id = some i ∧ net.fds = some fds ∧
        fds.length = e ∧
        ∃ n ∈ r.net_fds.getD [], n.id = i ∧ n.num_fds = a) := by
  refine ⟨?_, ?_, ?_, ?_⟩
  · intro hdup
    obtain ⟨i, hb, hmem⟩ := @buildMap_err (r.net_fds.getD []) [] hassert
      (by simp) (by simpa using hdup)
    refine ⟨i, ?_, hmem⟩
    unfold RestoreConfig.validate
    rw [hb]
  · intro hnodup
    have hb := @buildMap_ok (r.net_fds.getD []) [] hassert (by simpa using hnodup)
    unfold RestoreConfig.validate
    rw [hb]
    dsimp only []
    rw [List.nil_append]
    rw [matchNets_ok_iff hid hlive]
    constructor
    · intro H net hm fds hf
      obtain ⟨i, hi, hex⟩ := H net hm fds hf
      exact ⟨i, hi, (find?_pairs hnodup).mp hex⟩
    · intro H net hm fds hf
      obtain ⟨i, hi, hex⟩ := H net hm fds hf
      exact ⟨i, hi, (find?_pairs hnodup).mpr hex⟩
  · intro i h
    unfold RestoreConfig.validate at h
    cases hb : restoreBuildMap (r.net_fds.getD []) [] with
    | none => rw [hb] at h; simp at h
    | some res =>
      cases res with
      | error e =>
        obtain ⟨j, rfl⟩ := buildMap_err_shape hb
        rw [hb] at h
        simp at h
      | ok m =>
        rw [hb] at h
        dsimp only [] at h
        exact matchNets_missing h
  · intro i a e h
    unfold RestoreConfig.validate at h
    cases hb : restoreBuildMap (r.net_fds.getD []) [] with
    | none => rw [hb] at h; simp at h
    | some res =>
      cases res with
      | error e' =>
        obtain ⟨j, rfl⟩ := buildMap_err_shape hb
        rw [hb] at h
        simp at h
      | ok m =>
        rw [hb] at h
        dsimp only [] at h
        obtain ⟨net, hm, fds, h1, h2, h3, p, hp, h4, h5⟩ := matchNets_mismatch h
        have hval := buildMap_ok_val hb
        rw [List.nil_append] at hval
        subst hval
        obtain ⟨n, hn, rfl⟩ := List.mem_map.mp hp
        exact ⟨net, hm, fds, h1, h2, h3, n, hn, h4, h5⟩

def c3Entry0 : RestoredNetConfig := ⟨"net0", 4, some [10, 11, 12, 13]⟩

def c3Entry1 : RestoredNetConfig := ⟨"net1", 2, some [14, 15]⟩

def c3Entry2 : RestoredNetConfig := ⟨"net2", 1, some [16]⟩

def c3Restore : RestoreConfig :=
  ⟨"file:///snapshot", false, some [c3Entry0, c3Entry1, c3Entry2]⟩

def c3Net0 : NetConfig := { baseNet with id := some "net0", fds := some [10, 11, 12, 13] }

def c3Net1 : NetConfig := { baseNet with id := some "net1", fds := some [14, 15] }

def c3Cfg : VmConfig := { baseCfg with net := some [c3Net0, c3Net1] }

theorem c3_restore_fd_matching_witness :
    RestoreConfig.validate c3Restore c3Cfg = some (.ok ()) := by
  have h := (c3_restore_fd_matching c3Restore c3Cfg (by decide) (by decide)
    (by decide)).2.1 (by decide)
  apply h.mpr
  intro net hm fds hf
  rcases List.mem_cons.mp hm with rfl | hm2
  · obtain rfl := Option.some.inj hf
    exact ⟨"net0", rfl, c3Entry0, by decide, rfl, rfl⟩
  rcases List.mem_cons.mp hm2 with rfl | hm3
  · obtain rfl := Option.some.inj hf
    exact ⟨"net1", rfl, c3Entry1, by decide, rfl, rfl⟩
  · simp at hm3

end CHV





